import Mathlib

/-!
Altair8800-IOBus, cassette interface (ACR) simulator

A shallow embedding of `06-cassette-interface/ACR/sim/Arduino.cpp` and
`06-cassette-interface/ACR/sim/main.cpp`.

* Machine integers are natural numbers; every wrap-around of the source
  (`byte`, `unsigned short`, `unsigned int`) is an explicit `% 2^w`.
* The firmware under test (`setup`, `loop`, the interrupt handlers) is not part
  of the simulator: it is a record of functions `Hooks` over the globals the
  firmware can reach (`Mcu`), which hold the registers, the clock and the
  firmware's own memory `fw`.
* Variables private to the simulator (function statics, file statics, the
  globals of `main.cpp`) live in `Sim`, next to a log that records, in order,
  every handler call, bus access and diagnostic the source performs.
-/

namespace ACR

/-! ## Data model -/

/-- Globals of `Arduino.cpp` that the simulator reads or writes, together with
the firmware's private memory `fw` (which also stands for the registers the
simulator never touches). -/
structure Mcu (φ : Type) where
  clock : Nat
  TCCR0B : Nat
  TIMSK0 : Nat
  TIFR0 : Nat
  TCNT0 : Nat
  OCR0A : Nat
  OCR0B : Nat
  TCCR1B : Nat
  TIMSK1 : Nat
  TIFR1 : Nat
  TCNT1 : Nat
  ICR1 : Nat
  OCR1A : Nat
  OCR1B : Nat
  TCCR2A : Nat
  TCCR2B : Nat
  TIMSK2 : Nat
  TIFR2 : Nat
  TCNT2 : Nat
  OCR2A : Nat
  OCR2B : Nat
  PINB : Nat
  PINC : Nat
  PIND : Nat
  PORTD : Nat
  fw : φ

/-- Interrupt vectors the simulator calls. -/
inductive Vect
  | TIMER0_COMPA
  | TIMER0_COMPB
  | TIMER1_CAPT
  | TIMER1_COMPA
  | TIMER1_COMPB
  | TIMER2_COMPA
  | TIMER2_COMPB
  | PCINT0
  | PCINT1
  deriving DecidableEq

/-- Observable actions of the simulator: handler calls and the diagnostics it
prints. -/
inductive Event
  | isr (v : Vect)
  | readBus (reg : Nat)
  | writeBus (reg data : Nat)
  | framingError
  | parityError
  | cmpEnd
  | cmpDiff (expected found : Nat)
  | openFailed
  | notWav
  | badSampleSize
  | fail (elapsed tccr2b : Nat)
  deriving DecidableEq

/-- The firmware under test: one function per `ISR(...)` and for `loop`. -/
structure Hooks (φ : Type) where
  TIMER0_COMPA_vect : Mcu φ → Mcu φ
  TIMER0_COMPB_vect : Mcu φ → Mcu φ
  TIMER1_CAPT_vect : Mcu φ → Mcu φ
  TIMER1_COMPA_vect : Mcu φ → Mcu φ
  TIMER1_COMPB_vect : Mcu φ → Mcu φ
  TIMER2_COMPA_vect : Mcu φ → Mcu φ
  TIMER2_COMPB_vect : Mcu φ → Mcu φ
  PCINT0_vect : Mcu φ → Mcu φ
  PCINT1_vect : Mcu φ → Mcu φ
  loop : Mcu φ → Mcu φ

/-- What `getData` keeps about the comparison: the stream `cmpfile` (`none` for
`NULL`, else the bytes not yet read), the global `ignore_leader_length` and the
static `leader_byte` (`0x100` until the first byte is compared). -/
structure Cmp where
  cmpfile : Option (List Nat)
  ignore_leader_length : Bool
  leader_byte : Nat
  deriving DecidableEq

/-- Simulator state: the firmware-visible globals, the statics of
`setTimer1Capture`, `advanceClock` and `getData`, the globals of `main.cpp`,
and the log. `outfile` is `none` for a `NULL` stream, else the bytes written so
far. `junk` is the indeterminate content of the local `byte d` of `getData`,
which the source declares without initialising. -/
structure Sim (φ : Type) where
  mcu : Mcu φ
  timer1captPrevClock : Nat
  timer1captPrev : Bool
  timer2outputA : Bool
  n : Nat
  cmp : Cmp
  junk : Nat
  keep_going : Bool
  outfile : Option (List Nat)
  log : List Event

/-! ## Arduino.h -/

/-- Source: `#define bit(n) (1<<n)` -/
def bit (n : Nat) : Nat := 1 <<< n

def OCIE0B : Nat := 2
def OCIE0A : Nat := 1
def OCF0A : Nat := 1
def OCF0B : Nat := 2
def ICNC1 : Nat := 7
def ICES1 : Nat := 6
def OCIE1B : Nat := 2
def OCIE1A : Nat := 1
def OCF1A : Nat := 1
def OCF1B : Nat := 2
def COM2A1 : Nat := 7
def COM2A0 : Nat := 6
def WGM21 : Nat := 1
def WGM20 : Nat := 0
def FOC2A : Nat := 7
def WGM22 : Nat := 3
def OCF2B : Nat := 2
def OCF2A : Nat := 1
def OCIE2A : Nat := 1
def OCIE2B : Nat := 2

/-! ## Arduino.cpp -/

/-- Source: `#define CLOCKSCALE 8` -/
def CLOCKSCALE : Nat := 8

/-- Source: `int clockfreq = 8000000 / CLOCKSCALE;` -/
def clockfreq : Nat := 8000000 / CLOCKSCALE

/-- Source: `x & ~m` stored back into a `byte`. -/
def andNot8 (x m : Nat) : Nat := x &&& (0xFF ^^^ m)

/-- A call `ISR_<v>()`: the handler runs on the firmware-visible globals. -/
def callISR {φ : Type} (v : Vect) (f : Mcu φ → Mcu φ) (s : Sim φ) : Sim φ :=
  { s with mcu := f s.mcu, log := s.log ++ [Event.isr v] }

/-- The condition under which `setTimer1Capture` accepts `data` as a transition:
`data != timer1captPrev && ((TCCR1B & bit(ICNC1))==0 || (clock-timer1captPrevClock)>=20)`,
the subtraction being that of `unsigned int`. -/
def accepts {φ : Type} (data : Bool) (s : Sim φ) : Prop :=
  data ≠ s.timer1captPrev ∧
    ((s.mcu.TCCR1B &&& bit ICNC1) = 0 ∨
      (s.mcu.clock + 2 ^ 32 - s.timer1captPrevClock) % 2 ^ 32 ≥ 20)

instance {φ : Type} (data : Bool) (s : Sim φ) : Decidable (accepts data s) := by
  unfold accepts; infer_instance

/-- Source: `ICR1 = TCNT1;` -/
def captureLatch {φ : Type} (s : Sim φ) : Sim φ :=
  { s with mcu := { s.mcu with ICR1 := s.mcu.TCNT1 } }

/-- The edge test of `setTimer1Capture`: falling edge with `ICES1` clear, or
rising edge with `ICES1` set. -/
def captureEdge {φ : Type} (data : Bool) (s : Sim φ) : Prop :=
  ((s.mcu.TCCR1B &&& bit ICES1) = 0 ∧ s.timer1captPrev = true ∧ data = false) ∨
    ((s.mcu.TCCR1B &&& bit ICES1) ≠ 0 ∧ s.timer1captPrev = false ∧ data = true)

instance {φ : Type} (data : Bool) (s : Sim φ) : Decidable (captureEdge data s) := by
  unfold captureEdge; infer_instance

/-- The `if … ISR_TIMER1_CAPT_vect(); else if … ISR_TIMER1_CAPT_vect();` of
`setTimer1Capture`. -/
def captureDispatch {φ : Type} (h : Hooks φ) (data : Bool) (s : Sim φ) : Sim φ :=
  if (s.mcu.TCCR1B &&& bit ICES1) = 0 ∧ s.timer1captPrev = true ∧ data = false then
    callISR Vect.TIMER1_CAPT h.TIMER1_CAPT_vect s
  else if (s.mcu.TCCR1B &&& bit ICES1) ≠ 0 ∧ s.timer1captPrev = false ∧ data = true then
    callISR Vect.TIMER1_CAPT h.TIMER1_CAPT_vect s
  else s

/-- Source: `timer1captPrev = data; timer1captPrevClock = clock;` -/
def captureRemember {φ : Type} (data : Bool) (s : Sim φ) : Sim φ :=
  { s with timer1captPrev := data, timer1captPrevClock := s.mcu.clock }

/-- Body of `setTimer1Capture`. -/
def setTimer1Capture {φ : Type} (h : Hooks φ) (data : Bool) (s : Sim φ) : Sim φ :=
  if accepts data s then captureRemember data (captureDispatch h data (captureLatch s))
  else s

/-- Body of `getTimer2OutputA`. -/
def getTimer2OutputA {φ : Type} (s : Sim φ) : Bool := s.timer2outputA

/-- Source: `prescaler01[8]` of `advanceClock`. -/
def prescaler01 : List Nat := [0, 1, 8, 64, 256, 1024, 0, 0]

/-- Source: `prescaler2[8]` of `advanceClock`. -/
def prescaler2 : List Nat := [0, 1, 8, 32, 64, 128, 256, 1024]

/-- Source: `prescale = prescaler01[TCCR0B & 7] / CLOCKSCALE` -/
def prescale0 {φ : Type} (m : Mcu φ) : Nat := prescaler01.getD (m.TCCR0B &&& 7) 0 / CLOCKSCALE

/-- Source: `prescale = prescaler01[TCCR1B & 7] / CLOCKSCALE` -/
def prescale1 {φ : Type} (m : Mcu φ) : Nat := prescaler01.getD (m.TCCR1B &&& 7) 0 / CLOCKSCALE

/-- Source: `prescale = prescaler2[TCCR2B & 7] / CLOCKSCALE` -/
def prescale2 {φ : Type} (m : Mcu φ) : Nat := prescaler2.getD (m.TCCR2B &&& 7) 0 / CLOCKSCALE

/-- The gate `prescale>0 && (clock & (prescale-1))==0`. -/
def due (prescale clock : Nat) : Prop := prescale > 0 ∧ clock &&& (prescale - 1) = 0

instance (prescale clock : Nat) : Decidable (due prescale clock) := by
  unfold due; infer_instance

/-- Source: `TCNT0++` on a `byte`. -/
def timer0Inc {φ : Type} (s : Sim φ) : Sim φ :=
  { s with mcu := { s.mcu with TCNT0 := (s.mcu.TCNT0 + 1) % 256 } }

/-- The compare test against `OCR0A`. -/
def timer0MatchA {φ : Type} (s : Sim φ) : Sim φ :=
  if s.mcu.TCNT0 = s.mcu.OCR0A then
    { s with mcu := { s.mcu with TIFR0 := s.mcu.TIFR0 ||| bit OCF0A } }
  else s

/-- The compare test against `OCR0B`. -/
def timer0MatchB {φ : Type} (s : Sim φ) : Sim φ :=
  if s.mcu.TCNT0 = s.mcu.OCR0B then
    { s with mcu := { s.mcu with TIFR0 := s.mcu.TIFR0 ||| bit OCF0B } }
  else s

/-- Dispatch of `TIMER0_COMPA_vect`, with the flag cleared after the call. -/
def timer0DispatchA {φ : Type} (h : Hooks φ) (s : Sim φ) : Sim φ :=
  if (s.mcu.TIFR0 &&& bit OCF0A) ≠ 0 ∧ (s.mcu.TIMSK0 &&& bit OCIE0A) ≠ 0 then
    let t := callISR Vect.TIMER0_COMPA h.TIMER0_COMPA_vect s
    { t with mcu := { t.mcu with TIFR0 := andNot8 t.mcu.TIFR0 (bit OCF0A) } }
  else s

/-- Dispatch of `TIMER0_COMPB_vect`, with the flag cleared after the call. -/
def timer0DispatchB {φ : Type} (h : Hooks φ) (s : Sim φ) : Sim φ :=
  if (s.mcu.TIFR0 &&& bit OCF0B) ≠ 0 ∧ (s.mcu.TIMSK0 &&& bit OCIE0B) ≠ 0 then
    let t := callISR Vect.TIMER0_COMPB h.TIMER0_COMPB_vect s
    { t with mcu := { t.mcu with TIFR0 := andNot8 t.mcu.TIFR0 (bit OCF0B) } }
  else s

/-- The statements of the `timer 0` block inside its `if`. -/
def timer0Count {φ : Type} (h : Hooks φ) (s : Sim φ) : Sim φ :=
  timer0DispatchB h (timer0DispatchA h (timer0MatchB (timer0MatchA (timer0Inc s))))

/-- Source: `TIFR0 &= ~(bit(OCF0A) | bit(OCF0B))` -/
def timer0Reset {φ : Type} (s : Sim φ) : Sim φ :=
  { s with mcu := { s.mcu with TIFR0 := andNot8 s.mcu.TIFR0 (bit OCF0A ||| bit OCF0B) } }

/-- The `timer 0` block of `advanceClock`. -/
def timer0 {φ : Type} (h : Hooks φ) (s : Sim φ) : Sim φ :=
  if due (prescale0 (timer0Reset s).mcu) (timer0Reset s).mcu.clock then
    timer0Count h (timer0Reset s)
  else timer0Reset s

/-- Source: `TCNT1++` on an `unsigned short`. -/
def timer1Inc {φ : Type} (s : Sim φ) : Sim φ :=
  { s with mcu := { s.mcu with TCNT1 := (s.mcu.TCNT1 + 1) % 65536 } }

/-- The compare test against `OCR1A`. -/
def timer1MatchA {φ : Type} (s : Sim φ) : Sim φ :=
  if s.mcu.TCNT1 = s.mcu.OCR1A then
    { s with mcu := { s.mcu with TIFR1 := s.mcu.TIFR1 ||| bit OCF1A } }
  else s

/-- The compare test against `OCR1B`. -/
def timer1MatchB {φ : Type} (s : Sim φ) : Sim φ :=
  if s.mcu.TCNT1 = s.mcu.OCR1B then
    { s with mcu := { s.mcu with TIFR1 := s.mcu.TIFR1 ||| bit OCF1B } }
  else s

/-- Dispatch of `TIMER1_COMPA_vect`, with the flag cleared after the call. -/
def timer1DispatchA {φ : Type} (h : Hooks φ) (s : Sim φ) : Sim φ :=
  if (s.mcu.TIFR1 &&& bit OCF1A) ≠ 0 ∧ (s.mcu.TIMSK1 &&& bit OCIE1A) ≠ 0 then
    let t := callISR Vect.TIMER1_COMPA h.TIMER1_COMPA_vect s
    { t with mcu := { t.mcu with TIFR1 := andNot8 t.mcu.TIFR1 (bit OCF1A) } }
  else s

/-- Dispatch of `TIMER1_COMPB_vect`, with the flag cleared after the call. -/
def timer1DispatchB {φ : Type} (h : Hooks φ) (s : Sim φ) : Sim φ :=
  if (s.mcu.TIFR1 &&& bit OCF1B) ≠ 0 ∧ (s.mcu.TIMSK1 &&& bit OCIE1B) ≠ 0 then
    let t := callISR Vect.TIMER1_COMPB h.TIMER1_COMPB_vect s
    { t with mcu := { t.mcu with TIFR1 := andNot8 t.mcu.TIFR1 (bit OCF1B) } }
  else s

/-- The statements of the `timer 1` block inside its `if`. -/
def timer1Count {φ : Type} (h : Hooks φ) (s : Sim φ) : Sim φ :=
  timer1DispatchB h (timer1DispatchA h (timer1MatchB (timer1MatchA (timer1Inc s))))

/-- Source: `TIFR1 &= ~(bit(OCF1A) | bit(OCF1B))` -/
def timer1Reset {φ : Type} (s : Sim φ) : Sim φ :=
  { s with mcu := { s.mcu with TIFR1 := andNot8 s.mcu.TIFR1 (bit OCF1A ||| bit OCF1B) } }

/-- The `timer 1` block of `advanceClock`. -/
def timer1 {φ : Type} (h : Hooks φ) (s : Sim φ) : Sim φ :=
  if due (prescale1 (timer1Reset s).mcu) (timer1Reset s).mcu.clock then
    timer1Count h (timer1Reset s)
  else timer1Reset s

/-- Source: `TCNT2++` on a `byte`. -/
def timer2Inc {φ : Type} (s : Sim φ) : Sim φ :=
  { s with mcu := { s.mcu with TCNT2 := (s.mcu.TCNT2 + 1) % 256 } }

/-- The compare test against `OCR2A`: sets `OCF2A` and `ocmatchA`. -/
def timer2MatchA {φ : Type} (s : Sim φ) : Bool × Sim φ :=
  if s.mcu.TCNT2 = s.mcu.OCR2A then
    (true, { s with mcu := { s.mcu with TIFR2 := s.mcu.TIFR2 ||| bit OCF2A } })
  else (false, s)

/-- The compare test against `OCR2B`: sets `OCF2B` and, as the source has it,
`ocmatchA`. -/
def timer2MatchB {φ : Type} (r : Bool × Sim φ) : Bool × Sim φ :=
  if r.2.mcu.TCNT2 = r.2.mcu.OCR2B then
    (true, { r.2 with mcu := { r.2.mcu with TIFR2 := r.2.mcu.TIFR2 ||| bit OCF2B } })
  else r

/-- The clear-on-compare test, `TCNT2 = 0` when `TCNT2>=OCR2A+1` in the waveform
mode `WGM21`. -/
def timer2Clear {φ : Type} (s : Sim φ) : Sim φ :=
  if s.mcu.TCNT2 ≥ s.mcu.OCR2A + 1 ∧
      (s.mcu.TCCR2A &&& (bit WGM22 ||| bit WGM21 ||| bit WGM20)) = bit WGM21 then
    { s with mcu := { s.mcu with TCNT2 := 0 } }
  else s

/-- Dispatch of `TIMER2_COMPA_vect`, with the flag cleared after the call. -/
def timer2DispatchA {φ : Type} (h : Hooks φ) (s : Sim φ) : Sim φ :=
  if (s.mcu.TIFR2 &&& bit OCF2A) ≠ 0 ∧ (s.mcu.TIMSK2 &&& bit OCIE2A) ≠ 0 then
    let t := callISR Vect.TIMER2_COMPA h.TIMER2_COMPA_vect s
    { t with mcu := { t.mcu with TIFR2 := andNot8 t.mcu.TIFR2 (bit OCF2A) } }
  else s

/-- Dispatch of `TIMER2_COMPB_vect`, with the flag cleared after the call. -/
def timer2DispatchB {φ : Type} (h : Hooks φ) (s : Sim φ) : Sim φ :=
  if (s.mcu.TIFR2 &&& bit OCF2B) ≠ 0 ∧ (s.mcu.TIMSK2 &&& bit OCIE2B) ≠ 0 then
    let t := callISR Vect.TIMER2_COMPB h.TIMER2_COMPB_vect s
    { t with mcu := { t.mcu with TIFR2 := andNot8 t.mcu.TIFR2 (bit OCF2B) } }
  else s

/-- The statements of the `timer 2` block inside its `if`; the Boolean is
`ocmatchA`. -/
def timer2Count {φ : Type} (h : Hooks φ) (s : Sim φ) : Bool × Sim φ :=
  ((timer2MatchB (timer2MatchA (timer2Inc s))).1,
    timer2DispatchB h (timer2DispatchA h
      (timer2Clear (timer2MatchB (timer2MatchA (timer2Inc s))).2)))

/-- Source: `TIFR2 &= ~(bit(OCF2A) | bit(OCF2B))` -/
def timer2Reset {φ : Type} (s : Sim φ) : Sim φ :=
  { s with mcu := { s.mcu with TIFR2 := andNot8 s.mcu.TIFR2 (bit OCF2A ||| bit OCF2B) } }

/-- The `timer 2` block of `advanceClock`; the Boolean is `ocmatchA`, which
starts `false`. -/
def timer2 {φ : Type} (h : Hooks φ) (s : Sim φ) : Bool × Sim φ :=
  if due (prescale2 (timer2Reset s).mcu) (timer2Reset s).mcu.clock then
    timer2Count h (timer2Reset s)
  else (false, timer2Reset s)

/-- The call `loop();`. It is not an interrupt and leaves no log entry. -/
def callLoop {φ : Type} (h : Hooks φ) (s : Sim φ) : Sim φ :=
  { s with mcu := h.loop s.mcu }

/-- The level the output-compare block assigns to `timer2outputA`, from the
`COM2A1` and `COM2A0` bits of `TCCR2A`. -/
def outputMode (tccr2a : Nat) (old : Bool) : Bool :=
  if (tccr2a &&& bit COM2A1) ≠ 0 ∧ (tccr2a &&& bit COM2A0) ≠ 0 then true
  else if (tccr2a &&& bit COM2A1) ≠ 0 then false
  else if (tccr2a &&& bit COM2A0) ≠ 0 then !old
  else old

/-- The condition `(TCCR2B & bit(FOC2A)) || ocmatchA`. -/
def recompute {φ : Type} (ocmatchA : Bool) (s : Sim φ) : Prop :=
  (s.mcu.TCCR2B &&& bit FOC2A) ≠ 0 ∨ ocmatchA = true

instance {φ : Type} (ocmatchA : Bool) (s : Sim φ) : Decidable (recompute ocmatchA s) := by
  unfold recompute; infer_instance

/-- The last block of `advanceClock`, after `loop()`. -/
def timer2Output {φ : Type} (ocmatchA : Bool) (s : Sim φ) : Sim φ :=
  if recompute ocmatchA s then
    { s with
      mcu := { s.mcu with TCCR2B := andNot8 s.mcu.TCCR2B (bit FOC2A) },
      timer2outputA := outputMode s.mcu.TCCR2A s.timer2outputA }
  else s

/-- Source: `clock++` on an `unsigned int`. -/
def tick {φ : Type} (s : Sim φ) : Sim φ :=
  { s with mcu := { s.mcu with clock := (s.mcu.clock + 1) % 2 ^ 32 } }

/-- Source: `clock++` and the three timer blocks of `advanceClock`. -/
def advanceTimers {φ : Type} (h : Hooks φ) (s : Sim φ) : Bool × Sim φ :=
  timer2 h (timer1 h (timer0 h (tick s)))

/-- State of `advanceClock` right after `loop()` returned, with `ocmatchA`. -/
def beforeOutput {φ : Type} (h : Hooks φ) (s : Sim φ) : Bool × Sim φ :=
  ((advanceTimers h s).1, callLoop h (advanceTimers h s).2)

/-- Body of `advanceClock`. -/
def advanceClock {φ : Type} (h : Hooks φ) (s : Sim φ) : Sim φ :=
  timer2Output (beforeOutput h s).1 (beforeOutput h s).2

/-! ## main.cpp -/

/-- Body of `readBus`; the result is the `byte` read from `PORTD`. -/
def readBus {φ : Type} (h : Hooks φ) (reg : Nat) (s : Sim φ) : Nat × Sim φ :=
  ((h.PCINT0_vect { s.mcu with
      PINC := (s.mcu.PINC &&& 0xFE) ||| (reg &&& 1), PINB := s.mcu.PINB ||| 0x02 }).PORTD % 256,
    { s with
      mcu := h.PCINT0_vect { s.mcu with
        PINC := (s.mcu.PINC &&& 0xFE) ||| (reg &&& 1), PINB := s.mcu.PINB ||| 0x02 },
      log := s.log ++ [Event.readBus reg, Event.isr Vect.PCINT0] })

/-- Body of `writeBus`. -/
def writeBus {φ : Type} (h : Hooks φ) (reg data : Nat) (s : Sim φ) : Sim φ :=
  { s with
    mcu := h.PCINT1_vect { s.mcu with
      PIND := data % 256, PINC := (s.mcu.PINC &&& 0xFE) ||| 0x04 ||| (reg &&& 1) },
    log := s.log ++ [Event.writeBus reg data, Event.isr Vect.PCINT1] }

/-- The loop `while( fread(&d, 1, 1, cmpfile)==1 && d==leader_byte );` on the
unread bytes: the final `d` and the bytes left. -/
def skipLeader (leader : Nat) : Nat → List Nat → Nat × List Nat
  | d, [] => (d, [])
  | _, b :: rest => if b = leader then skipLeader leader b rest else (b, rest)

/-- The part of `getData` that fetches the expected byte `d` when a compare
file with unread bytes `f` is attached: the byte `d`, the new comparison state,
and whether the end of the compare file was reported. -/
def expectedByte (junk data : Nat) (c : Cmp) (f : List Nat) : Nat × Cmp × Bool :=
  if c.ignore_leader_length = true then
    if c.leader_byte = 0x100 then
      match f with
      | b :: rest => (b, { c with cmpfile := some rest, leader_byte := b }, false)
      | [] => (junk % 256, { c with leader_byte := junk % 256 }, false)
    else if data = c.leader_byte then (c.leader_byte, c, false)
    else
      ((skipLeader c.leader_byte (junk % 256) f).1,
        { c with cmpfile := some (skipLeader c.leader_byte (junk % 256) f).2,
                 ignore_leader_length := false }, false)
  else
    match f with
    | [] => (data, { c with cmpfile := none }, true)
    | b :: rest => (b, { c with cmpfile := some rest }, false)

/-- The block `if( cmpfile!=NULL ) { … }` of `getData`: whether the byte passes
(`false` is the `return false` of a difference), the new comparison state and
the diagnostics printed. -/
def compareByte (junk data : Nat) (c : Cmp) : Bool × Cmp × List Event :=
  match c.cmpfile with
  | none => (true, c, [])
  | some f =>
    if (expectedByte junk data c f).1 ≠ data then
      (false, (expectedByte junk data c f).2.1,
        (if (expectedByte junk data c f).2.2 = true then [Event.cmpEnd] else []) ++
          [Event.cmpDiff (expectedByte junk data c f).1 data])
    else
      (true, (expectedByte junk data c f).2.1,
        if (expectedByte junk data c f).2.2 = true then [Event.cmpEnd] else [])

/-- The branch `if( (status&0x01)==0 ) { … }` of `getData` once `data` has been
read, up to the final `return`. -/
def gotByte {φ : Type} (status data : Nat) (s : Sim φ) : Bool × Sim φ :=
  if (compareByte s.junk data s.cmp).1 = true then
    (decide (status &&& 0x0C = 0),
      { s with
        outfile := s.outfile.map (fun o => o ++ [data]),
        cmp := (compareByte s.junk data s.cmp).2.1,
        log := s.log ++ (compareByte s.junk data s.cmp).2.2,
        n := s.n + 1 })
  else
    (false,
      { s with
        outfile := s.outfile.map (fun o => o ++ [data]),
        cmp := (compareByte s.junk data s.cmp).2.1,
        log := s.log ++ (compareByte s.junk data s.cmp).2.2 })

/-- Appends a diagnostic to the log. -/
def report {φ : Type} (e : Event) (s : Sim φ) : Sim φ :=
  { s with log := s.log ++ [e] }

/-- Body of `getData`. -/
def getData {φ : Type} (h : Hooks φ) (s : Sim φ) : Bool × Sim φ :=
  if (readBus h 0 s).1 &&& 0x08 ≠ 0 then
    (false, report Event.framingError (readBus h 0 s).2)
  else if (readBus h 0 s).1 &&& 0x04 ≠ 0 then
    (false, report Event.parityError (readBus h 0 s).2)
  else if (readBus h 0 s).1 &&& 0x01 = 0 then
    gotByte (readBus h 0 s).1 (readBus h 1 (readBus h 0 s).2).1
      (readBus h 1 (readBus h 0 s).2).2
  else
    (decide ((readBus h 0 s).1 &&& 0x0C = 0), (readBus h 0 s).2)

/-- The results of `k` consecutive calls of `getData`, and the state they leave. -/
def polls {φ : Type} (h : Hooks φ) : Nat → Sim φ → List Bool × Sim φ
  | 0, s => ([], s)
  | k + 1, s => ((getData h s).1 :: (polls h k (getData h s).2).1, (polls h k (getData h s).2).2)

/-- The firmware hands over the bytes `a`, one on each of the next polls: the
status it returns has bits 3, 2 and 0 clear and the data register reads as the
byte. -/
def delivers {φ : Type} (h : Hooks φ) : List Nat → Sim φ → Prop
  | [], _ => True
  | b :: bs, s =>
    (readBus h 0 s).1 &&& 0x08 = 0 ∧ (readBus h 0 s).1 &&& 0x04 = 0 ∧
      (readBus h 0 s).1 &&& 0x01 = 0 ∧ (readBus h 1 (readBus h 0 s).2).1 = b ∧
      delivers h bs (getData h s).2

/-- Value of a little-endian byte sequence. -/
def le : List Nat → Nat
  | [] => 0
  | b :: bs => b + 256 * le bs

/-- The `len` bytes of `f` from offset `off`. -/
def field (f : List Nat) (off len : Nat) : List Nat := (f.drop off).take len

/-- Source: `struct WAV_HEADER`, 44 bytes without padding. -/
structure WAV_HEADER where
  riff : List Nat
  overall_size : Nat
  wave : List Nat
  fmt_chunk_marker : List Nat
  length_of_fmt : Nat
  format_type : Nat
  channels : Nat
  sample_rate : Nat
  byterate : Nat
  block_align : Nat
  bits_per_sample : Nat
  data_chunk_header : List Nat
  data_size : Nat

/-- The header as `fread(&header, 1, sizeof(header), f)` fills it from the
first 44 bytes of the file on a little-endian machine. -/
def header (f : List Nat) : WAV_HEADER :=
  { riff := field f 0 4,
    overall_size := le (field f 4 4),
    wave := field f 8 4,
    fmt_chunk_marker := field f 12 4,
    length_of_fmt := le (field f 16 4),
    format_type := le (field f 20 2),
    channels := le (field f 22 2),
    sample_rate := le (field f 24 4),
    byterate := le (field f 28 4),
    block_align := le (field f 32 2),
    bits_per_sample := le (field f 34 2),
    data_chunk_header := field f 36 4,
    data_size := le (field f 40 4) }

/-- The bytes of `RIFF`. -/
def RIFF : List Nat := [0x52, 0x49, 0x46, 0x46]

/-- The bytes of `WAVE`. -/
def WAVE : List Nat := [0x57, 0x41, 0x56, 0x45]

/-- The bytes of `fmt` followed by a blank. -/
def FMT : List Nat := [0x66, 0x6D, 0x74, 0x20]

/-- The bytes of `data`. -/
def DATA : List Nat := [0x64, 0x61, 0x74, 0x61]

/-- Why a run of the model stops without a result: the source divides by zero,
overflows a signed integer or uses a `NULL` stream, or the fuel given to a
`while` loop of the source ran out. -/
inductive Halt
  | fault
  | outOfFuel
  deriving DecidableEq

/-- The loop `while( clock < target ) advanceClock();`, at most `fuel` steps. -/
def runClock {φ : Type} (h : Hooks φ) (target : Nat) : Nat → Sim φ → Except Halt (Sim φ)
  | 0, s => if s.mcu.clock < target then Except.error Halt.outOfFuel else Except.ok s
  | fuel + 1, s =>
    if s.mcu.clock < target then runClock h target fuel (advanceClock h s) else Except.ok s

/-- The test `sample_data>0` on the sample decoded from the buffer. -/
def sampleHigh (bytes_per_channel : Nat) (buf : List Nat) : Bool :=
  if bytes_per_channel = 4 then decide (0 < le (buf.take 4) ∧ le (buf.take 4) < 2 ^ 31)
  else if bytes_per_channel = 2 then decide (0 < le (buf.take 2) ∧ le (buf.take 2) < 2 ^ 15)
  else if bytes_per_channel = 1 then decide (128 < buf.headD 0)
  else false

/-- The sample loop of `readWAV` with `k` iterations left, at index `i`, on the
unread bytes. `tick i` is the value of `int(i*clockTicksPerSample+0.5)`, which
the source computes in `double` arithmetic. An iteration whose `fread` fails
does nothing, and so does every later one: the loop is cut short there. -/
def wavLoop {φ : Type} (h : Hooks φ) (tick : Nat → Nat) (fuel bytes_per_channel size : Nat) :
    Nat → Nat → List Nat → Sim φ → Except Halt (Bool × Sim φ)
  | 0, _, _, s => Except.ok (true, s)
  | k + 1, i, bytes, s =>
    if size = 0 ∨ bytes.length < size then Except.ok (true, s)
    else
      match runClock h (tick i) fuel
          (setTimer1Capture h (sampleHigh bytes_per_channel (bytes.take size)) s) with
      | Except.error e => Except.error e
      | Except.ok s2 =>
        if (getData h s2).1 = false ∧ (getData h s2).2.keep_going = false then
          Except.ok (false, (getData h s2).2)
        else
          wavLoop h tick fuel bytes_per_channel size k (i + 1) (bytes.drop size)
            (getData h s2).2

/-- The header test of `readWAV`: the condition under which it prints
`Not a (supported) WAV file!` and returns `false`. -/
def rejects (f : List Nat) : Prop :=
  f.length < 44 ∨ (header f).riff ≠ RIFF ∨ (header f).fmt_chunk_marker ≠ FMT ∨
    (header f).wave ≠ WAVE ∨ (header f).data_chunk_header ≠ DATA ∨
    (header f).format_type ≠ 1

instance (f : List Nat) : Decidable (rejects f) := by
  unfold rejects; infer_instance

/-- Source: `num_samples = (8 * header.data_size) / (header.channels * header.bits_per_sample)`,
the product `8 * data_size` being that of `unsigned int`, and `long` taken to hold
every `unsigned int`. -/
def num_samples (hd : WAV_HEADER) : Nat :=
  ((8 * hd.data_size) % 2 ^ 32) / (hd.channels * hd.bits_per_sample)

/-- Source: `sample_size = (header.channels * header.bits_per_sample) / 8` -/
def sample_size (hd : WAV_HEADER) : Nat := (hd.channels * hd.bits_per_sample) / 8

/-- Source: `bytes_per_channel = (sample_size / header.channels)` -/
def bytes_per_channel (hd : WAV_HEADER) : Nat := sample_size hd / hd.channels

/-- Body of `readWAV`. The file is `none` when `fopen` fails. `ticks R i` is the
value of `int(i*clockTicksPerSample+0.5)` for the sample rate `R`, computed by
the source in `double` arithmetic; `fuel` bounds each clock loop. The result is
`Halt.fault` where the source divides by
`header.channels * header.bits_per_sample` and that product is zero or
overflows `int`. -/
def readWAV {φ : Type} (h : Hooks φ) (ticks : Nat → Nat → Nat) (fuel : Nat)
    (file : Option (List Nat)) (s : Sim φ) : Except Halt (Bool × Sim φ) :=
  match file with
  | none => Except.ok (false, report Event.openFailed s)
  | some f =>
    if rejects f then Except.ok (false, report Event.notWav s)
    else if (header f).channels * (header f).bits_per_sample = 0 ∨
        2 ^ 31 ≤ (header f).channels * (header f).bits_per_sample then
      Except.error Halt.fault
    else if bytes_per_channel (header f) * (header f).channels ≠ sample_size (header f) then
      Except.ok (false, report Event.badSampleSize s)
    else
      wavLoop h (ticks (header f).sample_rate) fuel (bytes_per_channel (header f))
        (sample_size (header f)) (num_samples (header f)) 1 (f.drop 44) s

/-- The loop of `readCSV` over the records `t,v` that `fscanf` parses from the
file, with the local `offset`. The subtraction `t -= offset` is that of `int`
(`Halt.fault` when it overflows), `t/10` truncates toward zero and is converted
to `unsigned int` for the comparison with `clock`. -/
def csvLoop {φ : Type} (h : Hooks φ) (fuel : Nat) :
    Int → List (Int × Int) → Sim φ → Except Halt (Bool × Sim φ)
  | _, [], s => Except.ok (true, s)
  | offset, r :: rest, s =>
    if r.1 - (if offset = 99999999 then r.1 else offset) < -2 ^ 31 ∨
        2 ^ 31 ≤ r.1 - (if offset = 99999999 then r.1 else offset) then
      Except.error Halt.fault
    else
      match runClock h
          (((r.1 - (if offset = 99999999 then r.1 else offset)).tdiv 10) % 2 ^ 32).toNat
          fuel s with
      | Except.error e => Except.error e
      | Except.ok s2 =>
        if (getData h s2).1 = false ∧ (getData h s2).2.keep_going = false then
          Except.ok (false, (getData h s2).2)
        else
          csvLoop h fuel (if offset = 99999999 then r.1 else offset) rest
            (setTimer1Capture h (decide (r.2 ≠ 0)) (getData h s2).2)

/-- Source: `min_good_pulses = 50;`, an assignment to a global of the firmware;
`store` is what it does to the firmware memory. -/
def setMinGoodPulses {φ : Type} (store : Nat → φ → φ) (s : Sim φ) : Sim φ :=
  { s with mcu := { s.mcu with fw := store 50 s.mcu.fw } }

/-- Body of `readCSV`. The file is `none` when `fopen` fails, else the records
it holds. `store` is the assignment to the firmware's global `min_good_pulses`;
`fuel` bounds each clock loop. -/
def readCSV {φ : Type} (h : Hooks φ) (store : Nat → φ → φ) (fuel : Nat)
    (file : Option (List (Int × Int))) (s : Sim φ) : Except Halt (Bool × Sim φ) :=
  match file with
  | none => Except.ok (false, report Event.openFailed s)
  | some records => csvLoop h fuel 99999999 records (setMinGoodPulses store s)

/-- An `unsigned int` as its four bytes in memory, little-endian. -/
def le32 (n : Nat) : List Nat :=
  [n % 256, n / 256 % 256, n / 65536 % 256, n / 16777216 % 256]

/-- An `unsigned short` as its two bytes in memory, little-endian. -/
def le16 (n : Nat) : List Nat := [n % 256, n / 256 % 256]

/-- The 44 bytes of the header that `writeWAV` fills in and writes at offset 0
when its sample counter is `n`. -/
def headerBytes (n : Nat) : List Nat :=
  RIFF ++ le32 ((44 + n - 8) % 2 ^ 32) ++ WAVE ++ FMT ++ le32 16 ++ le16 1 ++ le16 1 ++
    le32 48000 ++ le32 48000 ++ le16 1 ++ le16 8 ++ DATA ++ le32 n

/-- Conversion of an `int` to `char`, taken as signed and 8 bits wide. -/
def toChar (x : Int) : Int := (x + 128) % 256 - 128

/-- Source: `sample = (sample*2 + (getTimer2OutputA() ? 120 : -120))/3`: the
division is that of `int`, truncating toward zero, and the result is stored in
the `char sample`. -/
def nextSample (sample : Int) (level : Bool) : Int :=
  toChar ((sample * 2 + (if level then 120 else -120)).tdiv 3)

/-- Source: `data = sample+128`, stored in a `byte`. -/
def pcm (sample : Int) : Nat := ((sample + 128) % 256).toNat

/-- Source: `leaderlen = (3*clockfreq) + 200` -/
def leaderlen : Nat := (3 * clockfreq + 200) % 2 ^ 32

/-- Locals and statics of `writeWAV`: the unread bytes of the TAP file `f`, and
the bytes written to `outfile` behind the space left for the header. -/
structure WavOut where
  f : List Nat
  sample : Int
  n : Nat
  nextsample : Nat
  endtime : Nat
  prevOutput : Bool
  prevClock : Nat
  written : List Nat

/-- Body of the inner loop of `writeWAV`: a byte of the TAP file is handed to
the firmware when it shows bit 7 of register 0 clear after the leader; then
`advanceClock()`. -/
def feed {φ : Type} (h : Hooks φ) (w : WavOut) (s : Sim φ) : WavOut × Sim φ :=
  if (readBus h 0 s).1 &&& 0x80 = 0 ∧ leaderlen < (readBus h 0 s).2.mcu.clock then
    match w.f with
    | [] => (w, advanceClock h (readBus h 0 s).2)
    | b :: rest =>
      ({ w with
          f := rest,
          endtime := ((writeBus h 1 b (readBus h 0 s).2).mcu.clock + clockfreq) % 2 ^ 32 },
        advanceClock h (writeBus h 1 b (readBus h 0 s).2))
  else (w, advanceClock h (readBus h 0 s).2)

/-- The loop `while( clock<nextsample ) { … }` of `writeWAV`, at most `fuel`
steps. -/
def feedLoop {φ : Type} (h : Hooks φ) : Nat → WavOut → Sim φ → Except Halt (WavOut × Sim φ)
  | 0, w, s =>
    if s.mcu.clock < w.nextsample then Except.error Halt.outOfFuel else Except.ok (w, s)
  | fuel + 1, w, s =>
    if s.mcu.clock < w.nextsample then feedLoop h fuel (feed h w s).1 (feed h w s).2
    else Except.ok (w, s)

/-- The block `if( getTimer2OutputA()!=prevOutput ) { … }` of `writeWAV`. -/
def watch {φ : Type} (w : WavOut) (s : Sim φ) : WavOut × Sim φ :=
  if getTimer2OutputA s ≠ w.prevOutput then
    if 0 < w.prevClock ∧ 1250 < (s.mcu.clock + 2 ^ 32 - w.prevClock) % 2 ^ 32 then
      ({ w with prevOutput := getTimer2OutputA s, prevClock := w.endtime },
        { s with
          mcu := { s.mcu with clock := w.endtime },
          log := s.log ++
            [Event.fail ((s.mcu.clock + 2 ^ 32 - w.prevClock) % 2 ^ 32) s.mcu.TCCR2B] })
    else ({ w with prevOutput := getTimer2OutputA s, prevClock := s.mcu.clock }, s)
  else (w, s)

/-- The end of the outer loop body of `writeWAV`: the filter, the byte written
and the time of the next sample. `ticks R i` is the value of
`double(i) * (double(clockfreq)/double(R)) + 0.5` converted to an integer, as in
`readWAV`. -/
def emit {φ : Type} (ticks : Nat → Nat → Nat) (w : WavOut) (s : Sim φ) : WavOut :=
  { w with
    sample := nextSample w.sample (getTimer2OutputA s),
    written := w.written ++ [pcm (nextSample w.sample (getTimer2OutputA s))],
    n := (w.n + 1) % 2 ^ 32,
    nextsample := ticks 48000 ((w.n + 1) % 2 ^ 32) }

/-- The loop `while( clock<endtime ) { … }` of `writeWAV`, at most the given
number of rounds, each inner loop at most `fuel` steps. -/
def writeLoop {φ : Type} (h : Hooks φ) (ticks : Nat → Nat → Nat) (fuel : Nat) :
    Nat → WavOut → Sim φ → Except Halt (WavOut × Sim φ)
  | 0, w, s =>
    if s.mcu.clock < w.endtime then Except.error Halt.outOfFuel else Except.ok (w, s)
  | k + 1, w, s =>
    if s.mcu.clock < w.endtime then
      match feedLoop h fuel w s with
      | Except.error e => Except.error e
      | Except.ok r =>
        writeLoop h ticks fuel k (emit ticks (watch r.1 r.2).1 (watch r.1 r.2).2)
          (watch r.1 r.2).2
    else Except.ok (w, s)

/-- Body of `writeWAV`. The TAP file is `none` when `fopen` fails. The samples
go to `outfile` from offset 44 and the header is written over the first 44
bytes at the end; what the file held beyond the bytes written stays. -/
def writeWAV {φ : Type} (h : Hooks φ) (ticks : Nat → Nat → Nat) (fuel : Nat)
    (file : Option (List Nat)) (s : Sim φ) : Except Halt (Bool × Sim φ) :=
  match file with
  | none => Except.ok (false, report Event.openFailed s)
  | some f =>
    match s.outfile with
    | none => Except.error Halt.fault
    | some o =>
      match writeLoop h ticks fuel fuel
          { f := f, sample := 0, n := 0, nextsample := 0,
            endtime := (leaderlen + 1000) % 2 ^ 32, prevOutput := false, prevClock := 0,
            written := [] } s with
      | Except.error e => Except.error e
      | Except.ok r =>
        Except.ok (true,
          { r.2 with
            outfile :=
              some (headerBytes r.1.n ++ r.1.written ++ o.drop (44 + r.1.written.length)) })

/-- Whether the firmware delivers the bytes can be computed. -/
instance decDelivers {φ : Type} (h : Hooks φ) :
    (a : List Nat) → (s : Sim φ) → Decidable (delivers h a s)
  | [], _ => isTrue trivial
  | b :: bs, s =>
    have : Decidable (delivers h bs (getData h s).2) := decDelivers h bs (getData h s).2
    show Decidable ((readBus h 0 s).1 &&& 0x08 = 0 ∧ (readBus h 0 s).1 &&& 0x04 = 0 ∧
      (readBus h 0 s).1 &&& 0x01 = 0 ∧ (readBus h 1 (readBus h 0 s).2).1 = b ∧
      delivers h bs (getData h s).2) from inferInstance

/-! ### Arithmetic of `double` -/

/-- The `double` 1.0. A finite non-negative `double` (binary64) `d` is
represented by the natural number `d * 2^1074`: every such value is a whole
multiple of the smallest subnormal, `2^-1074`. -/
def ONE : Nat := 1 <<< 1074

/-- The number of halvings that take `t` below `2^53`, at most the first
argument: the binary exponent of `t` above that of the first binade. -/
def expo : Nat → Nat → Nat
  | 0, _ => 0
  | f + 1, t => if t < 2 ^ 53 then 0 else expo f (t / 2) + 1

/-- The distance between neighbouring `double` values at the magnitude `t`:
1 below `2^53` (subnormals and the first binade), and `2^k` from
`2^(52+k)` up to `2^(53+k)`. Every finite `double` is below `2^2098` in this
representation. -/
def spacing (t : Nat) : Nat := 1 <<< expo 2100 t

/-- The largest `double` that is at most `p/q`. -/
def below (p q : Nat) : Nat := p / (q * spacing (p / q)) * spacing (p / q)

/-- The quotient `p/q`, `q > 0`, rounded to a `double`, to nearest and ties to
even: the rounding of every IEEE 754 operation. Overflow to infinity is not
represented; no value of `readWAV` comes near it. -/
def rne (p q : Nat) : Nat :=
  if 2 * (p - below p q * q) < spacing (p / q) * q then below p q
  else if spacing (p / q) * q < 2 * (p - below p q * q) then below p q + spacing (p / q)
  else if p / (q * spacing (p / q)) % 2 = 0 then below p q
  else below p q + spacing (p / q)

/-- Conversion of an integer below `2^53` to `double`, which is exact. -/
def toDouble (n : Nat) : Nat := n * ONE

/-- Division of `double` values. -/
def divDouble (x y : Nat) : Nat := rne (x * ONE) y

/-- Multiplication of `double` values. -/
def mulDouble (x y : Nat) : Nat := rne (x * y) ONE

/-- Addition of `double` values. -/
def addDouble (x y : Nat) : Nat := rne (x + y) 1

/-- Conversion of a `double` to an integer, which truncates. -/
def toInt (x : Nat) : Nat := x / ONE

/-- Source: `double clockTicksPerSample = (double) clockfreq / (double) header.sample_rate` -/
def clockTicksPerSample (R : Nat) : Nat := divDouble (toDouble clockfreq) (toDouble R)

/-- Source: `int(i*clockTicksPerSample+0.5)`, for the sample rate `R`: the
function that `readWAV` takes as `ticks`, with every operation rounded once to
`double`. The source is undefined where the value exceeds `int`, and divides by
zero (infinity, not represented here) for `R = 0`. -/
def sampleTick (R i : Nat) : Nat :=
  toInt (addDouble (mulDouble (toDouble i) (clockTicksPerSample R)) (ONE / 2))

/-! ## Firmware and states used in examples -/

/-- Firmware whose handlers do nothing (the weak defaults of `Arduino.cpp`). -/
def idle : Hooks Unit :=
  { TIMER0_COMPA_vect := id, TIMER0_COMPB_vect := id, TIMER1_CAPT_vect := id,
    TIMER1_COMPA_vect := id, TIMER1_COMPB_vect := id, TIMER2_COMPA_vect := id,
    TIMER2_COMPB_vect := id, PCINT0_vect := id, PCINT1_vect := id, loop := id }

/-- All registers zero, clock zero: the globals at program start. -/
def mcu0 : Mcu Unit :=
  { clock := 0, TCCR0B := 0, TIMSK0 := 0, TIFR0 := 0, TCNT0 := 0, OCR0A := 0, OCR0B := 0,
    TCCR1B := 0, TIMSK1 := 0, TIFR1 := 0, TCNT1 := 0, ICR1 := 0, OCR1A := 0, OCR1B := 0,
    TCCR2A := 0, TCCR2B := 0, TIMSK2 := 0, TIFR2 := 0, TCNT2 := 0, OCR2A := 0, OCR2B := 0,
    PINB := 0, PINC := 0, PIND := 0, PORTD := 0, fw := () }

/-- The comparison state at program start, no compare file. -/
def cmp0 : Cmp := { cmpfile := none, ignore_leader_length := false, leader_byte := 0x100 }

/-- The simulator at program start, no compare or output file. -/
def sim0 : Sim Unit :=
  { mcu := mcu0, timer1captPrevClock := 0, timer1captPrev := false, timer2outputA := false,
    n := 0, cmp := cmp0, junk := 0, keep_going := false, outfile := none, log := [] }

/-- Firmware standing for a UART with queued `(status, data)` pairs: a read of
register 0 shows the status of the head of the queue (`0x01`, no byte, when the
queue is empty), a read of register 1 shows its data byte and drops it. -/
def uart : Hooks (List (Nat × Nat)) :=
  { TIMER0_COMPA_vect := id, TIMER0_COMPB_vect := id, TIMER1_CAPT_vect := id,
    TIMER1_COMPA_vect := id, TIMER1_COMPB_vect := id, TIMER2_COMPA_vect := id,
    TIMER2_COMPB_vect := id, PCINT1_vect := id, loop := id,
    PCINT0_vect := fun m =>
      if m.PINC &&& 1 = 0 then
        match m.fw with
        | [] => { m with PORTD := 0x01 }
        | q :: _ => { m with PORTD := q.1 }
      else
        match m.fw with
        | [] => { m with PORTD := 0 }
        | q :: rest => { m with PORTD := q.2, fw := rest } }

/-- The simulator at program start with comparison state `c` and the UART queue
`q`. -/
def simWith (c : Cmp) (q : List (Nat × Nat)) : Sim (List (Nat × Nat)) :=
  { mcu :=
      { clock := 0, TCCR0B := 0, TIMSK0 := 0, TIFR0 := 0, TCNT0 := 0, OCR0A := 0, OCR0B := 0,
        TCCR1B := 0, TIMSK1 := 0, TIFR1 := 0, TCNT1 := 0, ICR1 := 0, OCR1A := 0, OCR1B := 0,
        TCCR2A := 0, TCCR2B := 0, TIMSK2 := 0, TIFR2 := 0, TCNT2 := 0, OCR2A := 0, OCR2B := 0,
        PINB := 0, PINC := 0, PIND := 0, PORTD := 0, fw := q },
    timer1captPrevClock := 0, timer1captPrev := false, timer2outputA := false,
    n := 0, cmp := c, junk := 0, keep_going := false, outfile := none, log := [] }

/-- Firmware whose `loop` requests a forced compare and selects output mode 11
(set) on every cycle. -/
def forcer : Hooks Unit :=
  { TIMER0_COMPA_vect := id, TIMER0_COMPB_vect := id, TIMER1_CAPT_vect := id,
    TIMER1_COMPA_vect := id, TIMER1_COMPB_vect := id, TIMER2_COMPA_vect := id,
    TIMER2_COMPB_vect := id, PCINT0_vect := id, PCINT1_vect := id,
    loop := fun m => { m with TCCR2B := m.TCCR2B ||| 0x80, TCCR2A := 0xC0 } }

/-- Firmware whose capture handler notes the clock value and the edge it is
called for (`true` for rising, as selected by `ICES1`) and then selects the
opposite edge. -/
def edges : Hooks (List (Nat × Bool)) :=
  { TIMER0_COMPA_vect := id, TIMER0_COMPB_vect := id,
    TIMER1_COMPA_vect := id, TIMER1_COMPB_vect := id, TIMER2_COMPA_vect := id,
    TIMER2_COMPB_vect := id, PCINT0_vect := id, PCINT1_vect := id, loop := id,
    TIMER1_CAPT_vect := fun m =>
      { m with
        fw := m.fw ++ [(m.clock, decide (m.TCCR1B &&& bit ICES1 ≠ 0))],
        TCCR1B := m.TCCR1B ^^^ bit ICES1 } }

/-- The simulator at program start for the firmware `edges`, with the given
`TCCR1B`, all timers stopped and `keep_going` set. -/
def simEdges (tccr1b : Nat) : Sim (List (Nat × Bool)) :=
  { mcu :=
      { clock := 0, TCCR0B := 0, TIMSK0 := 0, TIFR0 := 0, TCNT0 := 0, OCR0A := 0, OCR0B := 0,
        TCCR1B := tccr1b, TIMSK1 := 0, TIFR1 := 0, TCNT1 := 0, ICR1 := 0, OCR1A := 0,
        OCR1B := 0, TCCR2A := 0, TCCR2B := 0, TIMSK2 := 0, TIFR2 := 0, TCNT2 := 0, OCR2A := 0,
        OCR2B := 0, PINB := 0, PINC := 0, PIND := 0, PORTD := 0, fw := [] },
    timer1captPrevClock := 0, timer1captPrev := false, timer2outputA := false,
    n := 0, cmp := cmp0, junk := 0, keep_going := true, outfile := none, log := [] }

/-- A 44-byte header with the four markers and format code 1 that announces no
channel: `channels = 0`, 8 bits per sample, no data. -/
def noChannel : List Nat :=
  RIFF ++ le32 36 ++ WAVE ++ FMT ++ le32 16 ++ le16 1 ++ le16 0 ++
    le32 48000 ++ le32 48000 ++ le16 1 ++ le16 8 ++ DATA ++ le32 0

/-- The simulator with an empty output file, one tick before the end time that
`writeWAV` starts with. -/
def simOut : Sim Unit :=
  { sim0 with outfile := some [], mcu := { mcu0 with clock := 3001199 } }

/-- The assignment to `min_good_pulses` for firmware whose memory has no such
variable: nothing changes. -/
def unchanged {φ : Type} (_ : Nat) (q : φ) : φ := q

/-- An 8-bit mono WAV file of sample rate `R` that holds the samples `data`. -/
def wavBytes (R : Nat) (data : List Nat) : List Nat :=
  RIFF ++ le32 ((36 + data.length) % 2 ^ 32) ++ WAVE ++ FMT ++ le32 16 ++ le16 1 ++ le16 1 ++
    le32 R ++ le32 R ++ le16 1 ++ le16 8 ++ DATA ++ le32 data.length ++ data

/-- The simulator at program start with `keep_going` set. -/
def simKeep : Sim Unit := { sim0 with keep_going := true }

/-! ## Predicates used in the statements -/

/-- Two byte streams agree at every index that both have. -/
def agree : List Nat → List Nat → Prop
  | x :: xs, y :: ys => x = y ∧ agree xs ys
  | _, _ => True

/-- The state after `k` calls of `advanceClock`. -/
def steps {φ : Type} (h : Hooks φ) : Nat → Sim φ → Sim φ
  | 0, s => s
  | k + 1, s => advanceClock h (steps h k s)

/-- The filter variable is within bounds and so is every byte written. -/
def Bounded (w : WavOut) : Prop :=
  -120 ≤ w.sample ∧ w.sample ≤ 120 ∧ ∀ b ∈ w.written, 8 ≤ b ∧ b ≤ 248

/-- The tick `(t - t0)/10` of a record time `t`, the division truncating
toward zero. -/
def tickOf (t0 t : Int) : Nat := ((t - t0).tdiv 10).toNat

/-- What the specification says `readCSV` does with the records: each record
`(t, v)` in turn is applied as `setTimer1Capture(v != 0)`, after the poll of
`getData`, on the state in which `advanceClock` has taken the clock to tick
`(t - t0)/10`. -/
def feedAt {φ : Type} (h : Hooks φ) (t0 : Int) : List (Int × Int) → Sim φ → Sim φ
  | [], s => s
  | r :: rest, s =>
    feedAt h t0 rest
      (setTimer1Capture h (decide (r.2 ≠ 0))
        (getData h (steps h (tickOf t0 r.1 - s.mcu.clock) s)).2)

/-- What a run leaves to be observed: the result, the memory of the firmware
and the number of calls of the capture handler; `none` when the run stops
without a result. -/
def noted {φ : Type} (r : Except Halt (Bool × Sim φ)) : Option (Bool × φ × Nat) :=
  match r with
  | Except.ok q => some (q.1, q.2.mcu.fw, q.2.log.count (Event.isr Vect.TIMER1_CAPT))
  | Except.error _ => none

/-- The state on which an iteration of the sample loop of `readWAV` polls: the
sample has been fed and `advanceClock` has taken the clock to `tick i`. -/
def beforePoll {φ : Type} (h : Hooks φ) (tick : Nat → Nat) (bytes_per_channel size i : Nat)
    (bytes : List Nat) (s : Sim φ) : Sim φ :=
  steps h
    (tick i - (setTimer1Capture h (sampleHigh bytes_per_channel (bytes.take size)) s).mcu.clock)
    (setTimer1Capture h (sampleHigh bytes_per_channel (bytes.take size)) s)

/-- Every poll of the next `k` iterations of the sample loop of `readWAV`, from
index `i` on, returns `true`. -/
def pollsSucceed {φ : Type} (h : Hooks φ) (tick : Nat → Nat) (bytes_per_channel size : Nat) :
    Nat → Nat → List Nat → Sim φ → Prop
  | 0, _, _, _ => True
  | k + 1, i, bytes, s =>
    (getData h (beforePoll h tick bytes_per_channel size i bytes s)).1 = true ∧
      pollsSucceed h tick bytes_per_channel size k (i + 1) (bytes.drop size)
        (getData h (beforePoll h tick bytes_per_channel size i bytes s)).2

/-! ## Frame conditions on the firmware -/

/-- A handler that writes neither the clock nor any timer register. -/
structure KeepsTimers {φ : Type} (f : Mcu φ → Mcu φ) : Prop where
  clock : ∀ m, (f m).clock = m.clock
  TCCR0B : ∀ m, (f m).TCCR0B = m.TCCR0B
  TIMSK0 : ∀ m, (f m).TIMSK0 = m.TIMSK0
  TIFR0 : ∀ m, (f m).TIFR0 = m.TIFR0
  TCNT0 : ∀ m, (f m).TCNT0 = m.TCNT0
  OCR0A : ∀ m, (f m).OCR0A = m.OCR0A
  OCR0B : ∀ m, (f m).OCR0B = m.OCR0B
  TCCR1B : ∀ m, (f m).TCCR1B = m.TCCR1B
  TIMSK1 : ∀ m, (f m).TIMSK1 = m.TIMSK1
  TIFR1 : ∀ m, (f m).TIFR1 = m.TIFR1
  TCNT1 : ∀ m, (f m).TCNT1 = m.TCNT1
  ICR1 : ∀ m, (f m).ICR1 = m.ICR1
  OCR1A : ∀ m, (f m).OCR1A = m.OCR1A
  OCR1B : ∀ m, (f m).OCR1B = m.OCR1B
  TCCR2A : ∀ m, (f m).TCCR2A = m.TCCR2A
  TCCR2B : ∀ m, (f m).TCCR2B = m.TCCR2B
  TIMSK2 : ∀ m, (f m).TIMSK2 = m.TIMSK2
  TIFR2 : ∀ m, (f m).TIFR2 = m.TIFR2
  TCNT2 : ∀ m, (f m).TCNT2 = m.TCNT2
  OCR2A : ∀ m, (f m).OCR2A = m.OCR2A
  OCR2B : ∀ m, (f m).OCR2B = m.OCR2B

/-- Firmware none of whose timer handlers, nor `loop`, writes the clock or a
timer register. -/
structure Quiet {φ : Type} (h : Hooks φ) : Prop where
  t0a : KeepsTimers h.TIMER0_COMPA_vect
  t0b : KeepsTimers h.TIMER0_COMPB_vect
  t1c : KeepsTimers h.TIMER1_CAPT_vect
  t1a : KeepsTimers h.TIMER1_COMPA_vect
  t1b : KeepsTimers h.TIMER1_COMPB_vect
  t2a : KeepsTimers h.TIMER2_COMPA_vect
  t2b : KeepsTimers h.TIMER2_COMPB_vect
  loop : KeepsTimers h.loop

/-- The part of a state that quiet firmware cannot influence: the clock, the
timer registers, the simulator's private variables and the log. The pin
registers and the firmware memory are blanked. -/
def view {φ : Type} (s : Sim φ) : Sim Unit :=
  { mcu :=
      { clock := s.mcu.clock, TCCR0B := s.mcu.TCCR0B, TIMSK0 := s.mcu.TIMSK0,
        TIFR0 := s.mcu.TIFR0, TCNT0 := s.mcu.TCNT0, OCR0A := s.mcu.OCR0A,
        OCR0B := s.mcu.OCR0B, TCCR1B := s.mcu.TCCR1B, TIMSK1 := s.mcu.TIMSK1,
        TIFR1 := s.mcu.TIFR1, TCNT1 := s.mcu.TCNT1, ICR1 := s.mcu.ICR1,
        OCR1A := s.mcu.OCR1A, OCR1B := s.mcu.OCR1B, TCCR2A := s.mcu.TCCR2A,
        TCCR2B := s.mcu.TCCR2B, TIMSK2 := s.mcu.TIMSK2, TIFR2 := s.mcu.TIFR2,
        TCNT2 := s.mcu.TCNT2, OCR2A := s.mcu.OCR2A, OCR2B := s.mcu.OCR2B,
        PINB := 0, PINC := 0, PIND := 0, PORTD := 0, fw := () },
    timer1captPrevClock := s.timer1captPrevClock, timer1captPrev := s.timer1captPrev,
    timer2outputA := s.timer2outputA, n := s.n, cmp := s.cmp, junk := s.junk,
    keep_going := s.keep_going, outfile := s.outfile, log := s.log }

/-- The handler calls a step adds to the log: `[isr v]` when `c` holds. -/
def dispatchOf (v : Vect) (c : Prop) [Decidable c] : List Event :=
  if c then [Event.isr v] else []

/-- Timer0 counts at clock value `t` and its incremented counter equals `ocr`. -/
def hit0 {φ : Type} (m : Mcu φ) (t ocr : Nat) : Prop :=
  due (prescale0 m) t ∧ (m.TCNT0 + 1) % 256 = ocr

/-- Timer1 counts at clock value `t` and its incremented counter equals `ocr`. -/
def hit1 {φ : Type} (m : Mcu φ) (t ocr : Nat) : Prop :=
  due (prescale1 m) t ∧ (m.TCNT1 + 1) % 65536 = ocr

/-- Timer2 counts at clock value `t` and its incremented counter equals `ocr`. -/
def hit2 {φ : Type} (m : Mcu φ) (t ocr : Nat) : Prop :=
  due (prescale2 m) t ∧ (m.TCNT2 + 1) % 256 = ocr

instance {φ : Type} (m : Mcu φ) (t ocr : Nat) : Decidable (hit0 m t ocr) := by
  unfold hit0; infer_instance

instance {φ : Type} (m : Mcu φ) (t ocr : Nat) : Decidable (hit1 m t ocr) := by
  unfold hit1; infer_instance

instance {φ : Type} (m : Mcu φ) (t ocr : Nat) : Decidable (hit2 m t ocr) := by
  unfold hit2; infer_instance

/-- A handler that writes no Timer2 register. -/
structure KeepsTimer2 {φ : Type} (f : Mcu φ → Mcu φ) : Prop where
  TCCR2A : ∀ m, (f m).TCCR2A = m.TCCR2A
  TCCR2B : ∀ m, (f m).TCCR2B = m.TCCR2B
  TIMSK2 : ∀ m, (f m).TIMSK2 = m.TIMSK2
  TIFR2 : ∀ m, (f m).TIFR2 = m.TIFR2
  TCNT2 : ∀ m, (f m).TCNT2 = m.TCNT2
  OCR2A : ∀ m, (f m).OCR2A = m.OCR2A
  OCR2B : ∀ m, (f m).OCR2B = m.OCR2B

/-- Firmware in which no handler that `advanceClock` calls, nor `loop`, writes a
Timer2 register. -/
structure Quiet2 {φ : Type} (h : Hooks φ) : Prop where
  t0a : KeepsTimer2 h.TIMER0_COMPA_vect
  t0b : KeepsTimer2 h.TIMER0_COMPB_vect
  t1a : KeepsTimer2 h.TIMER1_COMPA_vect
  t1b : KeepsTimer2 h.TIMER1_COMPB_vect
  t2a : KeepsTimer2 h.TIMER2_COMPA_vect
  t2b : KeepsTimer2 h.TIMER2_COMPB_vect
  loop : KeepsTimer2 h.loop

/-- The Timer2 registers and the simulator's private variables of a state, with
the clock set to `c`, the log to `l` and everything else blanked. -/
def core2 {φ : Type} (c : Nat) (l : List Event) (s : Sim φ) : Sim Unit :=
  { mcu :=
      { clock := c, TCCR0B := 0, TIMSK0 := 0, TIFR0 := 0, TCNT0 := 0, OCR0A := 0,
        OCR0B := 0, TCCR1B := 0, TIMSK1 := 0, TIFR1 := 0, TCNT1 := 0, ICR1 := 0,
        OCR1A := 0, OCR1B := 0, TCCR2A := s.mcu.TCCR2A,
        TCCR2B := s.mcu.TCCR2B, TIMSK2 := s.mcu.TIMSK2, TIFR2 := s.mcu.TIFR2,
        TCNT2 := s.mcu.TCNT2, OCR2A := s.mcu.OCR2A, OCR2B := s.mcu.OCR2B,
        PINB := 0, PINC := 0, PIND := 0, PORTD := 0, fw := () },
    timer1captPrevClock := s.timer1captPrevClock, timer1captPrev := s.timer1captPrev,
    timer2outputA := s.timer2outputA, n := s.n, cmp := s.cmp, junk := s.junk,
    keep_going := s.keep_going, outfile := s.outfile, log := l }

/-- Firmware none of whose handlers called while a capture file is read, nor
`loop`, writes the clock. -/
structure KeepsClock {φ : Type} (h : Hooks φ) : Prop where
  t0a : ∀ m, (h.TIMER0_COMPA_vect m).clock = m.clock
  t0b : ∀ m, (h.TIMER0_COMPB_vect m).clock = m.clock
  t1c : ∀ m, (h.TIMER1_CAPT_vect m).clock = m.clock
  t1a : ∀ m, (h.TIMER1_COMPA_vect m).clock = m.clock
  t1b : ∀ m, (h.TIMER1_COMPB_vect m).clock = m.clock
  t2a : ∀ m, (h.TIMER2_COMPA_vect m).clock = m.clock
  t2b : ∀ m, (h.TIMER2_COMPB_vect m).clock = m.clock
  pc0 : ∀ m, (h.PCINT0_vect m).clock = m.clock
  loop : ∀ m, (h.loop m).clock = m.clock

/-- The clock and the option `keep_going` of a state. -/
def pace {φ : Type} (s : Sim φ) : Nat × Bool := (s.mcu.clock, s.keep_going)

/-! ## Theorems -/

theorem keepsTimers_id {φ : Type} : KeepsTimers (id : Mcu φ → Mcu φ) := by
  constructor <;> intro m <;> rfl

theorem quiet_idle : Quiet idle :=
  ⟨keepsTimers_id, keepsTimers_id, keepsTimers_id, keepsTimers_id, keepsTimers_id,
    keepsTimers_id, keepsTimers_id, keepsTimers_id⟩

/-- The bitmask gate is the modulo gate when the divisor is a power of two. -/
theorem due_two_pow (k c : Nat) : due (2 ^ k) c ↔ c % 2 ^ k = 0 := by
  unfold due
  rw [Nat.and_pow_two_sub_one_eq_mod]
  constructor
  · exact fun hd => hd.2
  · exact fun hc => ⟨Nat.pos_pow_of_pos k (by decide), hc⟩

theorem not_due_zero (c : Nat) : ¬ due 0 c := by
  unfold due
  omega

/-- Every effective divisor of the Timer0/Timer1 table is zero or a power of two. -/
theorem prescaler01_scaled (i : Nat) :
    prescaler01.getD (i &&& 7) 0 / CLOCKSCALE = 0 ∨
      ∃ k, prescaler01.getD (i &&& 7) 0 / CLOCKSCALE = 2 ^ k := by
  have hi : i &&& 7 ≤ 7 := Nat.and_le_right
  generalize i &&& 7 = j at hi
  interval_cases j
  · left; decide
  · left; decide
  · right; exact ⟨0, by decide⟩
  · right; exact ⟨3, by decide⟩
  · right; exact ⟨5, by decide⟩
  · right; exact ⟨7, by decide⟩
  · left; decide
  · left; decide

/-- Every effective divisor of the Timer2 table is zero or a power of two. -/
theorem prescaler2_scaled (i : Nat) :
    prescaler2.getD (i &&& 7) 0 / CLOCKSCALE = 0 ∨
      ∃ k, prescaler2.getD (i &&& 7) 0 / CLOCKSCALE = 2 ^ k := by
  have hi : i &&& 7 ≤ 7 := Nat.and_le_right
  generalize i &&& 7 = j at hi
  interval_cases j
  · left; decide
  · left; decide
  · right; exact ⟨0, by decide⟩
  · right; exact ⟨2, by decide⟩
  · right; exact ⟨3, by decide⟩
  · right; exact ⟨4, by decide⟩
  · right; exact ⟨5, by decide⟩
  · right; exact ⟨7, by decide⟩

/-- On a divisor that is zero or a power of two the gate of the source is
`p > 0` and `c mod p = 0`. -/
theorem due_iff_mod (p c : Nat) (hp : p = 0 ∨ ∃ k, p = 2 ^ k) :
    due p c ↔ 0 < p ∧ c % p = 0 := by
  rcases hp with h0 | ⟨k, hk⟩
  · subst h0
    constructor
    · intro hd; exact absurd hd (not_due_zero c)
    · intro hd; omega
  · subst hk
    rw [due_two_pow]
    constructor
    · exact fun hc => ⟨Nat.pos_pow_of_pos k (by decide), hc⟩
    · exact fun hc => hc.2

/-! ### What each block of `advanceClock` does to the counters -/

theorem timer0_counter {φ : Type} (h : Hooks φ) (hq : Quiet h) (s : Sim φ) :
    (timer0 h s).mcu.TCNT0 =
        (if due (prescale0 s.mcu) s.mcu.clock then (s.mcu.TCNT0 + 1) % 256 else s.mcu.TCNT0) ∧
      (timer0 h s).mcu.clock = s.mcu.clock ∧
      (timer0 h s).mcu.TCCR1B = s.mcu.TCCR1B ∧
      (timer0 h s).mcu.TCNT1 = s.mcu.TCNT1 ∧
      (timer0 h s).mcu.TCCR2A = s.mcu.TCCR2A ∧
      (timer0 h s).mcu.TCCR2B = s.mcu.TCCR2B ∧
      (timer0 h s).mcu.TCNT2 = s.mcu.TCNT2 ∧
      (timer0 h s).mcu.OCR2A = s.mcu.OCR2A := by
  have ha := hq.t0a
  have hb := hq.t0b
  simp only [timer0, timer0Count, timer0DispatchA, timer0DispatchB, timer0MatchA, timer0MatchB, timer0Inc,
    timer0Reset, callISR, prescale0]
  split_ifs <;>
    simp [ha.TCNT0, hb.TCNT0, ha.clock, hb.clock, ha.TCCR1B, hb.TCCR1B, ha.TCNT1, hb.TCNT1,
      ha.TCCR2A, hb.TCCR2A, ha.TCCR2B, hb.TCCR2B, ha.TCNT2, hb.TCNT2, ha.OCR2A, hb.OCR2A]

theorem timer1_counter {φ : Type} (h : Hooks φ) (hq : Quiet h) (s : Sim φ) :
    (timer1 h s).mcu.TCNT1 =
        (if due (prescale1 s.mcu) s.mcu.clock then (s.mcu.TCNT1 + 1) % 65536
          else s.mcu.TCNT1) ∧
      (timer1 h s).mcu.clock = s.mcu.clock ∧
      (timer1 h s).mcu.TCNT0 = s.mcu.TCNT0 ∧
      (timer1 h s).mcu.TCCR2A = s.mcu.TCCR2A ∧
      (timer1 h s).mcu.TCCR2B = s.mcu.TCCR2B ∧
      (timer1 h s).mcu.TCNT2 = s.mcu.TCNT2 ∧
      (timer1 h s).mcu.OCR2A = s.mcu.OCR2A := by
  have ha := hq.t1a
  have hb := hq.t1b
  simp only [timer1, timer1Count, timer1DispatchA, timer1DispatchB, timer1MatchA, timer1MatchB, timer1Inc,
    timer1Reset, callISR, prescale1]
  split_ifs <;>
    simp [ha.TCNT0, hb.TCNT0, ha.clock, hb.clock, ha.TCNT1, hb.TCNT1,
      ha.TCCR2A, hb.TCCR2A, ha.TCCR2B, hb.TCCR2B, ha.TCNT2, hb.TCNT2, ha.OCR2A, hb.OCR2A]

theorem timer2Match_counter {φ : Type} (s : Sim φ) :
    (timer2MatchB (timer2MatchA s)).2.mcu.TCNT0 = s.mcu.TCNT0 ∧
      (timer2MatchB (timer2MatchA s)).2.mcu.TCNT1 = s.mcu.TCNT1 ∧
      (timer2MatchB (timer2MatchA s)).2.mcu.TCNT2 = s.mcu.TCNT2 ∧
      (timer2MatchB (timer2MatchA s)).2.mcu.OCR2A = s.mcu.OCR2A ∧
      (timer2MatchB (timer2MatchA s)).2.mcu.TCCR2A = s.mcu.TCCR2A := by
  unfold timer2MatchB timer2MatchA
  split_ifs <;> simp

theorem timer2Dispatch_counter {φ : Type} (h : Hooks φ) (hq : Quiet h) (s : Sim φ) :
    (timer2DispatchB h (timer2DispatchA h s)).mcu.TCNT0 = s.mcu.TCNT0 ∧
      (timer2DispatchB h (timer2DispatchA h s)).mcu.TCNT1 = s.mcu.TCNT1 ∧
      (timer2DispatchB h (timer2DispatchA h s)).mcu.TCNT2 = s.mcu.TCNT2 := by
  have ha := hq.t2a
  have hb := hq.t2b
  simp only [timer2DispatchA, timer2DispatchB, callISR]
  split_ifs <;> simp [ha.TCNT0, hb.TCNT0, ha.TCNT1, hb.TCNT1, ha.TCNT2, hb.TCNT2]

/-- The value `TCNT2` holds after `TCNT2++` and the clear-on-compare test. -/
theorem timer2_counter {φ : Type} (h : Hooks φ) (hq : Quiet h) (s : Sim φ) :
    (timer2 h s).2.mcu.TCNT2 =
        (if due (prescale2 s.mcu) s.mcu.clock then
          (if (s.mcu.TCNT2 + 1) % 256 ≥ s.mcu.OCR2A + 1 ∧
              (s.mcu.TCCR2A &&& (bit WGM22 ||| bit WGM21 ||| bit WGM20)) = bit WGM21
            then 0 else (s.mcu.TCNT2 + 1) % 256)
          else s.mcu.TCNT2) ∧
      (timer2 h s).2.mcu.TCNT0 = s.mcu.TCNT0 ∧
      (timer2 h s).2.mcu.TCNT1 = s.mcu.TCNT1 := by
  unfold timer2
  have hp : prescale2 (timer2Reset s).mcu = prescale2 s.mcu := rfl
  have hc : (timer2Reset s).mcu.clock = s.mcu.clock := rfl
  rw [hp, hc]
  by_cases hd : due (prescale2 s.mcu) s.mcu.clock
  · rw [if_pos hd, if_pos hd]
    unfold timer2Count
    obtain ⟨d0, d1, d2⟩ := timer2Dispatch_counter h hq
      (timer2Clear (timer2MatchB (timer2MatchA (timer2Inc (timer2Reset s)))).2)
    obtain ⟨m0, m1, m2, m3, m4⟩ := timer2Match_counter (timer2Inc (timer2Reset s))
    simp only [d0, d1, d2]
    unfold timer2Clear
    rw [m2, m3, m4]
    split_ifs <;> simp_all [timer2Inc, timer2Reset]
  · rw [if_neg hd, if_neg hd]
    simp [timer2Reset]

theorem tail_counters {φ : Type} (h : Hooks φ) (hq : Quiet h) (oc : Bool) (s : Sim φ) :
    (timer2Output oc (callLoop h s)).mcu.TCNT0 = s.mcu.TCNT0 ∧
      (timer2Output oc (callLoop h s)).mcu.TCNT1 = s.mcu.TCNT1 ∧
      (timer2Output oc (callLoop h s)).mcu.TCNT2 = s.mcu.TCNT2 := by
  have hl := hq.loop
  simp only [timer2Output, callLoop]
  split_ifs <;> simp [hl.TCNT0, hl.TCNT1, hl.TCNT2]

/-- C1 (amended): with firmware that writes neither the clock nor a timer
register, one `advanceClock` step with new tick number `t` steps the counter of
timer `n` exactly when the effective divisor `p = table[TCCRnB & 7] / CLOCKSCALE`
is positive and `t mod p = 0`, and leaves it alone otherwise (in particular when
`p = 0`). For Timer2 the stepped value is the incremented counter after the
clear-on-compare test of the same step. -/
theorem counter_steps_on_scaled_divisor {φ : Type} (h : Hooks φ) (hq : Quiet h) (s : Sim φ) :
    (advanceClock h s).mcu.TCNT0 =
        (if 0 < prescaler01.getD (s.mcu.TCCR0B &&& 7) 0 / CLOCKSCALE ∧
            ((s.mcu.clock + 1) % 2 ^ 32) %
              (prescaler01.getD (s.mcu.TCCR0B &&& 7) 0 / CLOCKSCALE) = 0
          then (s.mcu.TCNT0 + 1) % 256 else s.mcu.TCNT0) ∧
      (advanceClock h s).mcu.TCNT1 =
        (if 0 < prescaler01.getD (s.mcu.TCCR1B &&& 7) 0 / CLOCKSCALE ∧
            ((s.mcu.clock + 1) % 2 ^ 32) %
              (prescaler01.getD (s.mcu.TCCR1B &&& 7) 0 / CLOCKSCALE) = 0
          then (s.mcu.TCNT1 + 1) % 65536 else s.mcu.TCNT1) ∧
      (advanceClock h s).mcu.TCNT2 =
        (if 0 < prescaler2.getD (s.mcu.TCCR2B &&& 7) 0 / CLOCKSCALE ∧
            ((s.mcu.clock + 1) % 2 ^ 32) %
              (prescaler2.getD (s.mcu.TCCR2B &&& 7) 0 / CLOCKSCALE) = 0
          then
            (if (s.mcu.TCNT2 + 1) % 256 ≥ s.mcu.OCR2A + 1 ∧
                (s.mcu.TCCR2A &&& (bit WGM22 ||| bit WGM21 ||| bit WGM20)) = bit WGM21
              then 0 else (s.mcu.TCNT2 + 1) % 256)
          else s.mcu.TCNT2) := by
  have e0 := due_iff_mod (prescaler01.getD (s.mcu.TCCR0B &&& 7) 0 / CLOCKSCALE)
    ((s.mcu.clock + 1) % 2 ^ 32) (prescaler01_scaled _)
  have e1 := due_iff_mod (prescaler01.getD (s.mcu.TCCR1B &&& 7) 0 / CLOCKSCALE)
    ((s.mcu.clock + 1) % 2 ^ 32) (prescaler01_scaled _)
  have e2 := due_iff_mod (prescaler2.getD (s.mcu.TCCR2B &&& 7) 0 / CLOCKSCALE)
    ((s.mcu.clock + 1) % 2 ^ 32) (prescaler2_scaled _)
  simp only [← e0, ← e1, ← e2]
  unfold advanceClock beforeOutput advanceTimers
  obtain ⟨a1, a2, a3⟩ := tail_counters h hq
    (timer2 h (timer1 h (timer0 h (tick s)))).1 (timer2 h (timer1 h (timer0 h (tick s)))).2
  obtain ⟨b1, b2, b3⟩ := timer2_counter h hq (timer1 h (timer0 h (tick s)))
  obtain ⟨c1, c2, c3, c4, c5, c6, c7⟩ := timer1_counter h hq (timer0 h (tick s))
  obtain ⟨d1, d2, d3, d4, d5, d6, d7, d8⟩ := timer0_counter h hq (tick s)
  refine ⟨?_, ?_, ?_⟩
  · rw [a1, b2, c3, d1]; rfl
  · rw [a2, b3, c1, d4]
    simp only [prescale1, d3, d2]
    rfl
  · rw [a3, b1]
    simp only [prescale2, c5, c2, c6, c7, c4, d6, d2, d7, d8, d5]
    rfl

/-- Witness of `counter_steps_on_scaled_divisor`: idle firmware, Timer0 with
select code 3 (table divisor 64, effective divisor 8) at clock 7. -/
theorem counter_steps_on_scaled_divisor_witness :
    Quiet idle ∧
      (advanceClock idle { sim0 with mcu := { mcu0 with TCCR0B := 3, clock := 7 } }).mcu.TCNT0
        = 1 :=
  ⟨quiet_idle, by
    have e := (counter_steps_on_scaled_divisor idle quiet_idle
      { sim0 with mcu := { mcu0 with TCCR0B := 3, clock := 7 } }).1
    rw [e]
    decide⟩

/-- C1 as stated fails: with select code 2 the table divisor is 8, the new tick
is 1 and `1 mod 8 ≠ 0`, yet `TCNT0` is incremented; with select code 1 the table
divisor is 1 and `1 mod 1 = 0`, yet `TCNT0` is unchanged. -/
theorem counter_table_divisor_counterexample :
    (prescaler01.getD (2 &&& 7) 0 = 8 ∧ (0 + 1) % 2 ^ 32 % 8 ≠ 0 ∧
        (advanceClock idle { sim0 with mcu := { mcu0 with TCCR0B := 2 } }).mcu.TCNT0 = 1 ∧
        ({ sim0 with mcu := { mcu0 with TCCR0B := 2 } } : Sim Unit).mcu.TCNT0 = 0) ∧
      (prescaler01.getD (1 &&& 7) 0 = 1 ∧ (0 + 1) % 2 ^ 32 % 1 = 0 ∧
        (advanceClock idle { sim0 with mcu := { mcu0 with TCCR0B := 1 } }).mcu.TCNT0 = 0 ∧
        ({ sim0 with mcu := { mcu0 with TCCR0B := 1 } } : Sim Unit).mcu.TCNT0 = 0) := by
  decide

/-! ### Quiet firmware: reduction to the idle firmware -/

theorem view_callISR {φ : Type} (v : Vect) (f : Mcu φ → Mcu φ) (hk : KeepsTimers f)
    (s : Sim φ) : view (callISR v f s) = callISR v id (view s) := by
  simp [view, callISR, hk.clock, hk.TCCR0B, hk.TIMSK0, hk.TIFR0, hk.TCNT0, hk.OCR0A, hk.OCR0B,
    hk.TCCR1B, hk.TIMSK1, hk.TIFR1, hk.TCNT1, hk.ICR1, hk.OCR1A, hk.OCR1B, hk.TCCR2A,
    hk.TCCR2B, hk.TIMSK2, hk.TIFR2, hk.TCNT2, hk.OCR2A, hk.OCR2B]

theorem view_timer0DispatchA {φ : Type} (h : Hooks φ)
    (hk : KeepsTimers h.TIMER0_COMPA_vect) (s : Sim φ) :
    view (timer0DispatchA h s) = timer0DispatchA idle (view s) := by
  unfold timer0DispatchA
  by_cases c : (s.mcu.TIFR0 &&& bit OCF0A) ≠ 0 ∧ (s.mcu.TIMSK0 &&& bit OCIE0A) ≠ 0
  · have c2 : ((view s).mcu.TIFR0 &&& bit OCF0A) ≠ 0 ∧
        ((view s).mcu.TIMSK0 &&& bit OCIE0A) ≠ 0 := c
    rw [if_pos c, if_pos c2]
    simp [view, callISR, idle, hk.clock, hk.TCCR0B, hk.TIMSK0, hk.TIFR0, hk.TCNT0, hk.OCR0A, hk.OCR0B,
      hk.TCCR1B, hk.TIMSK1, hk.TIFR1, hk.TCNT1, hk.ICR1, hk.OCR1A, hk.OCR1B, hk.TCCR2A,
      hk.TCCR2B, hk.TIMSK2, hk.TIFR2, hk.TCNT2, hk.OCR2A, hk.OCR2B]
  · have c2 : ¬ (((view s).mcu.TIFR0 &&& bit OCF0A) ≠ 0 ∧
        ((view s).mcu.TIMSK0 &&& bit OCIE0A) ≠ 0) := c
    rw [if_neg c, if_neg c2]

theorem view_timer0DispatchB {φ : Type} (h : Hooks φ)
    (hk : KeepsTimers h.TIMER0_COMPB_vect) (s : Sim φ) :
    view (timer0DispatchB h s) = timer0DispatchB idle (view s) := by
  unfold timer0DispatchB
  by_cases c : (s.mcu.TIFR0 &&& bit OCF0B) ≠ 0 ∧ (s.mcu.TIMSK0 &&& bit OCIE0B) ≠ 0
  · have c2 : ((view s).mcu.TIFR0 &&& bit OCF0B) ≠ 0 ∧
        ((view s).mcu.TIMSK0 &&& bit OCIE0B) ≠ 0 := c
    rw [if_pos c, if_pos c2]
    simp [view, callISR, idle, hk.clock, hk.TCCR0B, hk.TIMSK0, hk.TIFR0, hk.TCNT0, hk.OCR0A, hk.OCR0B,
      hk.TCCR1B, hk.TIMSK1, hk.TIFR1, hk.TCNT1, hk.ICR1, hk.OCR1A, hk.OCR1B, hk.TCCR2A,
      hk.TCCR2B, hk.TIMSK2, hk.TIFR2, hk.TCNT2, hk.OCR2A, hk.OCR2B]
  · have c2 : ¬ (((view s).mcu.TIFR0 &&& bit OCF0B) ≠ 0 ∧
        ((view s).mcu.TIMSK0 &&& bit OCIE0B) ≠ 0) := c
    rw [if_neg c, if_neg c2]

theorem view_timer1DispatchA {φ : Type} (h : Hooks φ)
    (hk : KeepsTimers h.TIMER1_COMPA_vect) (s : Sim φ) :
    view (timer1DispatchA h s) = timer1DispatchA idle (view s) := by
  unfold timer1DispatchA
  by_cases c : (s.mcu.TIFR1 &&& bit OCF1A) ≠ 0 ∧ (s.mcu.TIMSK1 &&& bit OCIE1A) ≠ 0
  · have c2 : ((view s).mcu.TIFR1 &&& bit OCF1A) ≠ 0 ∧
        ((view s).mcu.TIMSK1 &&& bit OCIE1A) ≠ 0 := c
    rw [if_pos c, if_pos c2]
    simp [view, callISR, idle, hk.clock, hk.TCCR0B, hk.TIMSK0, hk.TIFR0, hk.TCNT0, hk.OCR0A, hk.OCR0B,
      hk.TCCR1B, hk.TIMSK1, hk.TIFR1, hk.TCNT1, hk.ICR1, hk.OCR1A, hk.OCR1B, hk.TCCR2A,
      hk.TCCR2B, hk.TIMSK2, hk.TIFR2, hk.TCNT2, hk.OCR2A, hk.OCR2B]
  · have c2 : ¬ (((view s).mcu.TIFR1 &&& bit OCF1A) ≠ 0 ∧
        ((view s).mcu.TIMSK1 &&& bit OCIE1A) ≠ 0) := c
    rw [if_neg c, if_neg c2]

theorem view_timer1DispatchB {φ : Type} (h : Hooks φ)
    (hk : KeepsTimers h.TIMER1_COMPB_vect) (s : Sim φ) :
    view (timer1DispatchB h s) = timer1DispatchB idle (view s) := by
  unfold timer1DispatchB
  by_cases c : (s.mcu.TIFR1 &&& bit OCF1B) ≠ 0 ∧ (s.mcu.TIMSK1 &&& bit OCIE1B) ≠ 0
  · have c2 : ((view s).mcu.TIFR1 &&& bit OCF1B) ≠ 0 ∧
        ((view s).mcu.TIMSK1 &&& bit OCIE1B) ≠ 0 := c
    rw [if_pos c, if_pos c2]
    simp [view, callISR, idle, hk.clock, hk.TCCR0B, hk.TIMSK0, hk.TIFR0, hk.TCNT0, hk.OCR0A, hk.OCR0B,
      hk.TCCR1B, hk.TIMSK1, hk.TIFR1, hk.TCNT1, hk.ICR1, hk.OCR1A, hk.OCR1B, hk.TCCR2A,
      hk.TCCR2B, hk.TIMSK2, hk.TIFR2, hk.TCNT2, hk.OCR2A, hk.OCR2B]
  · have c2 : ¬ (((view s).mcu.TIFR1 &&& bit OCF1B) ≠ 0 ∧
        ((view s).mcu.TIMSK1 &&& bit OCIE1B) ≠ 0) := c
    rw [if_neg c, if_neg c2]

theorem view_timer2DispatchA {φ : Type} (h : Hooks φ)
    (hk : KeepsTimers h.TIMER2_COMPA_vect) (s : Sim φ) :
    view (timer2DispatchA h s) = timer2DispatchA idle (view s) := by
  unfold timer2DispatchA
  by_cases c : (s.mcu.TIFR2 &&& bit OCF2A) ≠ 0 ∧ (s.mcu.TIMSK2 &&& bit OCIE2A) ≠ 0
  · have c2 : ((view s).mcu.TIFR2 &&& bit OCF2A) ≠ 0 ∧
        ((view s).mcu.TIMSK2 &&& bit OCIE2A) ≠ 0 := c
    rw [if_pos c, if_pos c2]
    simp [view, callISR, idle, hk.clock, hk.TCCR0B, hk.TIMSK0, hk.TIFR0, hk.TCNT0, hk.OCR0A, hk.OCR0B,
      hk.TCCR1B, hk.TIMSK1, hk.TIFR1, hk.TCNT1, hk.ICR1, hk.OCR1A, hk.OCR1B, hk.TCCR2A,
      hk.TCCR2B, hk.TIMSK2, hk.TIFR2, hk.TCNT2, hk.OCR2A, hk.OCR2B]
  · have c2 : ¬ (((view s).mcu.TIFR2 &&& bit OCF2A) ≠ 0 ∧
        ((view s).mcu.TIMSK2 &&& bit OCIE2A) ≠ 0) := c
    rw [if_neg c, if_neg c2]

theorem view_timer2DispatchB {φ : Type} (h : Hooks φ)
    (hk : KeepsTimers h.TIMER2_COMPB_vect) (s : Sim φ) :
    view (timer2DispatchB h s) = timer2DispatchB idle (view s) := by
  unfold timer2DispatchB
  by_cases c : (s.mcu.TIFR2 &&& bit OCF2B) ≠ 0 ∧ (s.mcu.TIMSK2 &&& bit OCIE2B) ≠ 0
  · have c2 : ((view s).mcu.TIFR2 &&& bit OCF2B) ≠ 0 ∧
        ((view s).mcu.TIMSK2 &&& bit OCIE2B) ≠ 0 := c
    rw [if_pos c, if_pos c2]
    simp [view, callISR, idle, hk.clock, hk.TCCR0B, hk.TIMSK0, hk.TIFR0, hk.TCNT0, hk.OCR0A, hk.OCR0B,
      hk.TCCR1B, hk.TIMSK1, hk.TIFR1, hk.TCNT1, hk.ICR1, hk.OCR1A, hk.OCR1B, hk.TCCR2A,
      hk.TCCR2B, hk.TIMSK2, hk.TIFR2, hk.TCNT2, hk.OCR2A, hk.OCR2B]
  · have c2 : ¬ (((view s).mcu.TIFR2 &&& bit OCF2B) ≠ 0 ∧
        ((view s).mcu.TIMSK2 &&& bit OCIE2B) ≠ 0) := c
    rw [if_neg c, if_neg c2]

theorem view_timer0MatchA {φ : Type} (s : Sim φ) :
    view (timer0MatchA s) = timer0MatchA (view s) := by
  unfold timer0MatchA
  by_cases c : s.mcu.TCNT0 = s.mcu.OCR0A
  · have c2 : (view s).mcu.TCNT0 = (view s).mcu.OCR0A := c
    rw [if_pos c, if_pos c2]
    rfl
  · have c2 : ¬ (view s).mcu.TCNT0 = (view s).mcu.OCR0A := c
    rw [if_neg c, if_neg c2]

theorem view_timer0MatchB {φ : Type} (s : Sim φ) :
    view (timer0MatchB s) = timer0MatchB (view s) := by
  unfold timer0MatchB
  by_cases c : s.mcu.TCNT0 = s.mcu.OCR0B
  · have c2 : (view s).mcu.TCNT0 = (view s).mcu.OCR0B := c
    rw [if_pos c, if_pos c2]
    rfl
  · have c2 : ¬ (view s).mcu.TCNT0 = (view s).mcu.OCR0B := c
    rw [if_neg c, if_neg c2]

theorem view_timer0 {φ : Type} (h : Hooks φ) (hq : Quiet h) (s : Sim φ) :
    view (timer0 h s) = timer0 idle (view s) := by
  unfold timer0
  have e : view (timer0Count h (timer0Reset s)) = timer0Count idle (timer0Reset (view s)) := by
    unfold timer0Count
    rw [view_timer0DispatchB h hq.t0b, view_timer0DispatchA h hq.t0a, view_timer0MatchB,
      view_timer0MatchA]
    rfl
  by_cases d : due (prescale0 (timer0Reset s).mcu) (timer0Reset s).mcu.clock
  · have d2 : due (prescale0 (timer0Reset (view s)).mcu) (timer0Reset (view s)).mcu.clock := d
    rw [if_pos d, if_pos d2, e]
  · have d2 : ¬ due (prescale0 (timer0Reset (view s)).mcu)
        (timer0Reset (view s)).mcu.clock := d
    rw [if_neg d, if_neg d2]
    rfl

theorem view_timer1MatchA {φ : Type} (s : Sim φ) :
    view (timer1MatchA s) = timer1MatchA (view s) := by
  unfold timer1MatchA
  by_cases c : s.mcu.TCNT1 = s.mcu.OCR1A
  · have c2 : (view s).mcu.TCNT1 = (view s).mcu.OCR1A := c
    rw [if_pos c, if_pos c2]
    rfl
  · have c2 : ¬ (view s).mcu.TCNT1 = (view s).mcu.OCR1A := c
    rw [if_neg c, if_neg c2]

theorem view_timer1MatchB {φ : Type} (s : Sim φ) :
    view (timer1MatchB s) = timer1MatchB (view s) := by
  unfold timer1MatchB
  by_cases c : s.mcu.TCNT1 = s.mcu.OCR1B
  · have c2 : (view s).mcu.TCNT1 = (view s).mcu.OCR1B := c
    rw [if_pos c, if_pos c2]
    rfl
  · have c2 : ¬ (view s).mcu.TCNT1 = (view s).mcu.OCR1B := c
    rw [if_neg c, if_neg c2]

theorem view_timer1 {φ : Type} (h : Hooks φ) (hq : Quiet h) (s : Sim φ) :
    view (timer1 h s) = timer1 idle (view s) := by
  unfold timer1
  have e : view (timer1Count h (timer1Reset s)) = timer1Count idle (timer1Reset (view s)) := by
    unfold timer1Count
    rw [view_timer1DispatchB h hq.t1b, view_timer1DispatchA h hq.t1a, view_timer1MatchB,
      view_timer1MatchA]
    rfl
  by_cases d : due (prescale1 (timer1Reset s).mcu) (timer1Reset s).mcu.clock
  · have d2 : due (prescale1 (timer1Reset (view s)).mcu) (timer1Reset (view s)).mcu.clock := d
    rw [if_pos d, if_pos d2, e]
  · have d2 : ¬ due (prescale1 (timer1Reset (view s)).mcu)
        (timer1Reset (view s)).mcu.clock := d
    rw [if_neg d, if_neg d2]
    rfl

theorem view_timer2Match {φ : Type} (s : Sim φ) :
    (timer2MatchB (timer2MatchA s)).1 = (timer2MatchB (timer2MatchA (view s))).1 ∧
      view (timer2MatchB (timer2MatchA s)).2 = (timer2MatchB (timer2MatchA (view s))).2 := by
  unfold timer2MatchB timer2MatchA
  by_cases a : s.mcu.TCNT2 = s.mcu.OCR2A
  · have a2 : (view s).mcu.TCNT2 = (view s).mcu.OCR2A := a
    rw [if_pos a, if_pos a2]
    by_cases b : s.mcu.TCNT2 = s.mcu.OCR2B
    · have b1 : (true, ({ s with mcu := { s.mcu with TIFR2 := s.mcu.TIFR2 ||| bit OCF2A } }
          : Sim φ)).2.mcu.TCNT2 = (true, ({ s with mcu := { s.mcu with
            TIFR2 := s.mcu.TIFR2 ||| bit OCF2A } } : Sim φ)).2.mcu.OCR2B := b
      have b2 : (true, ({ view s with mcu := { (view s).mcu with
          TIFR2 := (view s).mcu.TIFR2 ||| bit OCF2A } } : Sim Unit)).2.mcu.TCNT2 =
          (true, ({ view s with mcu := { (view s).mcu with
            TIFR2 := (view s).mcu.TIFR2 ||| bit OCF2A } } : Sim Unit)).2.mcu.OCR2B := b
      rw [if_pos b1, if_pos b2]
      exact ⟨rfl, rfl⟩
    · have b1 : ¬ (true, ({ s with mcu := { s.mcu with TIFR2 := s.mcu.TIFR2 ||| bit OCF2A } }
          : Sim φ)).2.mcu.TCNT2 = (true, ({ s with mcu := { s.mcu with
            TIFR2 := s.mcu.TIFR2 ||| bit OCF2A } } : Sim φ)).2.mcu.OCR2B := b
      have b2 : ¬ (true, ({ view s with mcu := { (view s).mcu with
          TIFR2 := (view s).mcu.TIFR2 ||| bit OCF2A } } : Sim Unit)).2.mcu.TCNT2 =
          (true, ({ view s with mcu := { (view s).mcu with
            TIFR2 := (view s).mcu.TIFR2 ||| bit OCF2A } } : Sim Unit)).2.mcu.OCR2B := b
      rw [if_neg b1, if_neg b2]
      exact ⟨rfl, rfl⟩
  · have a2 : ¬ (view s).mcu.TCNT2 = (view s).mcu.OCR2A := a
    rw [if_neg a, if_neg a2]
    by_cases b : s.mcu.TCNT2 = s.mcu.OCR2B
    · have b1 : (false, s).2.mcu.TCNT2 = (false, s).2.mcu.OCR2B := b
      have b2 : (false, view s).2.mcu.TCNT2 = (false, view s).2.mcu.OCR2B := b
      rw [if_pos b1, if_pos b2]
      exact ⟨rfl, rfl⟩
    · have b1 : ¬ (false, s).2.mcu.TCNT2 = (false, s).2.mcu.OCR2B := b
      have b2 : ¬ (false, view s).2.mcu.TCNT2 = (false, view s).2.mcu.OCR2B := b
      rw [if_neg b1, if_neg b2]
      exact ⟨rfl, rfl⟩

theorem view_timer2Clear {φ : Type} (s : Sim φ) :
    view (timer2Clear s) = timer2Clear (view s) := by
  unfold timer2Clear
  by_cases c : s.mcu.TCNT2 ≥ s.mcu.OCR2A + 1 ∧
      (s.mcu.TCCR2A &&& (bit WGM22 ||| bit WGM21 ||| bit WGM20)) = bit WGM21
  · have c2 : (view s).mcu.TCNT2 ≥ (view s).mcu.OCR2A + 1 ∧
        ((view s).mcu.TCCR2A &&& (bit WGM22 ||| bit WGM21 ||| bit WGM20)) = bit WGM21 := c
    rw [if_pos c, if_pos c2]
    rfl
  · have c2 : ¬ ((view s).mcu.TCNT2 ≥ (view s).mcu.OCR2A + 1 ∧
        ((view s).mcu.TCCR2A &&& (bit WGM22 ||| bit WGM21 ||| bit WGM20)) = bit WGM21) := c
    rw [if_neg c, if_neg c2]

theorem view_timer2 {φ : Type} (h : Hooks φ) (hq : Quiet h) (s : Sim φ) :
    (timer2 h s).1 = (timer2 idle (view s)).1 ∧
      view (timer2 h s).2 = (timer2 idle (view s)).2 := by
  unfold timer2
  have e := view_timer2Match (timer2Inc (timer2Reset s))
  have e1 : (timer2Count h (timer2Reset s)).1 = (timer2Count idle (timer2Reset (view s))).1 :=
    e.1
  have e2 : view (timer2Count h (timer2Reset s)).2 =
      (timer2Count idle (timer2Reset (view s))).2 := by
    unfold timer2Count
    show view (timer2DispatchB h (timer2DispatchA h
      (timer2Clear (timer2MatchB (timer2MatchA (timer2Inc (timer2Reset s)))).2))) = _
    rw [view_timer2DispatchB h hq.t2b, view_timer2DispatchA h hq.t2a, view_timer2Clear, e.2]
    rfl
  by_cases d : due (prescale2 (timer2Reset s).mcu) (timer2Reset s).mcu.clock
  · have d2 : due (prescale2 (timer2Reset (view s)).mcu) (timer2Reset (view s)).mcu.clock := d
    rw [if_pos d, if_pos d2]
    exact ⟨e1, e2⟩
  · have d2 : ¬ due (prescale2 (timer2Reset (view s)).mcu)
        (timer2Reset (view s)).mcu.clock := d
    rw [if_neg d, if_neg d2]
    exact ⟨rfl, rfl⟩

theorem view_callLoop {φ : Type} (h : Hooks φ) (hk : KeepsTimers h.loop) (s : Sim φ) :
    view (callLoop h s) = view s := by
  simp [view, callLoop, hk.clock, hk.TCCR0B, hk.TIMSK0, hk.TIFR0, hk.TCNT0, hk.OCR0A, hk.OCR0B,
      hk.TCCR1B, hk.TIMSK1, hk.TIFR1, hk.TCNT1, hk.ICR1, hk.OCR1A, hk.OCR1B, hk.TCCR2A,
      hk.TCCR2B, hk.TIMSK2, hk.TIFR2, hk.TCNT2, hk.OCR2A, hk.OCR2B]

theorem view_timer2Output {φ : Type} (oc : Bool) (s : Sim φ) :
    view (timer2Output oc s) = timer2Output oc (view s) := by
  unfold timer2Output
  by_cases c : recompute oc s
  · have c2 : recompute oc (view s) := c
    rw [if_pos c, if_pos c2]
    rfl
  · have c2 : ¬ recompute oc (view s) := c
    rw [if_neg c, if_neg c2]

/-- With quiet firmware the clock, the timer registers, the private variables
and the log evolve as under the idle firmware. -/
theorem view_advanceClock {φ : Type} (h : Hooks φ) (hq : Quiet h) (s : Sim φ) :
    view (advanceClock h s) = advanceClock idle (view s) := by
  unfold advanceClock beforeOutput advanceTimers
  have e := view_timer2 h hq (timer1 h (timer0 h (tick s)))
  rw [view_timer1 h hq, view_timer0 h hq] at e
  have et : view (tick s) = tick (view s) := rfl
  rw [et] at e
  rw [view_timer2Output, view_callLoop h hq.loop, e.1, e.2]
  rfl

/-! ### Bit tests -/

theorem bit_eq (k : Nat) : bit k = 2 ^ k := by
  unfold bit; exact Nat.one_shiftLeft k

theorem and_bit_eq_zero (x k : Nat) : x &&& bit k = 0 ↔ x.testBit k = false := by
  rw [bit_eq, Nat.and_two_pow]
  cases hx : x.testBit k <;> simp

theorem and_bit_ne_zero (x k : Nat) : x &&& bit k ≠ 0 ↔ x.testBit k = true := by
  rw [Ne, and_bit_eq_zero]; simp

theorem testBit_bit (k i : Nat) : (bit k).testBit i = decide (k = i) := by
  rw [bit_eq, Nat.testBit_two_pow]

theorem testBit_andNot8 (x m i : Nat) :
    (andNot8 x m).testBit i = (x.testBit i && (decide (i < 8) != m.testBit i)) := by
  unfold andNot8
  have h255 : (0xFF : Nat) = 2 ^ 8 - 1 := by norm_num
  rw [Nat.testBit_and, Nat.testBit_xor, h255, Nat.testBit_two_pow_sub_one]

/-! ### The idle firmware, block by block -/

theorem timer0MatchA_eq {φ : Type} (s : Sim φ) :
    timer0MatchA s = { s with mcu := { s.mcu with
      TIFR0 := if s.mcu.TCNT0 = s.mcu.OCR0A then s.mcu.TIFR0 ||| bit OCF0A else s.mcu.TIFR0 } } := by
  unfold timer0MatchA
  split_ifs <;> rfl

theorem timer0MatchB_eq {φ : Type} (s : Sim φ) :
    timer0MatchB s = { s with mcu := { s.mcu with
      TIFR0 := if s.mcu.TCNT0 = s.mcu.OCR0B then s.mcu.TIFR0 ||| bit OCF0B else s.mcu.TIFR0 } } := by
  unfold timer0MatchB
  split_ifs <;> rfl

theorem timer0DispatchA_idle (u : Sim Unit) :
    timer0DispatchA idle u = { u with
      mcu := { u.mcu with
        TIFR0 := if (u.mcu.TIFR0 &&& bit OCF0A) ≠ 0 ∧ (u.mcu.TIMSK0 &&& bit OCIE0A) ≠ 0
          then andNot8 u.mcu.TIFR0 (bit OCF0A) else u.mcu.TIFR0 },
      log := u.log ++ dispatchOf Vect.TIMER0_COMPA
        ((u.mcu.TIFR0 &&& bit OCF0A) ≠ 0 ∧ (u.mcu.TIMSK0 &&& bit OCIE0A) ≠ 0) } := by
  unfold timer0DispatchA dispatchOf
  split_ifs
  · rfl
  · simp

theorem timer0DispatchB_idle (u : Sim Unit) :
    timer0DispatchB idle u = { u with
      mcu := { u.mcu with
        TIFR0 := if (u.mcu.TIFR0 &&& bit OCF0B) ≠ 0 ∧ (u.mcu.TIMSK0 &&& bit OCIE0B) ≠ 0
          then andNot8 u.mcu.TIFR0 (bit OCF0B) else u.mcu.TIFR0 },
      log := u.log ++ dispatchOf Vect.TIMER0_COMPB
        ((u.mcu.TIFR0 &&& bit OCF0B) ≠ 0 ∧ (u.mcu.TIMSK0 &&& bit OCIE0B) ≠ 0) } := by
  unfold timer0DispatchB dispatchOf
  split_ifs
  · rfl
  · simp

theorem timer0_idle (u : Sim Unit) :
    timer0 idle u =
        { u with
          mcu := { u.mcu with
            TIFR0 := (timer0 idle u).mcu.TIFR0, TCNT0 := (timer0 idle u).mcu.TCNT0 },
          log := (timer0 idle u).log } ∧
      ((timer0 idle u).mcu.TIFR0 &&& bit OCF0A ≠ 0 ↔
        hit0 u.mcu u.mcu.clock u.mcu.OCR0A ∧ u.mcu.TIMSK0 &&& bit OCIE0A = 0) ∧
      ((timer0 idle u).mcu.TIFR0 &&& bit OCF0B ≠ 0 ↔
        hit0 u.mcu u.mcu.clock u.mcu.OCR0B ∧ u.mcu.TIMSK0 &&& bit OCIE0B = 0) ∧
      (timer0 idle u).log = u.log ++
        dispatchOf Vect.TIMER0_COMPA
          (hit0 u.mcu u.mcu.clock u.mcu.OCR0A ∧ u.mcu.TIMSK0 &&& bit OCIE0A ≠ 0) ++
        dispatchOf Vect.TIMER0_COMPB
          (hit0 u.mcu u.mcu.clock u.mcu.OCR0B ∧ u.mcu.TIMSK0 &&& bit OCIE0B ≠ 0) := by
  have hp : prescale0 (timer0Reset u).mcu = prescale0 u.mcu := rfl
  have hc : (timer0Reset u).mcu.clock = u.mcu.clock := rfl
  unfold timer0
  rw [hp, hc]
  by_cases d : due (prescale0 u.mcu) u.mcu.clock
  · rw [if_pos d]
    simp only [timer0Count, timer0DispatchA_idle, timer0DispatchB_idle, timer0MatchA_eq,
      timer0MatchB_eq, timer0Inc, timer0Reset, hit0, dispatchOf,
      and_bit_ne_zero, and_bit_eq_zero]
    generalize (u.mcu.TCNT0 + 1) % 256 = T
    generalize u.mcu.OCR0A = oa
    generalize u.mcu.OCR0B = ob
    generalize u.mcu.TIFR0 = f
    generalize u.mcu.TIMSK0 = k
    generalize u.log = l
    by_cases a : T = oa <;> by_cases b : T = ob <;>
    (try subst a) <;> (try subst b) <;>
    cases ea : k.testBit OCIE0A <;>
    cases eb : k.testBit OCIE0B <;>
    simp [*, testBit_andNot8, testBit_bit, OCF0A, OCF0B]
  · rw [if_neg d]
    simp [timer0Reset, hit0, dispatchOf, d, and_bit_ne_zero, testBit_andNot8, testBit_bit,
      OCF0A, OCF0B]

theorem timer1MatchA_eq {φ : Type} (s : Sim φ) :
    timer1MatchA s = { s with mcu := { s.mcu with
      TIFR1 := if s.mcu.TCNT1 = s.mcu.OCR1A then s.mcu.TIFR1 ||| bit OCF1A else s.mcu.TIFR1 } } := by
  unfold timer1MatchA
  split_ifs <;> rfl

theorem timer1MatchB_eq {φ : Type} (s : Sim φ) :
    timer1MatchB s = { s with mcu := { s.mcu with
      TIFR1 := if s.mcu.TCNT1 = s.mcu.OCR1B then s.mcu.TIFR1 ||| bit OCF1B else s.mcu.TIFR1 } } := by
  unfold timer1MatchB
  split_ifs <;> rfl

theorem timer1DispatchA_idle (u : Sim Unit) :
    timer1DispatchA idle u = { u with
      mcu := { u.mcu with
        TIFR1 := if (u.mcu.TIFR1 &&& bit OCF1A) ≠ 0 ∧ (u.mcu.TIMSK1 &&& bit OCIE1A) ≠ 0
          then andNot8 u.mcu.TIFR1 (bit OCF1A) else u.mcu.TIFR1 },
      log := u.log ++ dispatchOf Vect.TIMER1_COMPA
        ((u.mcu.TIFR1 &&& bit OCF1A) ≠ 0 ∧ (u.mcu.TIMSK1 &&& bit OCIE1A) ≠ 0) } := by
  unfold timer1DispatchA dispatchOf
  split_ifs
  · rfl
  · simp

theorem timer1DispatchB_idle (u : Sim Unit) :
    timer1DispatchB idle u = { u with
      mcu := { u.mcu with
        TIFR1 := if (u.mcu.TIFR1 &&& bit OCF1B) ≠ 0 ∧ (u.mcu.TIMSK1 &&& bit OCIE1B) ≠ 0
          then andNot8 u.mcu.TIFR1 (bit OCF1B) else u.mcu.TIFR1 },
      log := u.log ++ dispatchOf Vect.TIMER1_COMPB
        ((u.mcu.TIFR1 &&& bit OCF1B) ≠ 0 ∧ (u.mcu.TIMSK1 &&& bit OCIE1B) ≠ 0) } := by
  unfold timer1DispatchB dispatchOf
  split_ifs
  · rfl
  · simp

theorem timer1_idle (u : Sim Unit) :
    timer1 idle u =
        { u with
          mcu := { u.mcu with
            TIFR1 := (timer1 idle u).mcu.TIFR1, TCNT1 := (timer1 idle u).mcu.TCNT1 },
          log := (timer1 idle u).log } ∧
      ((timer1 idle u).mcu.TIFR1 &&& bit OCF1A ≠ 0 ↔
        hit1 u.mcu u.mcu.clock u.mcu.OCR1A ∧ u.mcu.TIMSK1 &&& bit OCIE1A = 0) ∧
      ((timer1 idle u).mcu.TIFR1 &&& bit OCF1B ≠ 0 ↔
        hit1 u.mcu u.mcu.clock u.mcu.OCR1B ∧ u.mcu.TIMSK1 &&& bit OCIE1B = 0) ∧
      (timer1 idle u).log = u.log ++
        dispatchOf Vect.TIMER1_COMPA
          (hit1 u.mcu u.mcu.clock u.mcu.OCR1A ∧ u.mcu.TIMSK1 &&& bit OCIE1A ≠ 0) ++
        dispatchOf Vect.TIMER1_COMPB
          (hit1 u.mcu u.mcu.clock u.mcu.OCR1B ∧ u.mcu.TIMSK1 &&& bit OCIE1B ≠ 0) := by
  have hp : prescale1 (timer1Reset u).mcu = prescale1 u.mcu := rfl
  have hc : (timer1Reset u).mcu.clock = u.mcu.clock := rfl
  unfold timer1
  rw [hp, hc]
  by_cases d : due (prescale1 u.mcu) u.mcu.clock
  · rw [if_pos d]
    simp only [timer1Count, timer1DispatchA_idle, timer1DispatchB_idle, timer1MatchA_eq,
      timer1MatchB_eq, timer1Inc, timer1Reset, hit1, dispatchOf,
      and_bit_ne_zero, and_bit_eq_zero]
    generalize (u.mcu.TCNT1 + 1) % 65536 = T
    generalize u.mcu.OCR1A = oa
    generalize u.mcu.OCR1B = ob
    generalize u.mcu.TIFR1 = f
    generalize u.mcu.TIMSK1 = k
    generalize u.log = l
    by_cases a : T = oa <;> by_cases b : T = ob <;>
    (try subst a) <;> (try subst b) <;>
    cases ea : k.testBit OCIE1A <;>
    cases eb : k.testBit OCIE1B <;>
    simp [*, testBit_andNot8, testBit_bit, OCF1A, OCF1B]
  · rw [if_neg d]
    simp [timer1Reset, hit1, dispatchOf, d, and_bit_ne_zero, testBit_andNot8, testBit_bit,
      OCF1A, OCF1B]

theorem timer2MatchA_eq {φ : Type} (s : Sim φ) :
    timer2MatchA s = (decide (s.mcu.TCNT2 = s.mcu.OCR2A), { s with mcu := { s.mcu with
      TIFR2 := if s.mcu.TCNT2 = s.mcu.OCR2A then s.mcu.TIFR2 ||| bit OCF2A else s.mcu.TIFR2 } }) := by
  unfold timer2MatchA
  split_ifs with c <;> simp [c]

theorem timer2MatchB_eq {φ : Type} (r : Bool × Sim φ) :
    timer2MatchB r = (r.1 || decide (r.2.mcu.TCNT2 = r.2.mcu.OCR2B),
      { r.2 with mcu := { r.2.mcu with
        TIFR2 := if r.2.mcu.TCNT2 = r.2.mcu.OCR2B then r.2.mcu.TIFR2 ||| bit OCF2B
          else r.2.mcu.TIFR2 } }) := by
  unfold timer2MatchB
  split_ifs with c <;> simp [c]

theorem timer2Clear_eq {φ : Type} (s : Sim φ) :
    timer2Clear s = { s with mcu := { s.mcu with
      TCNT2 := if s.mcu.TCNT2 ≥ s.mcu.OCR2A + 1 ∧
          (s.mcu.TCCR2A &&& (bit WGM22 ||| bit WGM21 ||| bit WGM20)) = bit WGM21
        then 0 else s.mcu.TCNT2 } } := by
  unfold timer2Clear
  split_ifs <;> rfl

theorem timer2DispatchA_idle (u : Sim Unit) :
    timer2DispatchA idle u = { u with
      mcu := { u.mcu with
        TIFR2 := if (u.mcu.TIFR2 &&& bit OCF2A) ≠ 0 ∧ (u.mcu.TIMSK2 &&& bit OCIE2A) ≠ 0
          then andNot8 u.mcu.TIFR2 (bit OCF2A) else u.mcu.TIFR2 },
      log := u.log ++ dispatchOf Vect.TIMER2_COMPA
        ((u.mcu.TIFR2 &&& bit OCF2A) ≠ 0 ∧ (u.mcu.TIMSK2 &&& bit OCIE2A) ≠ 0) } := by
  unfold timer2DispatchA dispatchOf
  split_ifs
  · rfl
  · simp

theorem timer2DispatchB_idle (u : Sim Unit) :
    timer2DispatchB idle u = { u with
      mcu := { u.mcu with
        TIFR2 := if (u.mcu.TIFR2 &&& bit OCF2B) ≠ 0 ∧ (u.mcu.TIMSK2 &&& bit OCIE2B) ≠ 0
          then andNot8 u.mcu.TIFR2 (bit OCF2B) else u.mcu.TIFR2 },
      log := u.log ++ dispatchOf Vect.TIMER2_COMPB
        ((u.mcu.TIFR2 &&& bit OCF2B) ≠ 0 ∧ (u.mcu.TIMSK2 &&& bit OCIE2B) ≠ 0) } := by
  unfold timer2DispatchB dispatchOf
  split_ifs
  · rfl
  · simp

theorem timer2_idle (u : Sim Unit) :
    (timer2 idle u).2 =
        { u with
          mcu := { u.mcu with
            TIFR2 := (timer2 idle u).2.mcu.TIFR2, TCNT2 := (timer2 idle u).2.mcu.TCNT2 },
          log := (timer2 idle u).2.log } ∧
      ((timer2 idle u).2.mcu.TIFR2 &&& bit OCF2A ≠ 0 ↔
        hit2 u.mcu u.mcu.clock u.mcu.OCR2A ∧ u.mcu.TIMSK2 &&& bit OCIE2A = 0) ∧
      ((timer2 idle u).2.mcu.TIFR2 &&& bit OCF2B ≠ 0 ↔
        hit2 u.mcu u.mcu.clock u.mcu.OCR2B ∧ u.mcu.TIMSK2 &&& bit OCIE2B = 0) ∧
      (timer2 idle u).2.log = u.log ++
        dispatchOf Vect.TIMER2_COMPA
          (hit2 u.mcu u.mcu.clock u.mcu.OCR2A ∧ u.mcu.TIMSK2 &&& bit OCIE2A ≠ 0) ++
        dispatchOf Vect.TIMER2_COMPB
          (hit2 u.mcu u.mcu.clock u.mcu.OCR2B ∧ u.mcu.TIMSK2 &&& bit OCIE2B ≠ 0) := by
  have hp : prescale2 (timer2Reset u).mcu = prescale2 u.mcu := rfl
  have hc : (timer2Reset u).mcu.clock = u.mcu.clock := rfl
  unfold timer2
  rw [hp, hc]
  by_cases d : due (prescale2 u.mcu) u.mcu.clock
  · rw [if_pos d]
    simp only [timer2Count, timer2DispatchA_idle, timer2DispatchB_idle, timer2MatchA_eq,
      timer2MatchB_eq, timer2Clear_eq, timer2Inc, timer2Reset, hit2, dispatchOf,
      and_bit_ne_zero, and_bit_eq_zero]
    generalize (u.mcu.TCNT2 + 1) % 256 = T
    generalize u.mcu.OCR2A = oa
    generalize u.mcu.OCR2B = ob
    generalize u.mcu.TIFR2 = f
    generalize u.mcu.TIMSK2 = k
    generalize u.log = l
    by_cases a : T = oa <;> by_cases b : T = ob <;>
    (try subst a) <;> (try subst b) <;>
    cases ea : k.testBit OCIE2A <;>
    cases eb : k.testBit OCIE2B <;>
    simp [*, testBit_andNot8, testBit_bit, OCF2A, OCF2B]
  · rw [if_neg d]
    simp [timer2Reset, hit2, dispatchOf, d, and_bit_ne_zero, testBit_andNot8, testBit_bit,
      OCF2A, OCF2B]

theorem timer2Output_flags {φ : Type} (oc : Bool) (s : Sim φ) :
    (timer2Output oc s).mcu.TIFR0 = s.mcu.TIFR0 ∧ (timer2Output oc s).mcu.TIFR1 = s.mcu.TIFR1 ∧
      (timer2Output oc s).mcu.TIFR2 = s.mcu.TIFR2 ∧ (timer2Output oc s).log = s.log := by
  unfold timer2Output
  split_ifs <;> exact ⟨rfl, rfl, rfl, rfl⟩

/-- Flags and handler calls of one step under the idle firmware. -/
theorem advanceClock_idle_flags (u : Sim Unit) :
    (((advanceClock idle u).mcu.TIFR0 &&& bit OCF0A ≠ 0 ↔
        hit0 u.mcu ((u.mcu.clock + 1) % 2 ^ 32) u.mcu.OCR0A ∧
          u.mcu.TIMSK0 &&& bit OCIE0A = 0) ∧
      ((advanceClock idle u).mcu.TIFR0 &&& bit OCF0B ≠ 0 ↔
        hit0 u.mcu ((u.mcu.clock + 1) % 2 ^ 32) u.mcu.OCR0B ∧
          u.mcu.TIMSK0 &&& bit OCIE0B = 0)) ∧
    (((advanceClock idle u).mcu.TIFR1 &&& bit OCF1A ≠ 0 ↔
        hit1 u.mcu ((u.mcu.clock + 1) % 2 ^ 32) u.mcu.OCR1A ∧
          u.mcu.TIMSK1 &&& bit OCIE1A = 0) ∧
      ((advanceClock idle u).mcu.TIFR1 &&& bit OCF1B ≠ 0 ↔
        hit1 u.mcu ((u.mcu.clock + 1) % 2 ^ 32) u.mcu.OCR1B ∧
          u.mcu.TIMSK1 &&& bit OCIE1B = 0)) ∧
    (((advanceClock idle u).mcu.TIFR2 &&& bit OCF2A ≠ 0 ↔
        hit2 u.mcu ((u.mcu.clock + 1) % 2 ^ 32) u.mcu.OCR2A ∧
          u.mcu.TIMSK2 &&& bit OCIE2A = 0) ∧
      ((advanceClock idle u).mcu.TIFR2 &&& bit OCF2B ≠ 0 ↔
        hit2 u.mcu ((u.mcu.clock + 1) % 2 ^ 32) u.mcu.OCR2B ∧
          u.mcu.TIMSK2 &&& bit OCIE2B = 0)) ∧
    (advanceClock idle u).log = u.log ++
      dispatchOf Vect.TIMER0_COMPA
        (hit0 u.mcu ((u.mcu.clock + 1) % 2 ^ 32) u.mcu.OCR0A ∧
          u.mcu.TIMSK0 &&& bit OCIE0A ≠ 0) ++
      dispatchOf Vect.TIMER0_COMPB
        (hit0 u.mcu ((u.mcu.clock + 1) % 2 ^ 32) u.mcu.OCR0B ∧
          u.mcu.TIMSK0 &&& bit OCIE0B ≠ 0) ++
      dispatchOf Vect.TIMER1_COMPA
        (hit1 u.mcu ((u.mcu.clock + 1) % 2 ^ 32) u.mcu.OCR1A ∧
          u.mcu.TIMSK1 &&& bit OCIE1A ≠ 0) ++
      dispatchOf Vect.TIMER1_COMPB
        (hit1 u.mcu ((u.mcu.clock + 1) % 2 ^ 32) u.mcu.OCR1B ∧
          u.mcu.TIMSK1 &&& bit OCIE1B ≠ 0) ++
      dispatchOf Vect.TIMER2_COMPA
        (hit2 u.mcu ((u.mcu.clock + 1) % 2 ^ 32) u.mcu.OCR2A ∧
          u.mcu.TIMSK2 &&& bit OCIE2A ≠ 0) ++
      dispatchOf Vect.TIMER2_COMPB
        (hit2 u.mcu ((u.mcu.clock + 1) % 2 ^ 32) u.mcu.OCR2B ∧
          u.mcu.TIMSK2 &&& bit OCIE2B ≠ 0) := by
  obtain ⟨e0, a0, b0, l0⟩ := timer0_idle (tick u)
  obtain ⟨e1, a1, b1, l1⟩ := timer1_idle (timer0 idle (tick u))
  obtain ⟨e2, a2, b2, l2⟩ := timer2_idle (timer1 idle (timer0 idle (tick u)))
  obtain ⟨o0, o1, o2, ol⟩ := timer2Output_flags
    (timer2 idle (timer1 idle (timer0 idle (tick u)))).1
    (callLoop idle (timer2 idle (timer1 idle (timer0 idle (tick u)))).2)
  have f0 : (advanceClock idle u).mcu.TIFR0 = (timer0 idle (tick u)).mcu.TIFR0 :=
    o0.trans ((congrArg (fun x => x.mcu.TIFR0) e2).trans (congrArg (fun x => x.mcu.TIFR0) e1))
  have f1 : (advanceClock idle u).mcu.TIFR1 = (timer1 idle (timer0 idle (tick u))).mcu.TIFR1 :=
    o1.trans (congrArg (fun x => x.mcu.TIFR1) e2)
  have f2 : (advanceClock idle u).mcu.TIFR2 =
      (timer2 idle (timer1 idle (timer0 idle (tick u)))).2.mcu.TIFR2 := o2
  have fl : (advanceClock idle u).log =
      (timer2 idle (timer1 idle (timer0 idle (tick u)))).2.log := ol
  have m1 : (timer0 idle (tick u)).mcu = { (tick u).mcu with
      TIFR0 := (timer0 idle (tick u)).mcu.TIFR0, TCNT0 := (timer0 idle (tick u)).mcu.TCNT0 } :=
    congrArg (fun x => x.mcu) e0
  have m2 : (timer1 idle (timer0 idle (tick u))).mcu = { (timer0 idle (tick u)).mcu with
      TIFR1 := (timer1 idle (timer0 idle (tick u))).mcu.TIFR1,
      TCNT1 := (timer1 idle (timer0 idle (tick u))).mcu.TCNT1 } :=
    congrArg (fun x => x.mcu) e1
  rw [f0, f1, f2, fl, l2, l1, l0]
  rw [m2, m1] at a2 b2
  rw [m1] at a1 b1
  rw [m2, m1]
  exact ⟨⟨a0, b0⟩, ⟨a1, b1⟩, ⟨a2, b2⟩, rfl⟩

/-- C2 (amended): with firmware that writes neither the clock nor a timer
register, after one `advanceClock` step the flag `OCFnX` is set exactly when the
step raised it (timer `n` counted at the new tick and its incremented counter
equals `OCRnX`) while `OCIEnX` is clear, whatever the flag was before the step;
and the step calls the handler of `OCFnX` exactly when it raised the flag while
`OCIEnX` is set, the calls being made in the order 0A, 0B, 1A, 1B, 2A, 2B. -/
theorem compare_flag_one_step {φ : Type} (h : Hooks φ) (hq : Quiet h) (s : Sim φ) :
    (((advanceClock h s).mcu.TIFR0 &&& bit OCF0A ≠ 0 ↔
        hit0 s.mcu ((s.mcu.clock + 1) % 2 ^ 32) s.mcu.OCR0A ∧
          s.mcu.TIMSK0 &&& bit OCIE0A = 0) ∧
      ((advanceClock h s).mcu.TIFR0 &&& bit OCF0B ≠ 0 ↔
        hit0 s.mcu ((s.mcu.clock + 1) % 2 ^ 32) s.mcu.OCR0B ∧
          s.mcu.TIMSK0 &&& bit OCIE0B = 0)) ∧
    (((advanceClock h s).mcu.TIFR1 &&& bit OCF1A ≠ 0 ↔
        hit1 s.mcu ((s.mcu.clock + 1) % 2 ^ 32) s.mcu.OCR1A ∧
          s.mcu.TIMSK1 &&& bit OCIE1A = 0) ∧
      ((advanceClock h s).mcu.TIFR1 &&& bit OCF1B ≠ 0 ↔
        hit1 s.mcu ((s.mcu.clock + 1) % 2 ^ 32) s.mcu.OCR1B ∧
          s.mcu.TIMSK1 &&& bit OCIE1B = 0)) ∧
    (((advanceClock h s).mcu.TIFR2 &&& bit OCF2A ≠ 0 ↔
        hit2 s.mcu ((s.mcu.clock + 1) % 2 ^ 32) s.mcu.OCR2A ∧
          s.mcu.TIMSK2 &&& bit OCIE2A = 0) ∧
      ((advanceClock h s).mcu.TIFR2 &&& bit OCF2B ≠ 0 ↔
        hit2 s.mcu ((s.mcu.clock + 1) % 2 ^ 32) s.mcu.OCR2B ∧
          s.mcu.TIMSK2 &&& bit OCIE2B = 0)) ∧
    (advanceClock h s).log = s.log ++
      dispatchOf Vect.TIMER0_COMPA
        (hit0 s.mcu ((s.mcu.clock + 1) % 2 ^ 32) s.mcu.OCR0A ∧
          s.mcu.TIMSK0 &&& bit OCIE0A ≠ 0) ++
      dispatchOf Vect.TIMER0_COMPB
        (hit0 s.mcu ((s.mcu.clock + 1) % 2 ^ 32) s.mcu.OCR0B ∧
          s.mcu.TIMSK0 &&& bit OCIE0B ≠ 0) ++
      dispatchOf Vect.TIMER1_COMPA
        (hit1 s.mcu ((s.mcu.clock + 1) % 2 ^ 32) s.mcu.OCR1A ∧
          s.mcu.TIMSK1 &&& bit OCIE1A ≠ 0) ++
      dispatchOf Vect.TIMER1_COMPB
        (hit1 s.mcu ((s.mcu.clock + 1) % 2 ^ 32) s.mcu.OCR1B ∧
          s.mcu.TIMSK1 &&& bit OCIE1B ≠ 0) ++
      dispatchOf Vect.TIMER2_COMPA
        (hit2 s.mcu ((s.mcu.clock + 1) % 2 ^ 32) s.mcu.OCR2A ∧
          s.mcu.TIMSK2 &&& bit OCIE2A ≠ 0) ++
      dispatchOf Vect.TIMER2_COMPB
        (hit2 s.mcu ((s.mcu.clock + 1) % 2 ^ 32) s.mcu.OCR2B ∧
          s.mcu.TIMSK2 &&& bit OCIE2B ≠ 0) := by
  have e := view_advanceClock h hq s
  have k := advanceClock_idle_flags (view s)
  rw [← e] at k
  exact k

/-- Witness of `compare_flag_one_step`: idle firmware, Timer0 counting on every
tick with `OCR0A = 1` and `OCIE0A` set; the first step calls the handler once and
leaves the flag clear. -/
theorem compare_flag_one_step_witness :
    Quiet idle ∧
      (advanceClock idle
          { sim0 with mcu := { mcu0 with TCCR0B := 2, OCR0A := 1, TIMSK0 := 2 } }).log =
        [Event.isr Vect.TIMER0_COMPA] ∧
      (advanceClock idle
          { sim0 with mcu := { mcu0 with TCCR0B := 2, OCR0A := 1, TIMSK0 := 2 } }).mcu.TIFR0
        &&& bit OCF0A = 0 :=
  ⟨quiet_idle, by
    rw [(compare_flag_one_step idle quiet_idle
      { sim0 with mcu := { mcu0 with TCCR0B := 2, OCR0A := 1, TIMSK0 := 2 } }).2.2.2]
    decide, by decide⟩

/-- C2 as stated fails: Timer0 counts on every tick, `OCR0A = 1`, `OCIE0A` clear,
idle firmware. The first step sets `OCF0A`; the second step, in which the counter
moves on to 2, ends with `OCF0A` clear although no firmware code cleared it. -/
theorem compare_flag_sticky_counterexample :
    ({ sim0 with mcu := { mcu0 with TCCR0B := 2, OCR0A := 1 } } : Sim Unit).mcu.TIMSK0
        &&& bit OCIE0A = 0 ∧
      (advanceClock idle { sim0 with mcu := { mcu0 with TCCR0B := 2, OCR0A := 1 } }).mcu.TIFR0
        &&& bit OCF0A ≠ 0 ∧
      (advanceClock idle
        (advanceClock idle { sim0 with mcu := { mcu0 with TCCR0B := 2, OCR0A := 1 } })).mcu.TIFR0
        &&& bit OCF0A = 0 := by
  decide

/-! ### Input capture -/

theorem elapsed_lt (p e : Nat) (hp : p < 2 ^ 32) (he : e < 20) :
    ((p + e) % 2 ^ 32 + 2 ^ 32 - p) % 2 ^ 32 = e := by
  norm_num at hp ⊢
  omega

/-- C3: (1) with `ICNC1` set, a call of `setTimer1Capture` whose level differs
from the remembered level and which arrives `e < 20` ticks (of the 32-bit clock)
after the remembered acceptance tick returns the state unchanged: `ICR1`, the
remembered level, the remembered tick and the log (no handler call) are as
before. (2) With `ICNC1` clear, a call whose level differs from the remembered
level stores `TCNT1` in `ICR1` before any handler runs, so that the registers
end as that store, followed or not by the capture handler, and the remembered
level becomes the new level; `ICR1` ends equal to `TCNT1` when the handler does
not write the timer registers. -/
theorem capture_noise_canceler {φ : Type} (h : Hooks φ) (data : Bool) (s : Sim φ) :
    (∀ e : Nat, data ≠ s.timer1captPrev → s.mcu.TCCR1B &&& bit ICNC1 ≠ 0 →
        s.timer1captPrevClock < 2 ^ 32 → e < 20 →
        s.mcu.clock = (s.timer1captPrevClock + e) % 2 ^ 32 →
        setTimer1Capture h data s = s) ∧
      (data ≠ s.timer1captPrev → s.mcu.TCCR1B &&& bit ICNC1 = 0 →
        ((setTimer1Capture h data s).mcu = { s.mcu with ICR1 := s.mcu.TCNT1 } ∨
          (setTimer1Capture h data s).mcu =
            h.TIMER1_CAPT_vect { s.mcu with ICR1 := s.mcu.TCNT1 }) ∧
        (setTimer1Capture h data s).timer1captPrev = data ∧
        (KeepsTimers h.TIMER1_CAPT_vect →
          (setTimer1Capture h data s).mcu.ICR1 = s.mcu.TCNT1)) := by
  constructor
  · intro e hd hn hp he hc
    have hna : ¬ accepts data s := by
      unfold accepts
      rw [hc, elapsed_lt _ _ hp he]
      intro hacc
      rcases hacc.2 with h0 | h20
      · exact hn h0
      · omega
    unfold setTimer1Capture
    rw [if_neg hna]
  · intro hd hn
    have ha : accepts data s := ⟨hd, Or.inl hn⟩
    unfold setTimer1Capture
    rw [if_pos ha]
    unfold captureDispatch
    split_ifs
    · exact ⟨Or.inr rfl, rfl, fun hk => (hk.ICR1 _).trans rfl⟩
    · exact ⟨Or.inr rfl, rfl, fun hk => (hk.ICR1 _).trans rfl⟩
    · exact ⟨Or.inl rfl, rfl, fun _ => rfl⟩

/-- Witness of `capture_noise_canceler`: with `ICNC1` set, a rising level 5 ticks
after tick 0 is ignored; with `ICNC1` clear and `TCNT1 = 77`, a rising level
latches 77 into `ICR1`. -/
theorem capture_noise_canceler_witness :
    (setTimer1Capture idle true
        { sim0 with mcu := { mcu0 with TCCR1B := 0x80, clock := 5, TCNT1 := 77 } } =
        { sim0 with mcu := { mcu0 with TCCR1B := 0x80, clock := 5, TCNT1 := 77 } }) ∧
      (setTimer1Capture idle true
        { sim0 with mcu := { mcu0 with clock := 5, TCNT1 := 77 } }).mcu.ICR1 = 77 :=
  ⟨(capture_noise_canceler idle true
      { sim0 with mcu := { mcu0 with TCCR1B := 0x80, clock := 5, TCNT1 := 77 } }).1 5
      (by decide) (by decide) (by decide) (by decide) (by decide),
    ((capture_noise_canceler idle true
      { sim0 with mcu := { mcu0 with clock := 5, TCNT1 := 77 } }).2
      (by decide) (by decide)).2.2 keepsTimers_id⟩

/-- C4: on an accepted transition `setTimer1Capture` calls the capture handler
exactly once when the edge is the selected one (`ICES1` clear and high-to-low,
or `ICES1` set and low-to-high) and not at all otherwise; either way the
remembered level becomes the new level and the remembered tick becomes the
clock as it stands after the handler, which is the clock of the call when the
handler does not write it. A call whose level equals the remembered level
returns the state unchanged. -/
theorem capture_dispatch_on_edge {φ : Type} (h : Hooks φ) (data : Bool) (s : Sim φ) :
    (accepts data s →
        (setTimer1Capture h data s).log =
            s.log ++ dispatchOf Vect.TIMER1_CAPT (captureEdge data s) ∧
          (setTimer1Capture h data s).timer1captPrev = data ∧
          (setTimer1Capture h data s).timer1captPrevClock =
            (setTimer1Capture h data s).mcu.clock ∧
          (KeepsTimers h.TIMER1_CAPT_vect →
            (setTimer1Capture h data s).timer1captPrevClock = s.mcu.clock)) ∧
      (data = s.timer1captPrev → setTimer1Capture h data s = s) := by
  constructor
  · intro ha
    unfold setTimer1Capture
    rw [if_pos ha]
    unfold captureDispatch dispatchOf captureEdge
    by_cases c1 : (s.mcu.TCCR1B &&& bit ICES1) = 0 ∧ s.timer1captPrev = true ∧ data = false
    · have c1b : ((captureLatch s).mcu.TCCR1B &&& bit ICES1) = 0 ∧
          (captureLatch s).timer1captPrev = true ∧ data = false := c1
      rw [if_pos c1b, if_pos (Or.inl c1)]
      exact ⟨rfl, rfl, rfl, fun hk => (hk.clock _).trans rfl⟩
    · have c1b : ¬ (((captureLatch s).mcu.TCCR1B &&& bit ICES1) = 0 ∧
          (captureLatch s).timer1captPrev = true ∧ data = false) := c1
      rw [if_neg c1b]
      by_cases c2 : (s.mcu.TCCR1B &&& bit ICES1) ≠ 0 ∧ s.timer1captPrev = false ∧ data = true
      · have c2b : ((captureLatch s).mcu.TCCR1B &&& bit ICES1) ≠ 0 ∧
            (captureLatch s).timer1captPrev = false ∧ data = true := c2
        rw [if_pos c2b, if_pos (Or.inr c2)]
        exact ⟨rfl, rfl, rfl, fun hk => (hk.clock _).trans rfl⟩
      · have c2b : ¬ (((captureLatch s).mcu.TCCR1B &&& bit ICES1) ≠ 0 ∧
            (captureLatch s).timer1captPrev = false ∧ data = true) := c2
        have c3 : ¬ (((s.mcu.TCCR1B &&& bit ICES1) = 0 ∧ s.timer1captPrev = true ∧
            data = false) ∨
            ((s.mcu.TCCR1B &&& bit ICES1) ≠ 0 ∧ s.timer1captPrev = false ∧ data = true)) := by
          intro hc
          rcases hc with hc | hc
          · exact c1 hc
          · exact c2 hc
        rw [if_neg c2b, if_neg c3]
        exact ⟨(List.append_nil _).symm, rfl, rfl, fun _ => rfl⟩
  · intro he
    have hna : ¬ accepts data s := fun ha => ha.1 he
    unfold setTimer1Capture
    rw [if_neg hna]

/-- Witness of `capture_dispatch_on_edge`: from the start state with `ICES1` set
a rising level is accepted and dispatched once; a low level, equal to the
remembered one, changes nothing. -/
theorem capture_dispatch_on_edge_witness :
    accepts true ({ sim0 with mcu := { mcu0 with TCCR1B := 0x40, clock := 9 } } : Sim Unit) ∧
      (setTimer1Capture idle true
        { sim0 with mcu := { mcu0 with TCCR1B := 0x40, clock := 9 } }).log =
        [Event.isr Vect.TIMER1_CAPT] ∧
      (setTimer1Capture idle true
        { sim0 with mcu := { mcu0 with TCCR1B := 0x40, clock := 9 } }).timer1captPrevClock = 9 ∧
      setTimer1Capture idle false sim0 = sim0 :=
  ⟨by decide,
    ((capture_dispatch_on_edge idle true
      { sim0 with mcu := { mcu0 with TCCR1B := 0x40, clock := 9 } }).1 (by decide)).1.trans
      (by decide),
    ((capture_dispatch_on_edge idle true
      { sim0 with mcu := { mcu0 with TCCR1B := 0x40, clock := 9 } }).1 (by decide)).2.2.2
      keepsTimers_id,
    (capture_dispatch_on_edge idle false sim0).2 (by decide)⟩

/-! ### Output compare -/

theorem timer0_level {φ : Type} (h : Hooks φ) (s : Sim φ) :
    (timer0 h s).timer2outputA = s.timer2outputA := by
  simp only [timer0, timer0Count, timer0DispatchA, timer0DispatchB, timer0MatchA, timer0MatchB,
    timer0Inc, timer0Reset, callISR]
  split_ifs <;> rfl

theorem timer1_level {φ : Type} (h : Hooks φ) (s : Sim φ) :
    (timer1 h s).timer2outputA = s.timer2outputA := by
  simp only [timer1, timer1Count, timer1DispatchA, timer1DispatchB, timer1MatchA, timer1MatchB,
    timer1Inc, timer1Reset, callISR]
  split_ifs <;> rfl

theorem timer2Match_level {φ : Type} (s : Sim φ) :
    (timer2MatchB (timer2MatchA s)).2.timer2outputA = s.timer2outputA := by
  simp only [timer2MatchA_eq, timer2MatchB_eq]

theorem timer2_level {φ : Type} (h : Hooks φ) (s : Sim φ) :
    (timer2 h s).2.timer2outputA = s.timer2outputA := by
  unfold timer2
  split_ifs
  · unfold timer2Count
    have e := timer2Match_level (timer2Inc (timer2Reset s))
    have e2 : ∀ x : Sim φ, (timer2DispatchB h (timer2DispatchA h (timer2Clear x))).timer2outputA
        = x.timer2outputA := by
      intro x
      simp only [timer2DispatchA, timer2DispatchB, timer2Clear, callISR]
      split_ifs <;> rfl
    rw [e2, e]
    rfl
  · rfl

/-- The output level `timer2Output` starts from is the level before the step. -/
theorem beforeOutput_level {φ : Type} (h : Hooks φ) (s : Sim φ) :
    (beforeOutput h s).2.timer2outputA = s.timer2outputA := by
  unfold beforeOutput advanceTimers callLoop
  show (timer2 h (timer1 h (timer0 h (tick s)))).2.timer2outputA = _
  rw [timer2_level, timer1_level, timer0_level]
  rfl

/-- The output-compare block read as a table of the field `COM2A1:COM2A0`. -/
theorem outputMode_table (x : Nat) (old : Bool) :
    outputMode x old =
      (match (x / 2 ^ COM2A0) % 4 with
        | 0 => old
        | 1 => !old
        | 2 => false
        | _ => true) := by
  have h7 : x.testBit 7 = decide (x / 2 ^ 7 % 2 = 1) := Nat.testBit_to_div_mod
  have h6 : x.testBit 6 = decide (x / 2 ^ 6 % 2 = 1) := Nat.testBit_to_div_mod
  unfold outputMode
  simp only [and_bit_ne_zero, COM2A1, COM2A0, h7, h6, decide_eq_true_eq]
  have hm : x / 2 ^ 6 % 4 < 4 := Nat.mod_lt _ (by decide)
  norm_num at hm ⊢
  generalize hk : x / 64 % 4 = k at hm
  have h128 : x / 128 % 2 = k / 2 := by omega
  have h64 : x / 64 % 2 = k % 2 := by omega
  rw [h128, h64]
  interval_cases k <;> simp

/-- C5: when `advanceClock` recomputes the Timer2 output-A level, that is when
the Timer2 block of the step has set `ocmatchA` or `FOC2A` is set in `TCCR2B`
after `loop()`, the level that `getTimer2OutputA` returns after the step is fixed
by the field `COM2A1:COM2A0` (bits 7 and 6) of `TCCR2A` as `loop()` has left it,
`h.loop` applied to the registers that the three timer blocks of this step
produced: 00 keeps the level of before the step, 01 negates it, 10 gives low,
11 gives high. -/
theorem output_level_by_mode {φ : Type} (h : Hooks φ) (s : Sim φ)
    (hr : (advanceTimers h s).1 = true ∨
      (h.loop (advanceTimers h s).2.mcu).TCCR2B &&& bit FOC2A ≠ 0) :
    getTimer2OutputA (advanceClock h s) =
      (match ((h.loop (advanceTimers h s).2.mcu).TCCR2A / 2 ^ COM2A0) % 4 with
        | 0 => getTimer2OutputA s
        | 1 => !getTimer2OutputA s
        | 2 => false
        | _ => true) := by
  have hr2 : recompute (beforeOutput h s).1 (beforeOutput h s).2 := hr.symm
  unfold getTimer2OutputA advanceClock timer2Output
  rw [if_pos hr2]
  show outputMode (beforeOutput h s).2.mcu.TCCR2A (beforeOutput h s).2.timer2outputA = _
  rw [beforeOutput_level, outputMode_table]
  rfl

/-- Witness of `output_level_by_mode`: the registers select mode 10 (low) and the
output is low; `loop()` of the firmware `forcer` sets `FOC2A` and writes mode 11
(high). The step recomputes with the mode that `loop()` left: the output turns
high, where mode 10 would have kept it low. -/
theorem output_level_by_mode_witness :
    (forcer.loop (advanceTimers forcer
        { sim0 with mcu := { mcu0 with TCCR2A := 0x80 } }).2.mcu).TCCR2A
        = 0xC0 ∧
      getTimer2OutputA
        (advanceClock forcer
          { sim0 with mcu := { mcu0 with TCCR2A := 0x80 } })
        = true :=
  ⟨by decide,
    (output_level_by_mode forcer
      { sim0 with mcu := { mcu0 with TCCR2A := 0x80 } }
      (Or.inr (by decide))).trans (by decide)⟩

/-! ### Serial decoder: one poll -/

theorem readBus_log {φ : Type} (h : Hooks φ) (reg : Nat) (s : Sim φ) :
    (readBus h reg s).2.log = s.log ++ [Event.readBus reg, Event.isr Vect.PCINT0] ∧
      (readBus h reg s).2.cmp = s.cmp ∧ (readBus h reg s).2.junk = s.junk :=
  ⟨rfl, rfl, rfl⟩

theorem compareByte_log (junk data : Nat) (c : Cmp) :
    (compareByte junk data c).2.2.count (Event.readBus 1) = 0 := by
  unfold compareByte
  cases c.cmpfile with
  | none => rfl
  | some f =>
    simp only
    split_ifs <;> simp [List.count_cons]

theorem compareByte_none (junk data : Nat) (c : Cmp) (hc : c.cmpfile = none) :
    compareByte junk data c = (true, c, []) := by
  unfold compareByte
  rw [hc]

theorem and_12_eq_zero (x : Nat) : x &&& 0x0C = 0 ↔ x &&& 0x08 = 0 ∧ x &&& 0x04 = 0 := by
  have e8 : (0x08 : Nat) = bit 3 := by decide
  have e4 : (0x04 : Nat) = bit 2 := by decide
  rw [e8, e4, and_bit_eq_zero, and_bit_eq_zero]
  constructor
  · intro hx
    have h3 := congrArg (fun y => Nat.testBit y 3) hx
    have h2 := congrArg (fun y => Nat.testBit y 2) hx
    have c3 : Nat.testBit 12 3 = true := by decide
    have c2 : Nat.testBit 12 2 = true := by decide
    simp only [Nat.testBit_and, Nat.zero_testBit, c3, c2, Bool.and_true] at h3 h2
    exact ⟨h3, h2⟩
  · intro hx
    apply Nat.eq_of_testBit_eq
    intro i
    rw [Nat.testBit_and, Nat.zero_testBit]
    by_cases i3 : i = 3
    · subst i3; rw [hx.1]; rfl
    · by_cases i2 : i = 2
      · subst i2; rw [hx.2]; rfl
      · have c : Nat.testBit 12 i = false := by
          have e12 : (12 : Nat) = bit 3 ||| bit 2 := by decide
          rw [e12, Nat.testBit_or, testBit_bit, testBit_bit]
          simp [Ne.symm i3, Ne.symm i2]
        rw [c, Bool.and_false]

/-- C8: `getData` decodes the status byte `readBus(0)` returns from bits 3, 2
and 0 alone. With bit 3 set it reports a framing error and fails, and with bit 3
clear and bit 2 set it reports a parity error and fails, in both cases leaving
the state as the status read left it, so without reading the data register;
the data register is read (`readBus(1)`, once) exactly when bits 3, 2 and 0 are
all clear; and with no comparison stream attached the result is success exactly
when bits 3 and 2 are both clear. -/
theorem status_decode {φ : Type} (h : Hooks φ) (s : Sim φ) :
    ((readBus h 0 s).1 &&& 0x08 ≠ 0 →
        getData h s = (false, report Event.framingError (readBus h 0 s).2)) ∧
      ((readBus h 0 s).1 &&& 0x08 = 0 → (readBus h 0 s).1 &&& 0x04 ≠ 0 →
        getData h s = (false, report Event.parityError (readBus h 0 s).2)) ∧
      (getData h s).2.log.count (Event.readBus 1) =
        s.log.count (Event.readBus 1) +
          (if (readBus h 0 s).1 &&& 0x08 = 0 ∧ (readBus h 0 s).1 &&& 0x04 = 0 ∧
              (readBus h 0 s).1 &&& 0x01 = 0 then 1 else 0) ∧
      (s.cmp.cmpfile = none →
        ((getData h s).1 = true ↔
          (readBus h 0 s).1 &&& 0x08 = 0 ∧ (readBus h 0 s).1 &&& 0x04 = 0)) := by
  have hbits := and_12_eq_zero
  obtain ⟨l0, -, -⟩ := readBus_log h 0 s
  refine ⟨?_, ?_, ?_, ?_⟩
  · intro h8
    unfold getData
    rw [if_pos h8]
  · intro h8 h4
    unfold getData
    rw [if_neg (not_not.mpr h8), if_pos h4]
  · unfold getData
    by_cases h8 : (readBus h 0 s).1 &&& 0x08 = 0
    · by_cases h4 : (readBus h 0 s).1 &&& 0x04 = 0
      · by_cases h1 : (readBus h 0 s).1 &&& 0x01 = 0
        · rw [if_neg (not_not.mpr h8), if_neg (not_not.mpr h4), if_pos h1,
            if_pos ⟨h8, h4, h1⟩]
          obtain ⟨l1, -, -⟩ := readBus_log h 1 (readBus h 0 s).2
          unfold gotByte
          split_ifs <;>
            simp [l0, l1, List.count_append, List.count_cons, compareByte_log]
        · rw [if_neg (not_not.mpr h8), if_neg (not_not.mpr h4), if_neg h1,
            if_neg (fun hc => h1 hc.2.2)]
          simp [l0, List.count_append, List.count_cons]
      · rw [if_neg (not_not.mpr h8), if_pos h4, if_neg (fun hc => h4 hc.2.1)]
        simp [report, l0, List.count_append, List.count_cons]
    · rw [if_pos h8, if_neg (fun hc => h8 hc.1)]
      simp [report, l0, List.count_append, List.count_cons]
  · intro hn
    unfold getData
    by_cases h8 : (readBus h 0 s).1 &&& 0x08 = 0
    · by_cases h4 : (readBus h 0 s).1 &&& 0x04 = 0
      · have h12 := (hbits (readBus h 0 s).1).mpr ⟨h8, h4⟩
        by_cases h1 : (readBus h 0 s).1 &&& 0x01 = 0
        · rw [if_neg (not_not.mpr h8), if_neg (not_not.mpr h4), if_pos h1]
          have hn2 : (readBus h 1 (readBus h 0 s).2).2.cmp.cmpfile = none := hn
          unfold gotByte
          rw [compareByte_none _ _ _ hn2]
          simp [h8, h4, h12]
        · rw [if_neg (not_not.mpr h8), if_neg (not_not.mpr h4), if_neg h1]
          simp [h8, h4, h12]
      · rw [if_neg (not_not.mpr h8), if_pos h4]
        simp [h4]
    · rw [if_pos h8]
      simp [h8]

/-- Witness of `status_decode`: a status with bits 3 and 2 both set is reported
as a framing error; a status with bit 2 alone as a parity error; and with no
compare file a status `0xF2` (bits 3, 2 and 0 clear) makes the poll succeed. -/
theorem status_decode_witness :
    getData uart (simWith cmp0 [(0x0C, 0)]) =
        (false, report Event.framingError (readBus uart 0 (simWith cmp0 [(0x0C, 0)])).2) ∧
      getData uart (simWith cmp0 [(0x04, 0)]) =
        (false, report Event.parityError (readBus uart 0 (simWith cmp0 [(0x04, 0)])).2) ∧
      (getData uart (simWith cmp0 [(0xF2, 0x41)])).1 = true :=
  ⟨(status_decode uart (simWith cmp0 [(0x0C, 0)])).1 (by decide),
    (status_decode uart (simWith cmp0 [(0x04, 0)])).2.1 (by decide) (by decide),
    ((status_decode uart (simWith cmp0 [(0xF2, 0x41)])).2.2.2 rfl).mpr
      ⟨by decide, by decide⟩⟩

/-- A poll on which the firmware hands over the byte `b`. -/
theorem getData_byte {φ : Type} (h : Hooks φ) (s : Sim φ) (b : Nat)
    (h8 : (readBus h 0 s).1 &&& 0x08 = 0) (h4 : (readBus h 0 s).1 &&& 0x04 = 0)
    (h1 : (readBus h 0 s).1 &&& 0x01 = 0) (hb : (readBus h 1 (readBus h 0 s).2).1 = b) :
    (getData h s).1 = (compareByte s.junk b s.cmp).1 ∧
      (getData h s).2.cmp = (compareByte s.junk b s.cmp).2.1 ∧
      (getData h s).2.junk = s.junk ∧
      (getData h s).2.log = s.log ++
        [Event.readBus 0, Event.isr Vect.PCINT0, Event.readBus 1, Event.isr Vect.PCINT0] ++
        (compareByte s.junk b s.cmp).2.2 := by
  have h12 := (and_12_eq_zero (readBus h 0 s).1).mpr ⟨h8, h4⟩
  unfold getData
  rw [if_neg (not_not.mpr h8), if_neg (not_not.mpr h4), if_pos h1, hb]
  unfold gotByte
  have ej : (readBus h 1 (readBus h 0 s).2).2.junk = s.junk := rfl
  have ec : (readBus h 1 (readBus h 0 s).2).2.cmp = s.cmp := rfl
  have el : (readBus h 1 (readBus h 0 s).2).2.log = s.log ++
      [Event.readBus 0, Event.isr Vect.PCINT0, Event.readBus 1, Event.isr Vect.PCINT0] := by
    simp [readBus]
  rw [ej, ec, el]
  cases hc : (compareByte s.junk b s.cmp).1
  · simp
  · simp [h12]

/-! ### Serial decoder: exact comparison -/

theorem compareByte_exact_nil (junk b : Nat) (c : Cmp) (hf : c.cmpfile = some [])
    (hi : c.ignore_leader_length = false) :
    compareByte junk b c = (true, { c with cmpfile := none }, [Event.cmpEnd]) := by
  unfold compareByte
  rw [hf]
  simp [expectedByte, hi]

theorem compareByte_exact_cons (junk b x : Nat) (r : List Nat) (c : Cmp)
    (hf : c.cmpfile = some (x :: r)) (hi : c.ignore_leader_length = false) :
    compareByte junk b c =
      (decide (x = b), { c with cmpfile := some r },
        if x = b then [] else [Event.cmpDiff x b]) := by
  unfold compareByte
  rw [hf]
  by_cases hx : x = b <;> simp [expectedByte, hi, hx]

theorem polls_add {φ : Type} (h : Hooks φ) (k m : Nat) (s : Sim φ) :
    (polls h (k + m) s).1 = (polls h k s).1 ++ (polls h m (polls h k s).2).1 ∧
      (polls h (k + m) s).2 = (polls h m (polls h k s).2).2 := by
  induction k generalizing s with
  | zero => simp [polls]
  | succ k ih =>
    have e : k + 1 + m = (k + m) + 1 := by omega
    rw [e]
    simp only [polls]
    obtain ⟨i1, i2⟩ := ih (getData h s).2
    rw [i1, i2]
    exact ⟨rfl, rfl⟩

theorem delivers_append {φ : Type} (h : Hooks φ) (xs ys : List Nat) (s : Sim φ) :
    delivers h (xs ++ ys) s ↔ delivers h xs s ∧ delivers h ys (polls h xs.length s).2 := by
  induction xs generalizing s with
  | nil => simp [delivers, polls]
  | cons x xs ih =>
    have e : delivers h (x :: xs ++ ys) s ↔
        (readBus h 0 s).1 &&& 0x08 = 0 ∧ (readBus h 0 s).1 &&& 0x04 = 0 ∧
          (readBus h 0 s).1 &&& 0x01 = 0 ∧ (readBus h 1 (readBus h 0 s).2).1 = x ∧
          delivers h (xs ++ ys) (getData h s).2 := Iff.rfl
    have e2 : delivers h (x :: xs) s ↔
        (readBus h 0 s).1 &&& 0x08 = 0 ∧ (readBus h 0 s).1 &&& 0x04 = 0 ∧
          (readBus h 0 s).1 &&& 0x01 = 0 ∧ (readBus h 1 (readBus h 0 s).2).1 = x ∧
          delivers h xs (getData h s).2 := Iff.rfl
    have e3 : (polls h (x :: xs).length s).2 = (polls h xs.length (getData h s).2).2 := rfl
    rw [e, e2, e3, ih]
    tauto

/-- Once the compare file is detached every delivered byte is accepted. -/
theorem polls_detached {φ : Type} (h : Hooks φ) (a : List Nat) (s : Sim φ)
    (hd : delivers h a s) (hn : s.cmp.cmpfile = none) :
    (∀ ok ∈ (polls h a.length s).1, ok = true) ∧ (polls h a.length s).2.cmp = s.cmp := by
  induction a generalizing s with
  | nil => simp [polls]
  | cons b bs ih =>
    obtain ⟨h8, h4, h1, hb, hrest⟩ := hd
    obtain ⟨g1, g2, -, -⟩ := getData_byte h s b h8 h4 h1 hb
    rw [compareByte_none _ _ _ hn] at g1 g2
    have hn2 : (getData h s).2.cmp.cmpfile = none := by rw [g2]; exact hn
    obtain ⟨i1, i2⟩ := ih (getData h s).2 hrest hn2
    simp only [List.length_cons, polls]
    refine ⟨?_, ?_⟩
    · intro ok hok
      rcases List.mem_cons.mp hok with e | e
      · rw [e, g1]
      · exact i1 ok e
    · rw [i2, g2]

/-- Exact comparison: all polls succeed exactly when the streams agree. -/
theorem polls_exact {φ : Type} (h : Hooks φ) (a r : List Nat) (s : Sim φ)
    (hd : delivers h a s) (hf : s.cmp.cmpfile = some r)
    (hi : s.cmp.ignore_leader_length = false) :
    (∀ ok ∈ (polls h a.length s).1, ok = true) ↔ agree a r := by
  induction a generalizing s r with
  | nil => simp [polls, agree]
  | cons b bs ih =>
    obtain ⟨h8, h4, h1, hb, hrest⟩ := hd
    obtain ⟨g1, g2, -, -⟩ := getData_byte h s b h8 h4 h1 hb
    simp only [List.length_cons, polls]
    cases r with
    | nil =>
      rw [compareByte_exact_nil _ _ _ hf hi] at g1 g2
      have hn2 : (getData h s).2.cmp.cmpfile = none := by rw [g2]
      obtain ⟨i1, -⟩ := polls_detached h bs (getData h s).2 hrest hn2
      simp only [agree, iff_true]
      intro ok hok
      rcases List.mem_cons.mp hok with e | e
      · rw [e, g1]
      · exact i1 ok e
    | cons x r =>
      rw [compareByte_exact_cons _ _ _ _ _ hf hi] at g1 g2
      have hf2 : (getData h s).2.cmp.cmpfile = some r := by rw [g2]
      have hi2 : (getData h s).2.cmp.ignore_leader_length = false := by rw [g2]; exact hi
      have i := ih r (getData h s).2 hrest hf2 hi2
      simp only [agree]
      constructor
      · intro hall
        have h0 := hall _ (List.mem_cons_self _ _)
        rw [g1] at h0
        refine ⟨(of_decide_eq_true h0).symm, i.mp ?_⟩
        intro ok hok
        exact hall ok (List.mem_cons_of_mem _ hok)
      · intro hag ok hok
        rcases List.mem_cons.mp hok with e | e
        · rw [e, g1]
          exact decide_eq_true hag.1.symm
        · exact i.mpr hag.2 ok e

theorem agree_iff_index (a r : List Nat) :
    agree a r ↔ ∀ i, i < a.length → i < r.length → a[i]? = r[i]? := by
  induction a generalizing r with
  | nil => simp [agree]
  | cons b bs ih =>
    cases r with
    | nil => simp [agree]
    | cons x rs =>
      simp only [agree, ih rs, List.length_cons]
      constructor
      · intro hag i hia hir
        cases i with
        | zero => simp [hag.1]
        | succ i =>
          simp only [List.getElem?_cons_succ]
          exact hag.2 i (by omega) (by omega)
      · intro hall
        refine ⟨?_, ?_⟩
        · have h0 := hall 0 (by omega) (by omega)
          simpa using h0
        · intro i hia hir
          have hi := hall (i + 1) (by omega) (by omega)
          simpa using hi

/-- Exact comparison: the poll at the first index where the streams differ
fails and reports the difference; the polls before it succeed. -/
theorem polls_first_failure {φ : Type} (h : Hooks φ) (i : Nat) (a r : List Nat) (s : Sim φ)
    (hd : delivers h a s) (hf : s.cmp.cmpfile = some r)
    (hi : s.cmp.ignore_leader_length = false) (hia : i < a.length) (hir : i < r.length)
    (hpre : ∀ j, j < i → a[j]? = r[j]?) (hne : a[i]? ≠ r[i]?) :
    (polls h (i + 1) s).1 = List.replicate i true ++ [false] ∧
      (polls h (i + 1) s).2.log.getLast? = some (Event.cmpDiff (r.getD i 0) (a.getD i 0)) := by
  induction i generalizing a r s with
  | zero =>
    cases a with
    | nil => simp at hia
    | cons b bs =>
      cases r with
      | nil => simp at hir
      | cons x rs =>
        obtain ⟨h8, h4, h1, hb, -⟩ := hd
        obtain ⟨g1, -, -, g4⟩ := getData_byte h s b h8 h4 h1 hb
        rw [compareByte_exact_cons _ _ _ _ _ hf hi] at g1 g4
        have hx : ¬ x = b := by
          intro e
          apply hne
          simp [e]
        simp only [polls]
        refine ⟨?_, ?_⟩
        · rw [g1]
          simp [hx]
        · rw [g4]
          simp [hx]
  | succ i ih =>
    cases a with
    | nil => simp at hia
    | cons b bs =>
      cases r with
      | nil => simp at hir
      | cons x rs =>
        obtain ⟨h8, h4, h1, hb, hrest⟩ := hd
        obtain ⟨g1, g2, -, -⟩ := getData_byte h s b h8 h4 h1 hb
        rw [compareByte_exact_cons _ _ _ _ _ hf hi] at g1 g2
        have hx : x = b := by
          have h0 := hpre 0 (by omega)
          simp at h0
          exact h0.symm
        have hf2 : (getData h s).2.cmp.cmpfile = some rs := by rw [g2]
        have hi2 : (getData h s).2.cmp.ignore_leader_length = false := by rw [g2]; exact hi
        have hpre2 : ∀ j, j < i → bs[j]? = rs[j]? := by
          intro j hj
          have hj2 := hpre (j + 1) (by omega)
          simpa using hj2
        have hne2 : bs[i]? ≠ rs[i]? := by
          intro e
          apply hne
          simpa using e
        simp only [List.length_cons] at hia hir
        obtain ⟨k1, k2⟩ := ih bs rs (getData h s).2 hrest hf2 hi2 (by omega) (by omega)
          hpre2 hne2
        have ep : polls h (i + 1 + 1) s =
            ((getData h s).1 :: (polls h (i + 1) (getData h s).2).1,
              (polls h (i + 1) (getData h s).2).2) := rfl
        rw [ep]
        refine ⟨?_, ?_⟩
        · show (getData h s).1 :: (polls h (i + 1) (getData h s).2).1 = _
          rw [k1, g1]
          simp [hx, List.replicate_succ]
        · show (polls h (i + 1) (getData h s).2).2.log.getLast? = _
          rw [k2]
          simp

/-- Exact comparison: the poll that finds the compare file exhausted succeeds,
reports the end of the file and detaches it. -/
theorem polls_detach {φ : Type} (h : Hooks φ) (a r : List Nat) (s : Sim φ)
    (hd : delivers h a s) (hf : s.cmp.cmpfile = some r)
    (hi : s.cmp.ignore_leader_length = false) (hlen : r.length < a.length)
    (hag : ∀ i, i < r.length → a[i]? = r[i]?) :
    (polls h (r.length + 1) s).1 = List.replicate (r.length + 1) true ∧
      (polls h (r.length + 1) s).2.cmp.cmpfile = none ∧
      (polls h (r.length + 1) s).2.log.getLast? = some Event.cmpEnd := by
  induction r generalizing a s with
  | nil =>
    cases a with
    | nil => simp at hlen
    | cons b bs =>
      obtain ⟨h8, h4, h1, hb, -⟩ := hd
      obtain ⟨g1, g2, -, g4⟩ := getData_byte h s b h8 h4 h1 hb
      rw [compareByte_exact_nil _ _ _ hf hi] at g1 g2 g4
      simp only [List.length_nil, polls]
      refine ⟨?_, ?_, ?_⟩
      · rw [g1]; rfl
      · rw [g2]
      · rw [g4]; simp
  | cons x rs ih =>
    cases a with
    | nil => simp at hlen
    | cons b bs =>
      obtain ⟨h8, h4, h1, hb, hrest⟩ := hd
      obtain ⟨g1, g2, -, -⟩ := getData_byte h s b h8 h4 h1 hb
      rw [compareByte_exact_cons _ _ _ _ _ hf hi] at g1 g2
      have hx : x = b := by
        have h0 := hag 0 (by simp)
        simp at h0
        exact h0.symm
      have hf2 : (getData h s).2.cmp.cmpfile = some rs := by rw [g2]
      have hi2 : (getData h s).2.cmp.ignore_leader_length = false := by rw [g2]; exact hi
      have hag2 : ∀ i, i < rs.length → bs[i]? = rs[i]? := by
        intro j hj
        have hj2 := hag (j + 1) (by simp; omega)
        simpa using hj2
      simp only [List.length_cons] at hlen
      obtain ⟨k1, k2, k3⟩ := ih bs (getData h s).2 hrest hf2 hi2 (by omega) hag2
      have ep : polls h ((x :: rs).length + 1) s =
          ((getData h s).1 :: (polls h (rs.length + 1) (getData h s).2).1,
            (polls h (rs.length + 1) (getData h s).2).2) := rfl
      rw [ep]
      refine ⟨?_, k2, k3⟩
      show (getData h s).1 :: (polls h (rs.length + 1) (getData h s).2).1 = _
      rw [k1, g1]
      simp [hx, List.replicate_succ]

/-- C7: exact comparison in `getData`. When the firmware delivers the bytes `a`
with error-free status on consecutive polls and the compare file holds `r`
(leader mode off): (1) all polls succeed exactly when `a[i] = r[i]` at every
index `i` below both lengths; (2) at the least index `i` where they differ, the
polls before it succeed and poll `i` fails, its last report being "expected
`r[i]`, found `a[i]`"; (3) when `a` is longer than `r` and agrees with it, the
poll that hits the end of the reference succeeds, reports the end, detaches the
compare file, and every poll of `a` succeeds. -/
theorem exact_compare {φ : Type} (h : Hooks φ) (a r : List Nat) (s : Sim φ)
    (hd : delivers h a s) (hf : s.cmp.cmpfile = some r)
    (hi : s.cmp.ignore_leader_length = false) :
    ((∀ ok ∈ (polls h a.length s).1, ok = true) ↔
        ∀ i, i < a.length → i < r.length → a[i]? = r[i]?) ∧
      (∀ i, i < a.length → i < r.length → (∀ j, j < i → a[j]? = r[j]?) → a[i]? ≠ r[i]? →
        (polls h (i + 1) s).1 = List.replicate i true ++ [false] ∧
          (polls h (i + 1) s).2.log.getLast? =
            some (Event.cmpDiff (r.getD i 0) (a.getD i 0))) ∧
      (r.length < a.length → (∀ i, i < r.length → a[i]? = r[i]?) →
        (polls h (r.length + 1) s).1 = List.replicate (r.length + 1) true ∧
          (polls h (r.length + 1) s).2.cmp.cmpfile = none ∧
          (polls h (r.length + 1) s).2.log.getLast? = some Event.cmpEnd ∧
          ∀ ok ∈ (polls h a.length s).1, ok = true) := by
  refine ⟨?_, ?_, ?_⟩
  · rw [polls_exact h a r s hd hf hi, agree_iff_index]
  · intro i hia hir hpre hne
    exact polls_first_failure h i a r s hd hf hi hia hir hpre hne
  · intro hlen hag
    obtain ⟨k1, k2, k3⟩ := polls_detach h a r s hd hf hi hlen hag
    refine ⟨k1, k2, k3, ?_⟩
    rw [polls_exact h a r s hd hf hi, agree_iff_index]
    intro i _ hir
    exact hag i hir

/-- Witness of `exact_compare`: the UART delivers `1, 2, 3` against the
reference `1, 2`; the three polls succeed and the third detaches the file. -/
theorem exact_compare_witness :
    delivers uart [1, 2, 3]
        (simWith { cmpfile := some [1, 2], ignore_leader_length := false, leader_byte := 0x100 }
          [(0, 1), (0, 2), (0, 3)]) ∧
      (polls uart 3
        (simWith { cmpfile := some [1, 2], ignore_leader_length := false, leader_byte := 0x100 }
          [(0, 1), (0, 2), (0, 3)])).1 = [true, true, true] ∧
      (polls uart 3
        (simWith { cmpfile := some [1, 2], ignore_leader_length := false, leader_byte := 0x100 }
          [(0, 1), (0, 2), (0, 3)])).2.cmp.cmpfile = none :=
  ⟨by decide,
    ((exact_compare uart [1, 2, 3] [1, 2]
      (simWith { cmpfile := some [1, 2], ignore_leader_length := false, leader_byte := 0x100 }
        [(0, 1), (0, 2), (0, 3)]) (by decide) rfl rfl).2.2 (by decide) (by decide)).1,
    ((exact_compare uart [1, 2, 3] [1, 2]
      (simWith { cmpfile := some [1, 2], ignore_leader_length := false, leader_byte := 0x100 }
        [(0, 1), (0, 2), (0, 3)]) (by decide) rfl rfl).2.2 (by decide) (by decide)).2.1⟩

/-! ### Serial decoder: leader-tolerant comparison -/

theorem skipLeader_leader (L d x : Nat) (j : Nat) (rs : List Nat) (hx : x ≠ L) :
    skipLeader L d (List.replicate j L ++ x :: rs) = (x, rs) := by
  induction j generalizing d with
  | zero => simp [skipLeader, hx]
  | succ j ih => simp [List.replicate_succ, skipLeader, ih]

/-- The first compared byte fixes the leader byte. -/
theorem compareByte_leader_first (junk L : Nat) (f : List Nat) (c : Cmp)
    (hf : c.cmpfile = some (L :: f)) (hi : c.ignore_leader_length = true)
    (hl : c.leader_byte = 0x100) :
    compareByte junk L c = (true, { c with cmpfile := some f, leader_byte := L }, []) := by
  unfold compareByte
  rw [hf]
  simp [expectedByte, hi, hl]

/-- A further leader byte is accepted without reading the compare file. -/
theorem compareByte_leader_same (junk L : Nat) (f : List Nat) (c : Cmp)
    (hf : c.cmpfile = some f) (hi : c.ignore_leader_length = true)
    (hl : c.leader_byte = L) (hL : L < 256) :
    compareByte junk L c = (true, c, []) := by
  have hne : ¬ L = 0x100 := by omega
  unfold compareByte
  rw [hf]
  simp [expectedByte, hi, hl, hne]

/-- The first byte that is not the leader byte skips the leader bytes left in
the compare file and is compared with the byte after them. -/
theorem compareByte_leader_end (junk L x y j : Nat) (rs : List Nat) (c : Cmp)
    (hf : c.cmpfile = some (List.replicate j L ++ x :: rs))
    (hi : c.ignore_leader_length = true) (hl : c.leader_byte = L) (hL : L < 256)
    (hx : x ≠ L) (hy : y ≠ L) :
    compareByte junk y c =
      (decide (x = y), { c with cmpfile := some rs, ignore_leader_length := false },
        if x = y then [] else [Event.cmpDiff x y]) := by
  have hne : ¬ L = 0x100 := by omega
  have hs := skipLeader_leader L (junk % 256) x j rs hx
  unfold compareByte
  rw [hf]
  simp only [expectedByte, hi, hl, if_true, if_neg hne, if_neg hy, hs]
  by_cases hxy : x = y <;> simp [hxy]

theorem polls_leader {φ : Type} (h : Hooks φ) (L j : Nat) (f : List Nat) (s : Sim φ)
    (hd : delivers h (List.replicate j L) s) (hf : s.cmp.cmpfile = some f)
    (hi : s.cmp.ignore_leader_length = true) (hl : s.cmp.leader_byte = L) (hL : L < 256) :
    (polls h j s).1 = List.replicate j true ∧ (polls h j s).2.cmp = s.cmp := by
  induction j generalizing s with
  | zero => exact ⟨rfl, rfl⟩
  | succ j ih =>
    obtain ⟨h8, h4, h1, hb, hrest⟩ := hd
    obtain ⟨g1, g2, -, -⟩ := getData_byte h s L h8 h4 h1 hb
    rw [compareByte_leader_same _ _ _ _ hf hi hl hL] at g1 g2
    obtain ⟨k1, k2⟩ := ih (getData h s).2 hrest (by rw [g2]; exact hf) (by rw [g2]; exact hi)
      (by rw [g2]; exact hl)
    simp only [polls]
    rw [k1, k2, g1, g2]
    exact ⟨rfl, rfl⟩

/-- The polls up to the first byte after the leader: they succeed on the leader
bytes and leave the comparison at the byte after the reference leader. -/
theorem polls_through_leader {φ : Type} (h : Hooks φ) (L k m : Nat) (x : Nat)
    (rs : List Nat) (s : Sim φ) (hL : L < 256)
    (hd : delivers h (List.replicate (m + 1) L) s)
    (hc : s.cmp = { cmpfile := some (List.replicate (k + 1) L ++ x :: rs),
                    ignore_leader_length := true, leader_byte := 0x100 }) :
    (polls h (m + 1) s).1 = List.replicate (m + 1) true ∧
      (polls h (m + 1) s).2.cmp = { cmpfile := some (List.replicate k L ++ x :: rs),
                                    ignore_leader_length := true, leader_byte := L } := by
  obtain ⟨h8, h4, h1, hb, hrest⟩ := hd
  obtain ⟨g1, g2, -, -⟩ := getData_byte h s L h8 h4 h1 hb
  have hf : s.cmp.cmpfile = some (L :: (List.replicate k L ++ x :: rs)) := by
    rw [hc]; rfl
  rw [compareByte_leader_first _ _ _ _ hf (by rw [hc]) (by rw [hc])] at g1 g2
  have g3 : (getData h s).2.cmp = (⟨some (List.replicate k L ++ x :: rs), true, L⟩ : Cmp) := by
    rw [g2, hc]
  obtain ⟨k1, k2⟩ := polls_leader h L m (List.replicate k L ++ x :: rs) (getData h s).2 hrest
    (by rw [g3]) (by rw [g3]) (by rw [g3]) hL
  have ep : polls h (m + 1) s =
      ((getData h s).1 :: (polls h m (getData h s).2).1, (polls h m (getData h s).2).2) := rfl
  rw [ep]
  refine ⟨?_, ?_⟩
  · show (getData h s).1 :: (polls h m (getData h s).2).1 = _
    rw [k1, g1]
    rfl
  · show (polls h m (getData h s).2).2.cmp = _
    rw [k2, g3]

/-- C6: leader-tolerant comparison in `getData`. Let the compare file hold
`k ≥ 1` leader bytes `L` followed by `r`, and let the firmware deliver, with
error-free status on consecutive polls, `m ≥ 1` bytes `L` followed by `a`, where
`r` and `a` are non-empty and start with bytes other than `L`. Then, whatever
`k` and `m`: (1) every poll succeeds exactly when `a[i] = r[i]` at every index
below both lengths; (2) when `a[0] ≠ r[0]` the `m` leader polls succeed and the
poll of `a[0]` fails, its last report being "expected `r[0]`, found `a[0]`". -/
theorem leader_compare {φ : Type} (h : Hooks φ) (L k m : Nat) (r a : List Nat) (s : Sim φ)
    (hL : L < 256) (hk : 1 ≤ k) (hm : 1 ≤ m)
    (hr : r ≠ []) (ha : a ≠ []) (hr0 : r[0]? ≠ some L) (ha0 : a[0]? ≠ some L)
    (hc : s.cmp = { cmpfile := some (List.replicate k L ++ r),
                    ignore_leader_length := true, leader_byte := 0x100 })
    (hd : delivers h (List.replicate m L ++ a) s) :
    ((∀ ok ∈ (polls h (m + a.length) s).1, ok = true) ↔
        ∀ i, i < a.length → i < r.length → a[i]? = r[i]?) ∧
      (a[0]? ≠ r[0]? →
        (polls h (m + 1) s).1 = List.replicate m true ++ [false] ∧
          (polls h (m + 1) s).2.log.getLast? =
            some (Event.cmpDiff (r.getD 0 0) (a.getD 0 0))) := by
  obtain ⟨k, rfl⟩ : ∃ k', k = k' + 1 := ⟨k - 1, by omega⟩
  obtain ⟨m, rfl⟩ : ∃ m', m = m' + 1 := ⟨m - 1, by omega⟩
  cases r with
  | nil => exact absurd rfl hr
  | cons x rs =>
  cases a with
  | nil => exact absurd rfl ha
  | cons y bs =>
  have hx : x ≠ L := by
    intro e; apply hr0; simp [e]
  have hy : y ≠ L := by
    intro e; apply ha0; simp [e]
  rw [delivers_append] at hd
  obtain ⟨hd1, hd2⟩ := hd
  rw [List.length_replicate] at hd2
  obtain ⟨p1, p2⟩ := polls_through_leader h L k m x rs s hL hd1 hc
  obtain ⟨h8, h4, h1, hb, hrest⟩ := hd2
  obtain ⟨g1, g2, -, g4⟩ := getData_byte h (polls h (m + 1) s).2 y h8 h4 h1 hb
  rw [compareByte_leader_end _ L x y k rs _ (by rw [p2]) (by rw [p2]) (by rw [p2]) hL hx hy]
    at g1 g2 g4
  have hf2 : (getData h (polls h (m + 1) s).2).2.cmp.cmpfile = some rs := by rw [g2]
  have hi2 : (getData h (polls h (m + 1) s).2).2.cmp.ignore_leader_length = false := by
    rw [g2]
  have ex := polls_exact h bs rs _ hrest hf2 hi2
  have e1 : polls h 1 (polls h (m + 1) s).2 =
      ([(getData h (polls h (m + 1) s).2).1], (getData h (polls h (m + 1) s).2).2) := rfl
  refine ⟨?_, ?_⟩
  · have el : m + 1 + (y :: bs).length = (m + 1) + (1 + bs.length) := by
      simp only [List.length_cons]; omega
    rw [el, (polls_add h (m + 1) (1 + bs.length) s).1,
      (polls_add h 1 bs.length (polls h (m + 1) s).2).1, e1, p1]
    rw [← agree_iff_index]
    simp only [agree]
    constructor
    · intro hall
      have h0 : (getData h (polls h (m + 1) s).2).1 = true :=
        hall _ (by simp)
      rw [g1] at h0
      refine ⟨(of_decide_eq_true h0).symm, ex.mp ?_⟩
      intro ok hok
      exact hall ok (by simp [hok])
    · intro hag ok hok
      simp only [List.mem_append, List.mem_singleton] at hok
      rcases hok with e | e | e
      · exact (List.eq_of_mem_replicate e)
      · rw [e, g1]
        exact decide_eq_true hag.1.symm
      · exact ex.mpr hag.2 ok e
  · intro hne
    have hxy : ¬ x = y := by
      intro e; apply hne; simp [e]
    rw [(polls_add h (m + 1) 1 s).1, (polls_add h (m + 1) 1 s).2, e1, p1]
    refine ⟨?_, ?_⟩
    · show List.replicate (m + 1) true ++ [(getData h (polls h (m + 1) s).2).1] = _
      rw [g1]
      simp [hxy]
    · show (getData h (polls h (m + 1) s).2).2.log.getLast? = _
      rw [g4]
      simp [hxy]

/-- Witness of `leader_compare`, the two scenarios of the specification: the
reference `16 16 16 01 02` against the delivered `16 16 01 02` succeeds on every
poll; against the delivered `16 03 02` the poll of `03` fails with "expected
`01`, found `03`". -/
theorem leader_compare_witness :
    (∀ ok ∈ (polls uart (2 + [0x01, 0x02].length)
        (simWith ⟨some [0x16, 0x16, 0x16, 0x01, 0x02], true, 0x100⟩
          [(0, 0x16), (0, 0x16), (0, 0x01), (0, 0x02)])).1, ok = true) ∧
      (polls uart (1 + 1)
        (simWith ⟨some [0x16, 0x16, 0x16, 0x01, 0x02], true, 0x100⟩
          [(0, 0x16), (0, 0x03), (0, 0x02)])).1 = List.replicate 1 true ++ [false] ∧
      (polls uart (1 + 1)
        (simWith ⟨some [0x16, 0x16, 0x16, 0x01, 0x02], true, 0x100⟩
          [(0, 0x16), (0, 0x03), (0, 0x02)])).2.log.getLast? =
        some (Event.cmpDiff 0x01 0x03) :=
  ⟨(leader_compare uart 0x16 3 2 [0x01, 0x02] [0x01, 0x02]
      (simWith ⟨some [0x16, 0x16, 0x16, 0x01, 0x02], true, 0x100⟩
        [(0, 0x16), (0, 0x16), (0, 0x01), (0, 0x02)])
      (by decide) (by decide) (by decide) (by decide) (by decide) (by decide) (by decide)
      rfl (by decide)).1.mpr (fun _ _ _ => rfl),
    ((leader_compare uart 0x16 3 1 [0x01, 0x02] [0x03, 0x02]
      (simWith ⟨some [0x16, 0x16, 0x16, 0x01, 0x02], true, 0x100⟩
        [(0, 0x16), (0, 0x03), (0, 0x02)])
      (by decide) (by decide) (by decide) (by decide) (by decide) (by decide) (by decide)
      rfl (by decide)).2 (by decide)).1,
    ((leader_compare uart 0x16 3 1 [0x01, 0x02] [0x03, 0x02]
      (simWith ⟨some [0x16, 0x16, 0x16, 0x01, 0x02], true, 0x100⟩
        [(0, 0x16), (0, 0x03), (0, 0x02)])
      (by decide) (by decide) (by decide) (by decide) (by decide) (by decide) (by decide)
      rfl (by decide)).2 (by decide)).2⟩

/-! ### WAV reader -/

/-- C9: `readWAV` rejects every file that is shorter than the 44-byte header,
or whose bytes 0..3 are not `RIFF`, or whose bytes 8..11 are not `WAVE`, or
whose bytes 12..15 are not `fmt` and a blank, or whose bytes 36..39 are not
`data`, or whose little-endian 16-bit value at bytes 20..21 is not 1. On such a
file it returns `false` and the state is the one it was given with only the
diagnostic added to the log: no level is fed to the capture unit, the decoder
is not polled, the clock is not advanced. -/
theorem readWAV_rejects {φ : Type} (h : Hooks φ) (ticks : Nat → Nat → Nat) (fuel : Nat)
    (f : List Nat) (s : Sim φ)
    (hbad : f.length < 44 ∨ (f.drop 0).take 4 ≠ [0x52, 0x49, 0x46, 0x46] ∨
      (f.drop 8).take 4 ≠ [0x57, 0x41, 0x56, 0x45] ∨
      (f.drop 12).take 4 ≠ [0x66, 0x6D, 0x74, 0x20] ∨
      (f.drop 36).take 4 ≠ [0x64, 0x61, 0x74, 0x61] ∨
      f.getD 20 0 + 256 * f.getD 21 0 ≠ 1) :
    readWAV h ticks fuel (some f) s = Except.ok (false, report Event.notWav s) ∧
      (report Event.notWav s).mcu = s.mcu ∧
      (report Event.notWav s).timer1captPrev = s.timer1captPrev ∧
      (report Event.notWav s).cmp = s.cmp ∧
      (report Event.notWav s).log = s.log ++ [Event.notWav] := by
  have hr : rejects f := by
    unfold rejects
    by_cases hlen : f.length < 44
    · exact Or.inl hlen
    · right
      have e : (header f).format_type = f.getD 20 0 + 256 * f.getD 21 0 := by
        have h22 : 22 ≤ f.length := by omega
        simp only [header, field]
        obtain ⟨b0, b1, rest, hf⟩ : ∃ b0 b1 rest, f.drop 20 = b0 :: b1 :: rest := by
          match hq : f.drop 20 with
          | [] =>
            have := congrArg List.length hq
            simp at this; omega
          | [_] =>
            have := congrArg List.length hq
            simp at this; omega
          | b0 :: b1 :: rest => exact ⟨b0, b1, rest, rfl⟩
        have g0 : f.getD 20 0 = b0 := by
          have := congrArg (fun l => l.getD 0 0) hf
          simpa [List.getD_eq_getElem?_getD] using this
        have g1 : f.getD 21 0 = b1 := by
          have := congrArg (fun l => l.getD 1 0) hf
          simpa [List.getD_eq_getElem?_getD] using this
        rw [hf, g0, g1]
        simp [le]
      rcases hbad with hb | hb | hb | hb | hb | hb
      · exact absurd hb hlen
      · exact Or.inl hb
      · exact Or.inr (Or.inr (Or.inl hb))
      · exact Or.inr (Or.inl hb)
      · exact Or.inr (Or.inr (Or.inr (Or.inl hb)))
      · exact Or.inr (Or.inr (Or.inr (Or.inr (by rw [e]; exact hb))))
  refine ⟨?_, rfl, rfl, rfl, rfl⟩
  unfold readWAV
  simp only [if_pos hr]

/-- Witness of `readWAV_rejects`: a two-byte file, and a 44-byte file with all
four markers in place but format code 3 (IEEE float), are both rejected with the
state untouched. -/
theorem readWAV_rejects_witness :
    readWAV idle (fun _ _ => 0) 0 (some [0x52, 0x49]) sim0 =
        Except.ok (false, report Event.notWav sim0) ∧
      readWAV idle (fun _ _ => 0) 0
        (some [0x52, 0x49, 0x46, 0x46, 0x24, 0, 0, 0, 0x57, 0x41, 0x56, 0x45,
          0x66, 0x6D, 0x74, 0x20, 16, 0, 0, 0, 3, 0, 1, 0, 0x44, 0xAC, 0, 0,
          0x44, 0xAC, 0, 0, 1, 0, 8, 0, 0x64, 0x61, 0x74, 0x61, 0, 0, 0, 0]) sim0 =
        Except.ok (false, report Event.notWav sim0) :=
  ⟨(readWAV_rejects idle (fun _ _ => 0) 0 [0x52, 0x49] sim0 (Or.inl (by decide))).1,
    (readWAV_rejects idle (fun _ _ => 0) 0
      [0x52, 0x49, 0x46, 0x46, 0x24, 0, 0, 0, 0x57, 0x41, 0x56, 0x45,
        0x66, 0x6D, 0x74, 0x20, 16, 0, 0, 0, 3, 0, 1, 0, 0x44, 0xAC, 0, 0,
        0x44, 0xAC, 0, 0, 1, 0, 8, 0, 0x64, 0x61, 0x74, 0x61, 0, 0, 0, 0] sim0
      (Or.inr (Or.inr (Or.inr (Or.inr (Or.inr (by decide))))))).1⟩

/-! ### The clock loop -/

theorem timer2Output_clock {φ : Type} (oc : Bool) (s : Sim φ) :
    (timer2Output oc s).mcu.clock = s.mcu.clock := by
  unfold timer2Output
  split_ifs <;> rfl

theorem advanceClock_idle_clock (u : Sim Unit) :
    (advanceClock idle u).mcu.clock = (u.mcu.clock + 1) % 2 ^ 32 := by
  obtain ⟨e0, -, -, -⟩ := timer0_idle (tick u)
  obtain ⟨e1, -, -, -⟩ := timer1_idle (timer0 idle (tick u))
  obtain ⟨e2, -, -, -⟩ := timer2_idle (timer1 idle (timer0 idle (tick u)))
  have o := timer2Output_clock (timer2 idle (timer1 idle (timer0 idle (tick u)))).1
    (callLoop idle (timer2 idle (timer1 idle (timer0 idle (tick u)))).2)
  exact o.trans ((congrArg (fun x => x.mcu.clock) e2).trans
    ((congrArg (fun x => x.mcu.clock) e1).trans (congrArg (fun x => x.mcu.clock) e0)))

/-- With quiet firmware a step advances the 32-bit clock by one. -/
theorem advanceClock_clock {φ : Type} (h : Hooks φ) (hq : Quiet h) (s : Sim φ) :
    (advanceClock h s).mcu.clock = (s.mcu.clock + 1) % 2 ^ 32 := by
  have e := congrArg (fun x => x.mcu.clock) (view_advanceClock h hq s)
  exact e.trans (advanceClock_idle_clock (view s))

/-- With quiet firmware and enough fuel the loop
`while( clock < target ) advanceClock();` ends with the clock at the target. -/
theorem runClock_reaches {φ : Type} (h : Hooks φ) (hq : Quiet h) (target fuel : Nat)
    (s : Sim φ) (hle : s.mcu.clock ≤ target) (ht : target < 2 ^ 32)
    (hf : target - s.mcu.clock ≤ fuel) :
    ∃ s2, runClock h target fuel s = Except.ok s2 ∧ s2.mcu.clock = target := by
  induction fuel generalizing s with
  | zero =>
    refine ⟨s, ?_, by omega⟩
    unfold runClock
    rw [if_neg (by omega)]
  | succ fuel ih =>
    unfold runClock
    by_cases hc : s.mcu.clock < target
    · rw [if_pos hc]
      have e := advanceClock_clock h hq s
      have e2 : (s.mcu.clock + 1) % 2 ^ 32 = s.mcu.clock + 1 :=
        Nat.mod_eq_of_lt (by omega)
      rw [e2] at e
      exact ih (advanceClock h s) (by omega) (by omega)
    · rw [if_neg hc]
      exact ⟨s, rfl, by omega⟩

/-! ### Prescaler gate -/

theorem scaled_entry (i : Nat) :
    (prescaler01.getD i 0 / CLOCKSCALE = 0 ∨ ∃ k, prescaler01.getD i 0 / CLOCKSCALE = 2 ^ k) ∧
      (prescaler2.getD i 0 / CLOCKSCALE = 0 ∨ ∃ k, prescaler2.getD i 0 / CLOCKSCALE = 2 ^ k) := by
  by_cases hi : i < 8
  · have e : i &&& 7 = i := by
      interval_cases i <;> rfl
    have a := prescaler01_scaled i
    have b := prescaler2_scaled i
    rw [e] at a b
    exact ⟨a, b⟩
  · have l1 : prescaler01.length ≤ i := by
      have : prescaler01.length = 8 := rfl
      omega
    have l2 : prescaler2.length ≤ i := by
      have : prescaler2.length = 8 := rfl
      omega
    have a : prescaler01.getD i 0 = 0 := List.getD_eq_default _ _ l1
    have b : prescaler2.getD i 0 = 0 := List.getD_eq_default _ _ l2
    rw [a, b]
    exact ⟨Or.inl (by decide), Or.inl (by decide)⟩

/-- C16: for every entry `i` of the Timer0/Timer1 table and of the Timer2 table
and every tick value `t`, the gate of the source on the effective divisor
`p = table[i] / CLOCKSCALE`, `p > 0` and `(t AND (p-1)) = 0`, holds exactly when
`p > 0` and `t mod p = 0`; and every such `p` is zero or a power of two. -/
theorem bitmask_gate_is_modulo (i t : Nat) :
    (due (prescaler01.getD i 0 / CLOCKSCALE) t ↔
        0 < prescaler01.getD i 0 / CLOCKSCALE ∧ t % (prescaler01.getD i 0 / CLOCKSCALE) = 0) ∧
      (due (prescaler2.getD i 0 / CLOCKSCALE) t ↔
        0 < prescaler2.getD i 0 / CLOCKSCALE ∧ t % (prescaler2.getD i 0 / CLOCKSCALE) = 0) ∧
      (prescaler01.getD i 0 / CLOCKSCALE = 0 ∨
        ∃ k, prescaler01.getD i 0 / CLOCKSCALE = 2 ^ k) ∧
      (prescaler2.getD i 0 / CLOCKSCALE = 0 ∨
        ∃ k, prescaler2.getD i 0 / CLOCKSCALE = 2 ^ k) :=
  ⟨due_iff_mod _ t (scaled_entry i).1, due_iff_mod _ t (scaled_entry i).2,
    (scaled_entry i).1, (scaled_entry i).2⟩

/-! ### Forced compare, output frame, capture latch -/

theorem andNot8_bit7 (x : Nat) : andNot8 x (bit FOC2A) &&& bit FOC2A = 0 := by
  rw [and_bit_eq_zero, testBit_andNot8, testBit_bit]
  simp [FOC2A]

/-- C13: `FOC2A` is clear in `TCCR2B` at the end of every `advanceClock` step,
whatever the state and the firmware. When `loop()` leaves `FOC2A` set, or the
Timer2 block of the step has set `ocmatchA`, the output level after the step is
the level of before the step transformed once by the mode bits `COM2A1:COM2A0`
of `TCCR2A` as `loop()` left them (00 keep, 01 negate, 10 low, 11 high);
otherwise the level is the one of before the step. -/
theorem forced_compare_consumed {φ : Type} (h : Hooks φ) (s : Sim φ) :
    (advanceClock h s).mcu.TCCR2B &&& bit FOC2A = 0 ∧
      ((h.loop (advanceTimers h s).2.mcu).TCCR2B &&& bit FOC2A ≠ 0 ∨
          (advanceTimers h s).1 = true →
        getTimer2OutputA (advanceClock h s) =
          (match ((h.loop (advanceTimers h s).2.mcu).TCCR2A / 2 ^ COM2A0) % 4 with
            | 0 => getTimer2OutputA s
            | 1 => !getTimer2OutputA s
            | 2 => false
            | _ => true)) ∧
      (¬ ((h.loop (advanceTimers h s).2.mcu).TCCR2B &&& bit FOC2A ≠ 0 ∨
          (advanceTimers h s).1 = true) →
        getTimer2OutputA (advanceClock h s) = getTimer2OutputA s) := by
  refine ⟨?_, ?_, ?_⟩
  · unfold advanceClock timer2Output
    by_cases hr : recompute (beforeOutput h s).1 (beforeOutput h s).2
    · rw [if_pos hr]
      exact andNot8_bit7 _
    · rw [if_neg hr]
      unfold recompute at hr
      by_contra hc
      exact hr (Or.inl hc)
  · intro hf
    have hr : recompute (beforeOutput h s).1 (beforeOutput h s).2 := hf
    unfold getTimer2OutputA advanceClock timer2Output
    rw [if_pos hr]
    show outputMode (beforeOutput h s).2.mcu.TCCR2A (beforeOutput h s).2.timer2outputA = _
    rw [beforeOutput_level, outputMode_table]
    rfl
  · intro hf
    have hr : ¬ recompute (beforeOutput h s).1 (beforeOutput h s).2 := hf
    unfold getTimer2OutputA advanceClock timer2Output
    rw [if_neg hr]
    exact beforeOutput_level h s

/-- Witness of `forced_compare_consumed`: the firmware `forcer` sets `FOC2A` and
mode 11 in `loop()`; the same step drives the output high and clears `FOC2A`. -/
theorem forced_compare_consumed_witness :
    (forcer.loop (advanceTimers forcer sim0).2.mcu).TCCR2B &&& bit FOC2A ≠ 0 ∧
      getTimer2OutputA (advanceClock forcer sim0) = true ∧
      (advanceClock forcer sim0).mcu.TCCR2B &&& bit FOC2A = 0 :=
  ⟨by decide,
    ((forced_compare_consumed forcer sim0).2.1 (Or.inl (by decide))).trans (by decide),
    (forced_compare_consumed forcer sim0).1⟩

/-- C14, the code at the failing input: Timer2 counts on every tick in toggle
mode with `OCR2A = 9`, `OCR2B = 1`, `TCNT2 = 0`. The step takes the counter to 1,
which is not `OCR2A`, and `FOC2A` is clear after `loop()`; yet `ocmatchA` is set by
the match against `OCR2B` and the output level changes from low to high. -/
theorem output_toggles_on_channel_b_match :
    (({ sim0 with mcu := { mcu0 with TCCR2B := 2, TCCR2A := 0x40, OCR2A := 9, OCR2B := 1 } }
        : Sim Unit).mcu.TCNT2 + 1) % 256 ≠ 9 ∧
      (beforeOutput idle
        { sim0 with mcu := { mcu0 with TCCR2B := 2, TCCR2A := 0x40, OCR2A := 9, OCR2B := 1 } }
        ).2.mcu.TCCR2B &&& bit FOC2A = 0 ∧
      (beforeOutput idle
        { sim0 with mcu := { mcu0 with TCCR2B := 2, TCCR2A := 0x40, OCR2A := 9, OCR2B := 1 } }
        ).1 = true ∧
      getTimer2OutputA
        ({ sim0 with mcu := { mcu0 with TCCR2B := 2, TCCR2A := 0x40, OCR2A := 9, OCR2B := 1 } }
          : Sim Unit) = false ∧
      getTimer2OutputA (advanceClock idle
        { sim0 with mcu := { mcu0 with TCCR2B := 2, TCCR2A := 0x40, OCR2A := 9, OCR2B := 1 } })
        = true := by
  decide

/-- C15 (amended): `setTimer1Capture` stores `TCNT1` in `ICR1` on every accepted
transition, of either polarity. On an accepted transition that is not the
selected edge no handler runs and `ICR1` ends equal to `TCNT1`; on the selected
edge the handler is called on registers in which `ICR1` already equals `TCNT1`.
A call that is not accepted (unchanged level, or rejected by the noise
canceler) returns the state, and so `ICR1`, unchanged. -/
theorem capture_register_latch {φ : Type} (h : Hooks φ) (data : Bool) (s : Sim φ) :
    (accepts data s → ¬ captureEdge data s →
        (setTimer1Capture h data s).mcu.ICR1 = s.mcu.TCNT1 ∧
          (setTimer1Capture h data s).log = s.log) ∧
      (accepts data s → captureEdge data s →
        (setTimer1Capture h data s).mcu =
          h.TIMER1_CAPT_vect { s.mcu with ICR1 := s.mcu.TCNT1 }) ∧
      (¬ accepts data s → setTimer1Capture h data s = s) := by
  refine ⟨?_, ?_, ?_⟩
  · intro ha he
    unfold captureEdge at he
    have c1 : ¬ (((captureLatch s).mcu.TCCR1B &&& bit ICES1) = 0 ∧
        (captureLatch s).timer1captPrev = true ∧ data = false) := fun c => he (Or.inl c)
    have c2 : ¬ (((captureLatch s).mcu.TCCR1B &&& bit ICES1) ≠ 0 ∧
        (captureLatch s).timer1captPrev = false ∧ data = true) := fun c => he (Or.inr c)
    unfold setTimer1Capture
    rw [if_pos ha]
    unfold captureDispatch
    rw [if_neg c1, if_neg c2]
    exact ⟨rfl, rfl⟩
  · intro ha he
    unfold setTimer1Capture
    rw [if_pos ha]
    unfold captureDispatch
    rcases he with c | c
    · have c1 : ((captureLatch s).mcu.TCCR1B &&& bit ICES1) = 0 ∧
          (captureLatch s).timer1captPrev = true ∧ data = false := c
      rw [if_pos c1]
      rfl
    · have c2 : ((captureLatch s).mcu.TCCR1B &&& bit ICES1) ≠ 0 ∧
          (captureLatch s).timer1captPrev = false ∧ data = true := c
      have c1 : ¬ (((captureLatch s).mcu.TCCR1B &&& bit ICES1) = 0 ∧
          (captureLatch s).timer1captPrev = true ∧ data = false) := fun d => c.1 d.1
      rw [if_neg c1, if_pos c2]
      rfl
  · intro hna
    unfold setTimer1Capture
    rw [if_neg hna]

/-- Witness of `capture_register_latch`: with falling edges selected, a rising
level at `TCNT1 = 77` is accepted, calls no handler and latches 77; the same
level again is not accepted. -/
theorem capture_register_latch_witness :
    (setTimer1Capture idle true { sim0 with mcu := { mcu0 with TCNT1 := 77 } }).mcu.ICR1 = 77 ∧
      setTimer1Capture idle false sim0 = sim0 :=
  ⟨((capture_register_latch idle true { sim0 with mcu := { mcu0 with TCNT1 := 77 } }).1
      (by decide) (by decide)).1,
    (capture_register_latch idle false sim0).2.2 (by decide)⟩

/-- C15 as stated fails: falling edges are selected (`ICES1` clear), the
remembered level is low and a high level arrives at `TCNT1 = 77`: a transition
of the opposite polarity. No handler is called, yet `ICR1` changes from 0 to 77. -/
theorem capture_latch_opposite_polarity_counterexample :
    ({ sim0 with mcu := { mcu0 with TCNT1 := 77 } } : Sim Unit).mcu.TCCR1B &&& bit ICES1 = 0 ∧
      ({ sim0 with mcu := { mcu0 with TCNT1 := 77 } } : Sim Unit).timer1captPrev = false ∧
      ({ sim0 with mcu := { mcu0 with TCNT1 := 77 } } : Sim Unit).mcu.ICR1 = 0 ∧
      (setTimer1Capture idle true { sim0 with mcu := { mcu0 with TCNT1 := 77 } }).log = [] ∧
      (setTimer1Capture idle true { sim0 with mcu := { mcu0 with TCNT1 := 77 } }).mcu.ICR1 = 77 := by
  decide

/-! ### Clear on compare match -/

/-- The counter of Timer2 after a whole step, with quiet firmware. -/
theorem advanceClock_counter2 {φ : Type} (h : Hooks φ) (hq : Quiet h) (s : Sim φ) :
    (advanceClock h s).mcu.TCNT2 =
      (if due (prescale2 s.mcu) ((s.mcu.clock + 1) % 2 ^ 32) then
        (if (s.mcu.TCNT2 + 1) % 256 ≥ s.mcu.OCR2A + 1 ∧
            (s.mcu.TCCR2A &&& (bit WGM22 ||| bit WGM21 ||| bit WGM20)) = bit WGM21
          then 0 else (s.mcu.TCNT2 + 1) % 256)
        else s.mcu.TCNT2) := by
  unfold advanceClock beforeOutput advanceTimers
  obtain ⟨-, -, a3⟩ := tail_counters h hq
    (timer2 h (timer1 h (timer0 h (tick s)))).1 (timer2 h (timer1 h (timer0 h (tick s)))).2
  obtain ⟨b1, -, -⟩ := timer2_counter h hq (timer1 h (timer0 h (tick s)))
  obtain ⟨-, c2, -, c4, c5, c6, c7⟩ := timer1_counter h hq (timer0 h (tick s))
  obtain ⟨-, d2, -, -, d5, d6, d7, d8⟩ := timer0_counter h hq (tick s)
  rw [a3, b1]
  simp only [prescale2, c5, c2, c6, c7, c4, d6, d2, d7, d8, d5]
  rfl

/-- C12 (amended): in the Timer2 block of a step in which the timer counts and
the incremented `TCNT2` equals `OCR2A`, the flag `OCF2A` is raised and `ocmatchA`
set, but the counter is not reset: the compare handlers are dispatched on a
state in which `TCNT2 = OCR2A`. With quiet firmware `TCNT2 = OCR2A` also at the
end of that step, and in clear-on-compare mode the reset to 0 is made by the
step in which the incremented counter is at least `OCR2A + 1`, the next counted
tick. -/
theorem ctc_reset_after_match {φ : Type} (h : Hooks φ) (s : Sim φ) :
    (due (prescale2 s.mcu) s.mcu.clock → (s.mcu.TCNT2 + 1) % 256 = s.mcu.OCR2A →
        (timer2 h s).1 = true ∧
          (timer2 h s).2 = timer2DispatchB h (timer2DispatchA h
            (timer2Clear (timer2MatchB (timer2MatchA (timer2Inc (timer2Reset s)))).2)) ∧
          (timer2Clear (timer2MatchB (timer2MatchA (timer2Inc (timer2Reset s)))).2).mcu.TIFR2
            &&& bit OCF2A ≠ 0 ∧
          (timer2Clear (timer2MatchB (timer2MatchA (timer2Inc (timer2Reset s)))).2).mcu.TCNT2
            = s.mcu.OCR2A) ∧
      (Quiet h → due (prescale2 s.mcu) ((s.mcu.clock + 1) % 2 ^ 32) →
        ((s.mcu.TCNT2 + 1) % 256 = s.mcu.OCR2A →
          (advanceClock h s).mcu.TCNT2 = s.mcu.OCR2A) ∧
        ((s.mcu.TCCR2A &&& (bit WGM22 ||| bit WGM21 ||| bit WGM20)) = bit WGM21 →
          s.mcu.OCR2A + 1 ≤ (s.mcu.TCNT2 + 1) % 256 →
          (advanceClock h s).mcu.TCNT2 = 0)) := by
  constructor
  · intro hd hT
    have hd2 : due (prescale2 (timer2Reset s).mcu) (timer2Reset s).mcu.clock := hd
    unfold timer2
    rw [if_pos hd2]
    unfold timer2Count
    refine ⟨?_, rfl, ?_, ?_⟩
    · simp only [timer2MatchB_eq, timer2MatchA_eq, timer2Inc, timer2Reset, hT]
      simp
    · simp only [timer2Clear_eq, timer2MatchB_eq, timer2MatchA_eq, timer2Inc, timer2Reset, hT,
        and_bit_ne_zero]
      by_cases hb : s.mcu.OCR2A = s.mcu.OCR2B <;>
        simp [hb, testBit_bit, OCF2A, OCF2B]
    · simp only [timer2Clear_eq, timer2MatchB_eq, timer2MatchA_eq, timer2Inc, timer2Reset, hT]
      simp
  · intro hq hd
    have e := advanceClock_counter2 h hq s
    rw [if_pos hd] at e
    constructor
    · intro hT
      rw [e, hT]
      simp
    · intro hw hge
      rw [e, if_pos ⟨hge, hw⟩]

/-- Witness of `ctc_reset_after_match`: Timer2 counts on every tick in
clear-on-compare mode with `OCR2A = 5`. From `TCNT2 = 4` the step ends with
`TCNT2 = 5`; from `TCNT2 = 5` the step ends with `TCNT2 = 0`. -/
theorem ctc_reset_after_match_witness :
    (advanceClock idle
        { sim0 with mcu := { mcu0 with TCCR2A := 2, TCCR2B := 2, OCR2A := 5, TCNT2 := 4 } }
        ).mcu.TCNT2 = 5 ∧
      (advanceClock idle
        { sim0 with mcu := { mcu0 with TCCR2A := 2, TCCR2B := 2, OCR2A := 5, TCNT2 := 5 } }
        ).mcu.TCNT2 = 0 :=
  ⟨((ctc_reset_after_match idle
      { sim0 with mcu := { mcu0 with TCCR2A := 2, TCCR2B := 2, OCR2A := 5, TCNT2 := 4 } }).2
      quiet_idle (by decide)).1 (by decide),
    ((ctc_reset_after_match idle
      { sim0 with mcu := { mcu0 with TCCR2A := 2, TCCR2B := 2, OCR2A := 5, TCNT2 := 5 } }).2
      quiet_idle (by decide)).2 (by decide) (by decide)⟩

/-- C12 as stated fails: Timer2 counts on every tick in clear-on-compare mode
(`TCCR2A = bit(WGM21)`), `OCR2A = 5`, `TCNT2 = 4`, `OCIE2A` clear. The step
increments the counter to `OCR2A` and raises `OCF2A`, and `TCNT2` is 5, not 0,
at the end of the step. -/
theorem ctc_no_reset_in_match_step_counterexample :
    (({ sim0 with mcu := { mcu0 with TCCR2A := 2, TCCR2B := 2, OCR2A := 5, TCNT2 := 4 } }
        : Sim Unit).mcu.TCNT2 + 1) % 256 = 5 ∧
      (advanceClock idle
        { sim0 with mcu := { mcu0 with TCCR2A := 2, TCCR2B := 2, OCR2A := 5, TCNT2 := 4 } }
        ).mcu.TIFR2 &&& bit OCF2A ≠ 0 ∧
      (advanceClock idle
        { sim0 with mcu := { mcu0 with TCCR2A := 2, TCCR2B := 2, OCR2A := 5, TCNT2 := 4 } }
        ).mcu.TCNT2 = 5 := by
  decide

/-! ### Timer2 alone: the period in clear-on-compare mode -/

theorem keepsTimer2_id {φ : Type} : KeepsTimer2 (id : Mcu φ → Mcu φ) := by
  constructor <;> intro m <;> rfl

theorem quiet2_idle : Quiet2 idle :=
  ⟨keepsTimer2_id, keepsTimer2_id, keepsTimer2_id, keepsTimer2_id, keepsTimer2_id,
    keepsTimer2_id, keepsTimer2_id⟩

theorem core2_callISR {φ : Type} (c : Nat) (l : List Event) (v : Vect) (f : Mcu φ → Mcu φ)
    (hk : KeepsTimer2 f) (s : Sim φ) : core2 c l (callISR v f s) = core2 c l s := by
  simp [core2, callISR, hk.TCCR2A, hk.TCCR2B, hk.TIMSK2, hk.TIFR2, hk.TCNT2, hk.OCR2A, hk.OCR2B]

theorem count_callISR {φ : Type} (v w : Vect) (f : Mcu φ → Mcu φ) (hvw : v ≠ w) (s : Sim φ) :
    (callISR v f s).log.count (Event.isr w) = s.log.count (Event.isr w) := by
  have hne : Event.isr v ≠ Event.isr w := fun e => hvw (Event.isr.inj e)
  simp [callISR, List.count_append, List.count_cons, hne]

/-- The Timer0 block leaves the Timer2 registers alone and calls no Timer2
handler. -/
theorem core2_timer0 {φ : Type} (h : Hooks φ) (ha : KeepsTimer2 h.TIMER0_COMPA_vect)
    (hb : KeepsTimer2 h.TIMER0_COMPB_vect) (c : Nat) (l : List Event) (s : Sim φ) :
    core2 c l (timer0 h s) = core2 c l s ∧
      (timer0 h s).log.count (Event.isr Vect.TIMER2_COMPA) =
        s.log.count (Event.isr Vect.TIMER2_COMPA) := by
  have rA : ∀ x : Sim φ, core2 c l (timer0DispatchA h x) = core2 c l x ∧
      (timer0DispatchA h x).log.count (Event.isr Vect.TIMER2_COMPA) =
        x.log.count (Event.isr Vect.TIMER2_COMPA) := by
    intro x
    unfold timer0DispatchA
    split_ifs
    · exact ⟨(show core2 c l _ =
          core2 c l (callISR Vect.TIMER0_COMPA h.TIMER0_COMPA_vect x) from rfl).trans
          (core2_callISR c l _ _ ha x),
        count_callISR Vect.TIMER0_COMPA Vect.TIMER2_COMPA h.TIMER0_COMPA_vect
          (by decide) x⟩
    · exact ⟨rfl, rfl⟩
  have rB : ∀ x : Sim φ, core2 c l (timer0DispatchB h x) = core2 c l x ∧
      (timer0DispatchB h x).log.count (Event.isr Vect.TIMER2_COMPA) =
        x.log.count (Event.isr Vect.TIMER2_COMPA) := by
    intro x
    unfold timer0DispatchB
    split_ifs
    · exact ⟨(show core2 c l _ =
          core2 c l (callISR Vect.TIMER0_COMPB h.TIMER0_COMPB_vect x) from rfl).trans
          (core2_callISR c l _ _ hb x),
        count_callISR Vect.TIMER0_COMPB Vect.TIMER2_COMPA h.TIMER0_COMPB_vect
          (by decide) x⟩
    · exact ⟨rfl, rfl⟩
  have rM : ∀ x : Sim φ,
      core2 c l (timer0MatchB (timer0MatchA (timer0Inc (timer0Reset x)))) = core2 c l x ∧
      (timer0MatchB (timer0MatchA (timer0Inc (timer0Reset x)))).log = x.log := by
    intro x
    unfold timer0MatchB timer0MatchA
    split_ifs <;> exact ⟨rfl, rfl⟩
  unfold timer0
  split_ifs
  · unfold timer0Count
    obtain ⟨m1, m2⟩ := rM s
    obtain ⟨a1, a2⟩ := rA (timer0MatchB (timer0MatchA (timer0Inc (timer0Reset s))))
    obtain ⟨b1, b2⟩ := rB (timer0DispatchA h
      (timer0MatchB (timer0MatchA (timer0Inc (timer0Reset s)))))
    exact ⟨b1.trans (a1.trans m1), b2.trans (a2.trans (by rw [m2]))⟩
  · exact ⟨rfl, rfl⟩

/-- The Timer1 block leaves the Timer2 registers alone and calls no Timer2
handler. -/
theorem core2_timer1 {φ : Type} (h : Hooks φ) (ha : KeepsTimer2 h.TIMER1_COMPA_vect)
    (hb : KeepsTimer2 h.TIMER1_COMPB_vect) (c : Nat) (l : List Event) (s : Sim φ) :
    core2 c l (timer1 h s) = core2 c l s ∧
      (timer1 h s).log.count (Event.isr Vect.TIMER2_COMPA) =
        s.log.count (Event.isr Vect.TIMER2_COMPA) := by
  have rA : ∀ x : Sim φ, core2 c l (timer1DispatchA h x) = core2 c l x ∧
      (timer1DispatchA h x).log.count (Event.isr Vect.TIMER2_COMPA) =
        x.log.count (Event.isr Vect.TIMER2_COMPA) := by
    intro x
    unfold timer1DispatchA
    split_ifs
    · exact ⟨(show core2 c l _ =
          core2 c l (callISR Vect.TIMER1_COMPA h.TIMER1_COMPA_vect x) from rfl).trans
          (core2_callISR c l _ _ ha x),
        count_callISR Vect.TIMER1_COMPA Vect.TIMER2_COMPA h.TIMER1_COMPA_vect
          (by decide) x⟩
    · exact ⟨rfl, rfl⟩
  have rB : ∀ x : Sim φ, core2 c l (timer1DispatchB h x) = core2 c l x ∧
      (timer1DispatchB h x).log.count (Event.isr Vect.TIMER2_COMPA) =
        x.log.count (Event.isr Vect.TIMER2_COMPA) := by
    intro x
    unfold timer1DispatchB
    split_ifs
    · exact ⟨(show core2 c l _ =
          core2 c l (callISR Vect.TIMER1_COMPB h.TIMER1_COMPB_vect x) from rfl).trans
          (core2_callISR c l _ _ hb x),
        count_callISR Vect.TIMER1_COMPB Vect.TIMER2_COMPA h.TIMER1_COMPB_vect
          (by decide) x⟩
    · exact ⟨rfl, rfl⟩
  have rM : ∀ x : Sim φ,
      core2 c l (timer1MatchB (timer1MatchA (timer1Inc (timer1Reset x)))) = core2 c l x ∧
      (timer1MatchB (timer1MatchA (timer1Inc (timer1Reset x)))).log = x.log := by
    intro x
    unfold timer1MatchB timer1MatchA
    split_ifs <;> exact ⟨rfl, rfl⟩
  unfold timer1
  split_ifs
  · unfold timer1Count
    obtain ⟨m1, m2⟩ := rM s
    obtain ⟨a1, a2⟩ := rA (timer1MatchB (timer1MatchA (timer1Inc (timer1Reset s))))
    obtain ⟨b1, b2⟩ := rB (timer1DispatchA h
      (timer1MatchB (timer1MatchA (timer1Inc (timer1Reset s)))))
    exact ⟨b1.trans (a1.trans m1), b2.trans (a2.trans (by rw [m2]))⟩
  · exact ⟨rfl, rfl⟩

theorem core2_timer2Dispatch {φ : Type} (h : Hooks φ) (ha : KeepsTimer2 h.TIMER2_COMPA_vect)
    (hb : KeepsTimer2 h.TIMER2_COMPB_vect) (c : Nat) (s : Sim φ) :
    core2 c (timer2DispatchB h (timer2DispatchA h s)).log
        (timer2DispatchB h (timer2DispatchA h s)) =
      timer2DispatchB idle (timer2DispatchA idle (core2 c s.log s)) := by
  have rA : core2 c (timer2DispatchA h s).log (timer2DispatchA h s) =
      timer2DispatchA idle (core2 c s.log s) := by
    unfold timer2DispatchA
    by_cases cA : (s.mcu.TIFR2 &&& bit OCF2A) ≠ 0 ∧ (s.mcu.TIMSK2 &&& bit OCIE2A) ≠ 0
    · have cA2 : ((core2 c s.log s).mcu.TIFR2 &&& bit OCF2A) ≠ 0 ∧
          ((core2 c s.log s).mcu.TIMSK2 &&& bit OCIE2A) ≠ 0 := cA
      rw [if_pos cA, if_pos cA2]
      simp [core2, callISR, idle, ha.TCCR2A, ha.TCCR2B, ha.TIMSK2, ha.TIFR2, ha.TCNT2,
        ha.OCR2A, ha.OCR2B]
    · have cA2 : ¬ (((core2 c s.log s).mcu.TIFR2 &&& bit OCF2A) ≠ 0 ∧
          ((core2 c s.log s).mcu.TIMSK2 &&& bit OCIE2A) ≠ 0) := cA
      rw [if_neg cA, if_neg cA2]
  have rB : ∀ x : Sim φ, core2 c (timer2DispatchB h x).log (timer2DispatchB h x) =
      timer2DispatchB idle (core2 c x.log x) := by
    intro x
    unfold timer2DispatchB
    by_cases cB : (x.mcu.TIFR2 &&& bit OCF2B) ≠ 0 ∧ (x.mcu.TIMSK2 &&& bit OCIE2B) ≠ 0
    · have cB2 : ((core2 c x.log x).mcu.TIFR2 &&& bit OCF2B) ≠ 0 ∧
          ((core2 c x.log x).mcu.TIMSK2 &&& bit OCIE2B) ≠ 0 := cB
      rw [if_pos cB, if_pos cB2]
      simp [core2, callISR, idle, hb.TCCR2A, hb.TCCR2B, hb.TIMSK2, hb.TIFR2, hb.TCNT2,
        hb.OCR2A, hb.OCR2B]
    · have cB2 : ¬ (((core2 c x.log x).mcu.TIFR2 &&& bit OCF2B) ≠ 0 ∧
          ((core2 c x.log x).mcu.TIMSK2 &&& bit OCIE2B) ≠ 0) := cB
      rw [if_neg cB, if_neg cB2]
  rw [rB, rA]

theorem core2_timer2Front {φ : Type} (c : Nat) (s : Sim φ) :
    (timer2MatchB (timer2MatchA (timer2Inc (timer2Reset s)))).1 =
        (timer2MatchB (timer2MatchA (timer2Inc (timer2Reset (core2 c s.log s))))).1 ∧
      core2 c (timer2Clear (timer2MatchB (timer2MatchA (timer2Inc (timer2Reset s)))).2).log
          (timer2Clear (timer2MatchB (timer2MatchA (timer2Inc (timer2Reset s)))).2) =
        timer2Clear (timer2MatchB (timer2MatchA (timer2Inc (timer2Reset (core2 c s.log s))))).2 := by
  simp only [timer2Clear_eq, timer2MatchB_eq, timer2MatchA_eq, timer2Inc, timer2Reset]
  exact ⟨rfl, rfl⟩

/-- The Timer2 block acts on the Timer2 registers and the log as it does under
the idle firmware. -/
theorem core2_timer2 {φ : Type} (h : Hooks φ) (ha : KeepsTimer2 h.TIMER2_COMPA_vect)
    (hb : KeepsTimer2 h.TIMER2_COMPB_vect) (s : Sim φ) :
    (timer2 h s).1 = (timer2 idle (core2 s.mcu.clock s.log s)).1 ∧
      core2 s.mcu.clock (timer2 h s).2.log (timer2 h s).2 =
        (timer2 idle (core2 s.mcu.clock s.log s)).2 := by
  unfold timer2
  by_cases d : due (prescale2 (timer2Reset s).mcu) (timer2Reset s).mcu.clock
  · have d2 : due (prescale2 (timer2Reset (core2 s.mcu.clock s.log s)).mcu)
        (timer2Reset (core2 s.mcu.clock s.log s)).mcu.clock := d
    rw [if_pos d, if_pos d2]
    unfold timer2Count
    obtain ⟨f1, f2⟩ := core2_timer2Front s.mcu.clock s
    refine ⟨f1, ?_⟩
    show core2 s.mcu.clock _ (timer2DispatchB h (timer2DispatchA h
      (timer2Clear (timer2MatchB (timer2MatchA (timer2Inc (timer2Reset s)))).2))) = _
    rw [core2_timer2Dispatch h ha hb, f2]
  · have d2 : ¬ due (prescale2 (timer2Reset (core2 s.mcu.clock s.log s)).mcu)
        (timer2Reset (core2 s.mcu.clock s.log s)).mcu.clock := d
    rw [if_neg d, if_neg d2]
    exact ⟨rfl, rfl⟩

theorem and7_andNot8_bit7 (x : Nat) : andNot8 x (bit FOC2A) &&& 7 = x &&& 7 := by
  apply Nat.eq_of_testBit_eq
  intro i
  have h7 : (7 : Nat) = 2 ^ 3 - 1 := by norm_num
  rw [Nat.testBit_and, Nat.testBit_and, testBit_andNot8, testBit_bit, h7,
    Nat.testBit_two_pow_sub_one]
  by_cases hi : i < 3
  · have h8 : i < 8 := by omega
    have hne : ¬ FOC2A = i := by unfold FOC2A; omega
    simp [hi, h8, hne]
  · simp [hi]

theorem timer2Output_t2 {φ : Type} (oc : Bool) (s : Sim φ) :
    (timer2Output oc s).mcu.TCNT2 = s.mcu.TCNT2 ∧
      (timer2Output oc s).mcu.OCR2A = s.mcu.OCR2A ∧
      (timer2Output oc s).mcu.TCCR2A = s.mcu.TCCR2A ∧
      (timer2Output oc s).mcu.TIMSK2 = s.mcu.TIMSK2 ∧
      (timer2Output oc s).mcu.TCCR2B &&& 7 = s.mcu.TCCR2B &&& 7 := by
  unfold timer2Output
  split_ifs
  · exact ⟨rfl, rfl, rfl, rfl, and7_andNot8_bit7 _⟩
  · exact ⟨rfl, rfl, rfl, rfl, rfl⟩

theorem due_one (c : Nat) : due 1 c := by
  unfold due
  simp

theorem count_dispatchOf (v w : Vect) (c : Prop) [Decidable c] :
    (dispatchOf v c).count (Event.isr w) = if v = w ∧ c then 1 else 0 := by
  unfold dispatchOf
  by_cases hc : c <;> by_cases hv : v = w <;> simp [hc, hv, List.count_cons]

/-- One step of a Timer2 that counts on every tick, under firmware that leaves
the Timer2 registers alone. -/
theorem step_timer2 {φ : Type} (h : Hooks φ) (hq : Quiet2 h) (s : Sim φ)
    (hp : s.mcu.TCCR2B &&& 7 = 2) :
    (advanceClock h s).mcu.TCNT2 =
        (if (s.mcu.TCNT2 + 1) % 256 ≥ s.mcu.OCR2A + 1 ∧
            (s.mcu.TCCR2A &&& (bit WGM22 ||| bit WGM21 ||| bit WGM20)) = bit WGM21
          then 0 else (s.mcu.TCNT2 + 1) % 256) ∧
      ((advanceClock h s).mcu.TIFR2 &&& bit OCF2A ≠ 0 ↔
        (s.mcu.TCNT2 + 1) % 256 = s.mcu.OCR2A ∧ s.mcu.TIMSK2 &&& bit OCIE2A = 0) ∧
      (advanceClock h s).log.count (Event.isr Vect.TIMER2_COMPA) =
        s.log.count (Event.isr Vect.TIMER2_COMPA) +
          (if (s.mcu.TCNT2 + 1) % 256 = s.mcu.OCR2A ∧ s.mcu.TIMSK2 &&& bit OCIE2A ≠ 0
            then 1 else 0) ∧
      (advanceClock h s).mcu.OCR2A = s.mcu.OCR2A ∧
      (advanceClock h s).mcu.TCCR2A = s.mcu.TCCR2A ∧
      (advanceClock h s).mcu.TIMSK2 = s.mcu.TIMSK2 ∧
      (advanceClock h s).mcu.TCCR2B &&& 7 = 2 := by
  obtain ⟨k1, n1⟩ := core2_timer1 h hq.t1a hq.t1b 0 [] (timer0 h (tick s))
  obtain ⟨k0, n0⟩ := core2_timer0 h hq.t0a hq.t0b 0 [] (tick s)
  have k3 : core2 0 [] (timer1 h (timer0 h (tick s))) = core2 0 [] s := k1.trans k0
  have n3 : (timer1 h (timer0 h (tick s))).log.count (Event.isr Vect.TIMER2_COMPA) =
      s.log.count (Event.isr Vect.TIMER2_COMPA) := n1.trans n0
  have w : advanceClock h s = timer2Output (timer2 h (timer1 h (timer0 h (tick s)))).1
      (callLoop h (timer2 h (timer1 h (timer0 h (tick s)))).2) := rfl
  generalize timer1 h (timer0 h (tick s)) = s3 at k3 n3 w
  have g1 : s3.mcu.TCNT2 = s.mcu.TCNT2 := congrArg (fun x => x.mcu.TCNT2) k3
  have g2 : s3.mcu.OCR2A = s.mcu.OCR2A := congrArg (fun x => x.mcu.OCR2A) k3
  have g3 : s3.mcu.TCCR2A = s.mcu.TCCR2A := congrArg (fun x => x.mcu.TCCR2A) k3
  have g4 : s3.mcu.TIMSK2 = s.mcu.TIMSK2 := congrArg (fun x => x.mcu.TIMSK2) k3
  have g5 : s3.mcu.TCCR2B = s.mcu.TCCR2B := congrArg (fun x => x.mcu.TCCR2B) k3
  obtain ⟨-, v2⟩ := core2_timer2 h hq.t2a hq.t2b s3
  obtain ⟨e2, a2, -, l2⟩ := timer2_idle (core2 s3.mcu.clock s3.log s3)
  obtain ⟨c2, -, -⟩ := timer2_counter idle quiet_idle (core2 s3.mcu.clock s3.log s3)
  rw [← v2] at e2 a2 l2 c2
  have hpre : prescale2 (core2 s3.mcu.clock s3.log s3).mcu = 1 := by
    show prescaler2.getD (s3.mcu.TCCR2B &&& 7) 0 / CLOCKSCALE = 1
    rw [g5, hp]
    decide
  have hdue : due (prescale2 (core2 s3.mcu.clock s3.log s3).mcu)
      (core2 s3.mcu.clock s3.log s3).mcu.clock := by
    rw [hpre]
    exact due_one _
  have a2b : (timer2 h s3).2.mcu.TIFR2 &&& bit OCF2A ≠ 0 ↔
      (s3.mcu.TCNT2 + 1) % 256 = s3.mcu.OCR2A ∧ s3.mcu.TIMSK2 &&& bit OCIE2A = 0 := by
    have a2c : (timer2 h s3).2.mcu.TIFR2 &&& bit OCF2A ≠ 0 ↔ _ := a2
    rw [a2c]
    unfold hit2
    constructor
    · exact fun x => ⟨x.1.2, x.2⟩
    · exact fun x => ⟨⟨hdue, x.1⟩, x.2⟩
  have c2b : (timer2 h s3).2.mcu.TCNT2 =
      (if (s3.mcu.TCNT2 + 1) % 256 ≥ s3.mcu.OCR2A + 1 ∧
          (s3.mcu.TCCR2A &&& (bit WGM22 ||| bit WGM21 ||| bit WGM20)) = bit WGM21
        then 0 else (s3.mcu.TCNT2 + 1) % 256) := by
    have c2c : (timer2 h s3).2.mcu.TCNT2 = _ := c2
    rw [c2c, if_pos hdue]
    rfl
  have l2b : (timer2 h s3).2.log = s3.log ++
      dispatchOf Vect.TIMER2_COMPA
        (hit2 (core2 s3.mcu.clock s3.log s3).mcu s3.mcu.clock s3.mcu.OCR2A ∧
          s3.mcu.TIMSK2 &&& bit OCIE2A ≠ 0) ++
      dispatchOf Vect.TIMER2_COMPB
        (hit2 (core2 s3.mcu.clock s3.log s3).mcu s3.mcu.clock s3.mcu.OCR2B ∧
          s3.mcu.TIMSK2 &&& bit OCIE2B ≠ 0) := l2
  have e2b : (timer2 h s3).2.mcu.OCR2A = s3.mcu.OCR2A ∧
      (timer2 h s3).2.mcu.TCCR2A = s3.mcu.TCCR2A ∧
      (timer2 h s3).2.mcu.TIMSK2 = s3.mcu.TIMSK2 ∧
      (timer2 h s3).2.mcu.TCCR2B = s3.mcu.TCCR2B :=
    ⟨congrArg (fun x => x.mcu.OCR2A) e2, congrArg (fun x => x.mcu.TCCR2A) e2,
      congrArg (fun x => x.mcu.TIMSK2) e2, congrArg (fun x => x.mcu.TCCR2B) e2⟩
  have hA : (hit2 (core2 s3.mcu.clock s3.log s3).mcu s3.mcu.clock s3.mcu.OCR2A ∧
      s3.mcu.TIMSK2 &&& bit OCIE2A ≠ 0) ↔
      ((s3.mcu.TCNT2 + 1) % 256 = s3.mcu.OCR2A ∧ s3.mcu.TIMSK2 &&& bit OCIE2A ≠ 0) := by
    unfold hit2
    constructor
    · exact fun x => ⟨x.1.2, x.2⟩
    · exact fun x => ⟨⟨hdue, x.1⟩, x.2⟩
  have hl := hq.loop
  obtain ⟨o1, o2, o3, o4, o5⟩ := timer2Output_t2 (timer2 h s3).1 (callLoop h (timer2 h s3).2)
  obtain ⟨-, -, o6, o7⟩ := timer2Output_flags (timer2 h s3).1 (callLoop h (timer2 h s3).2)
  rw [w]
  refine ⟨?_, ?_, ?_, ?_, ?_, ?_, ?_⟩
  · rw [o1]
    show (h.loop (timer2 h s3).2.mcu).TCNT2 = _
    rw [hl.TCNT2, c2b, g1, g2, g3]
  · rw [o6]
    show (h.loop (timer2 h s3).2.mcu).TIFR2 &&& bit OCF2A ≠ 0 ↔ _
    rw [hl.TIFR2, a2b, g1, g2, g4]
  · rw [o7]
    show ((timer2 h s3).2.log).count (Event.isr Vect.TIMER2_COMPA) = _
    rw [l2b, List.count_append, List.count_append, count_dispatchOf, count_dispatchOf, n3]
    rw [← g1, ← g2, ← g4]
    by_cases hh : (s3.mcu.TCNT2 + 1) % 256 = s3.mcu.OCR2A ∧ s3.mcu.TIMSK2 &&& bit OCIE2A ≠ 0
    · rw [if_pos ⟨rfl, hA.mpr hh⟩, if_pos hh, if_neg (fun x => absurd x.1 (by decide))]
    · rw [if_neg (fun x => hh (hA.mp x.2)), if_neg hh,
        if_neg (fun x => absurd x.1 (by decide))]
  · rw [o2]
    show (h.loop (timer2 h s3).2.mcu).OCR2A = _
    rw [hl.OCR2A, e2b.1, g2]
  · rw [o3]
    show (h.loop (timer2 h s3).2.mcu).TCCR2A = _
    rw [hl.TCCR2A, e2b.2.1, g3]
  · rw [o4]
    show (h.loop (timer2 h s3).2.mcu).TIMSK2 = _
    rw [hl.TIMSK2, e2b.2.2.1, g4]
  · rw [o5]
    show (h.loop (timer2 h s3).2.mcu).TCCR2B &&& 7 = 2
    rw [hl.TCCR2B, e2b.2.2.2, g5, hp]

theorem succ_mod_cases (k m : Nat) (hm : 0 < m) :
    (k + 1) % m = if k % m + 1 = m then 0 else k % m + 1 := by
  have hr : k % m < m := Nat.mod_lt k hm
  have hk : k + 1 = m * (k / m) + (k % m + 1) := by
    have := Nat.div_add_mod k m
    omega
  rw [hk, Nat.mul_add_mod]
  by_cases he : k % m + 1 = m
  · rw [if_pos he, he, Nat.mod_self]
  · rw [if_neg he]
    exact Nat.mod_eq_of_lt (by omega)

/-- The registers of a clear-on-compare Timer2 that counts on every tick, after
`k` steps. -/
theorem steps_timer2 {φ : Type} (h : Hooks φ) (hq : Quiet2 h) (s : Sim φ) (n : Nat)
    (hn : n ≤ 255) (hO : s.mcu.OCR2A = n) (hT : s.mcu.TCNT2 = 0)
    (hp : s.mcu.TCCR2B &&& 7 = 2)
    (hw : (s.mcu.TCCR2A &&& (bit WGM22 ||| bit WGM21 ||| bit WGM20)) = bit WGM21) (k : Nat) :
    (steps h k s).mcu.TCNT2 = k % (n + 1) ∧ (steps h k s).mcu.OCR2A = n ∧
      (steps h k s).mcu.TCCR2A = s.mcu.TCCR2A ∧ (steps h k s).mcu.TIMSK2 = s.mcu.TIMSK2 ∧
      (steps h k s).mcu.TCCR2B &&& 7 = 2 := by
  induction k with
  | zero => exact ⟨by rw [Nat.zero_mod]; exact hT, hO, rfl, rfl, hp⟩
  | succ k ih =>
    obtain ⟨i1, i2, i3, i4, i5⟩ := ih
    obtain ⟨t1, -, -, t4, t5, t6, t7⟩ := step_timer2 h hq (steps h k s) i5
    have e : steps h (k + 1) s = advanceClock h (steps h k s) := rfl
    rw [e]
    refine ⟨?_, t4.trans i2, t5.trans i3, t6.trans i4, t7⟩
    rw [t1, i1, i2, i3, succ_mod_cases k (n + 1) (by omega)]
    have hr : k % (n + 1) < n + 1 := Nat.mod_lt k (by omega)
    by_cases he : k % (n + 1) + 1 = n + 1
    · rw [if_pos he, he]
      by_cases h255 : n = 255
      · subst h255
        have : ¬ ((255 + 1) % 256 ≥ 255 + 1 ∧
            (s.mcu.TCCR2A &&& (bit WGM22 ||| bit WGM21 ||| bit WGM20)) = bit WGM21) := by
          intro x
          have := x.1
          omega
        rw [if_neg this]
      · have hm : (n + 1) % 256 = n + 1 := Nat.mod_eq_of_lt (by omega)
        rw [hm, if_pos ⟨Nat.le_refl _, hw⟩]
    · rw [if_neg he]
      have hm : (k % (n + 1) + 1) % 256 = k % (n + 1) + 1 := Nat.mod_eq_of_lt (by omega)
      rw [hm]
      have : ¬ (k % (n + 1) + 1 ≥ n + 1 ∧
          (s.mcu.TCCR2A &&& (bit WGM22 ||| bit WGM21 ||| bit WGM20)) = bit WGM21) := by
        intro x
        have := x.1
        omega
      rw [if_neg this]

/-- C17 (amended): Timer2 in clear-on-compare mode with a constant
`OCR2A = n ≤ 255`, counting on every tick from `TCNT2 = 0`, under firmware that
leaves the Timer2 registers alone. After `k` steps `TCNT2 = k mod (n+1)`, so it
never exceeds `n`. For `n ≥ 1`, step `k+1` raises the channel-A compare match (its
incremented counter equals `OCR2A`) exactly when `(k+1) mod (n+1) = n`; at the end
of that step `OCF2A` is set exactly when moreover `OCIE2A` is clear, and the step
calls the channel-A handler once exactly when moreover `OCIE2A` is set. For
`n = 0` no step raises the match: the incremented counter is 1, not `OCR2A`,
`OCF2A` is clear after every step, the handler is never called and `TCNT2` is
back at 0 after every step. -/
theorem ctc_period {φ : Type} (h : Hooks φ) (hq : Quiet2 h) (s : Sim φ) (n : Nat)
    (hn : n ≤ 255) (hO : s.mcu.OCR2A = n) (hT : s.mcu.TCNT2 = 0)
    (hp : s.mcu.TCCR2B &&& 7 = 2)
    (hw : (s.mcu.TCCR2A &&& (bit WGM22 ||| bit WGM21 ||| bit WGM20)) = bit WGM21) (k : Nat) :
    (steps h k s).mcu.TCNT2 = k % (n + 1) ∧ (steps h k s).mcu.TCNT2 ≤ n ∧
      (1 ≤ n →
        (((steps h k s).mcu.TCNT2 + 1) % 256 = (steps h k s).mcu.OCR2A ↔
          (k + 1) % (n + 1) = n) ∧
        ((steps h (k + 1) s).mcu.TIFR2 &&& bit OCF2A ≠ 0 ↔
          (k + 1) % (n + 1) = n ∧ s.mcu.TIMSK2 &&& bit OCIE2A = 0) ∧
        (steps h (k + 1) s).log.count (Event.isr Vect.TIMER2_COMPA) =
          (steps h k s).log.count (Event.isr Vect.TIMER2_COMPA) +
            (if (k + 1) % (n + 1) = n ∧ s.mcu.TIMSK2 &&& bit OCIE2A ≠ 0 then 1 else 0)) ∧
      (n = 0 →
        ((steps h k s).mcu.TCNT2 + 1) % 256 = 1 ∧
        ((steps h k s).mcu.TCNT2 + 1) % 256 ≠ (steps h k s).mcu.OCR2A ∧
        (steps h (k + 1) s).mcu.TIFR2 &&& bit OCF2A = 0 ∧
        (steps h (k + 1) s).log.count (Event.isr Vect.TIMER2_COMPA) =
          (steps h k s).log.count (Event.isr Vect.TIMER2_COMPA) ∧
        (steps h (k + 1) s).mcu.TCNT2 = 0) := by
  obtain ⟨i1, i2, -, i4, i5⟩ := steps_timer2 h hq s n hn hO hT hp hw k
  obtain ⟨j1, -, -, -, -⟩ := steps_timer2 h hq s n hn hO hT hp hw (k + 1)
  obtain ⟨-, t2, t3, -, -, -, -⟩ := step_timer2 h hq (steps h k s) i5
  have hr : k % (n + 1) < n + 1 := Nat.mod_lt k (by omega)
  have e : steps h (k + 1) s = advanceClock h (steps h k s) := rfl
  refine ⟨i1, by rw [i1]; omega, ?_, ?_⟩
  · intro hn1
    have hmatch : ((steps h k s).mcu.TCNT2 + 1) % 256 = (steps h k s).mcu.OCR2A ↔
        (k + 1) % (n + 1) = n := by
      rw [i1, i2, succ_mod_cases k (n + 1) (by omega)]
      by_cases he : k % (n + 1) + 1 = n + 1
      · rw [if_pos he, he]
        constructor
        · intro x
          by_cases h255 : n = 255
          · subst h255
            simp at x
          · have hm : (n + 1) % 256 = n + 1 := Nat.mod_eq_of_lt (by omega)
            omega
        · intro x
          omega
      · rw [if_neg he]
        have hm : (k % (n + 1) + 1) % 256 = k % (n + 1) + 1 := Nat.mod_eq_of_lt (by omega)
        rw [hm]
    refine ⟨hmatch, ?_, ?_⟩
    · rw [e, t2, hmatch, i4]
    · rw [e, t3, i4]
      by_cases hh : (k + 1) % (n + 1) = n ∧ s.mcu.TIMSK2 &&& bit OCIE2A ≠ 0
      · rw [if_pos hh, if_pos ⟨hmatch.mpr hh.1, hh.2⟩]
      · rw [if_neg hh, if_neg (fun x => hh ⟨hmatch.mp x.1, x.2⟩)]
  · intro hz
    subst hz
    have z : (steps h k s).mcu.TCNT2 = 0 := by rw [i1]; exact Nat.mod_one k
    have one : ((steps h k s).mcu.TCNT2 + 1) % 256 = 1 := by rw [z]
    have ne : ((steps h k s).mcu.TCNT2 + 1) % 256 ≠ (steps h k s).mcu.OCR2A := by
      rw [one, i2]
      decide
    refine ⟨one, ne, ?_, ?_, ?_⟩
    · by_contra hc
      exact ne ((t2.mp (by rw [← e]; exact hc)).1)
    · rw [e, t3, if_neg (fun x => ne x.1)]
      rfl
    · rw [j1]
      exact Nat.mod_one _

/-- Witness of `ctc_period`: idle firmware. With `OCR2A = 2` the counter after 5
steps is `5 mod 3 = 2` and the sixth step raises no match; with `OCR2A = 0` the
sixth step raises no match either and leaves the counter at 0. -/
theorem ctc_period_witness :
    (steps idle 5 { sim0 with mcu := { mcu0 with TCCR2A := 2, TCCR2B := 2, OCR2A := 2 } }
        ).mcu.TCNT2 = 5 % (2 + 1) ∧
      ¬ (steps idle (5 + 1)
        { sim0 with mcu := { mcu0 with TCCR2A := 2, TCCR2B := 2, OCR2A := 2 } }
        ).mcu.TIFR2 &&& bit OCF2A ≠ 0 ∧
      (steps idle (5 + 1)
        { sim0 with mcu := { mcu0 with TCCR2A := 2, TCCR2B := 2, OCR2A := 0 } }
        ).mcu.TIFR2 &&& bit OCF2A = 0 ∧
      (steps idle (5 + 1)
        { sim0 with mcu := { mcu0 with TCCR2A := 2, TCCR2B := 2, OCR2A := 0 } }
        ).mcu.TCNT2 = 0 :=
  ⟨(ctc_period idle quiet2_idle
      { sim0 with mcu := { mcu0 with TCCR2A := 2, TCCR2B := 2, OCR2A := 2 } } 2
      (by decide) rfl rfl (by decide) (by decide) 5).1,
    fun x => absurd ((((ctc_period idle quiet2_idle
      { sim0 with mcu := { mcu0 with TCCR2A := 2, TCCR2B := 2, OCR2A := 2 } } 2
      (by decide) rfl rfl (by decide) (by decide) 5).2.2.1 (by decide)).2.1.mp x).1) (by decide),
    ((ctc_period idle quiet2_idle
      { sim0 with mcu := { mcu0 with TCCR2A := 2, TCCR2B := 2, OCR2A := 0 } } 0
      (by decide) rfl rfl (by decide) (by decide) 5).2.2.2 rfl).2.2.1,
    ((ctc_period idle quiet2_idle
      { sim0 with mcu := { mcu0 with TCCR2A := 2, TCCR2B := 2, OCR2A := 0 } } 0
      (by decide) rfl rfl (by decide) (by decide) 5).2.2.2 rfl).2.2.2.2⟩

/-- C17 as stated fails at `n = 0`: Timer2 in clear-on-compare mode counts on
every tick with `OCR2A = 0` from `TCNT2 = 0`, idle firmware, `OCIE2A` set. The
claim puts a compare match in the counted ticks 1, 2 and 3 (`k mod 1 = 0`), but
in each of these steps the incremented counter is 1, not `OCR2A`: `OCF2A` is not
raised, no handler is called and the counter is reset to 0. -/
theorem ctc_period_zero_counterexample :
    1 % (0 + 1) = 0 ∧ 2 % (0 + 1) = 0 ∧ 3 % (0 + 1) = 0 ∧
      (steps idle 1
        { sim0 with mcu := { mcu0 with TCCR2A := 2, TCCR2B := 2, TIMSK2 := 2, OCR2A := 0 } }
        ).mcu.TIFR2 &&& bit OCF2A = 0 ∧
      (steps idle 2
        { sim0 with mcu := { mcu0 with TCCR2A := 2, TCCR2B := 2, TIMSK2 := 2, OCR2A := 0 } }
        ).mcu.TIFR2 &&& bit OCF2A = 0 ∧
      (steps idle 3
        { sim0 with mcu := { mcu0 with TCCR2A := 2, TCCR2B := 2, TIMSK2 := 2, OCR2A := 0 } }
        ).mcu.TIFR2 &&& bit OCF2A = 0 ∧
      (steps idle 3
        { sim0 with mcu := { mcu0 with TCCR2A := 2, TCCR2B := 2, TIMSK2 := 2, OCR2A := 0 } }
        ).mcu.TCNT2 = 0 ∧
      (steps idle 3
        { sim0 with mcu := { mcu0 with TCCR2A := 2, TCCR2B := 2, TIMSK2 := 2, OCR2A := 0 } }
        ).log = [] := by
  decide

/-! ### WAV reader: the division -/

/-- C18, the code at the failing input: the 44-byte header `noChannel` has the
four markers, format code 1, `channels = 0` and `bits_per_sample = 8`. It passes
the header test of `readWAV`, and the division by
`channels * bits_per_sample = 0` that follows is a fault. -/
theorem readWAV_zero_channels_faults {φ : Type} (h : Hooks φ) (ticks : Nat → Nat → Nat)
    (fuel : Nat) (s : Sim φ) :
    noChannel.length = 44 ∧ ¬ rejects noChannel ∧
      (header noChannel).channels = 0 ∧ (header noChannel).bits_per_sample = 8 ∧
      (header noChannel).channels * (header noChannel).bits_per_sample = 0 ∧
      readWAV h ticks fuel (some noChannel) s = Except.error Halt.fault := by
  refine ⟨by decide, by decide, by decide, by decide, by decide, ?_⟩
  unfold readWAV
  dsimp only
  rw [if_neg (by decide), if_pos (Or.inl (by decide))]

/-! ### WAV writer: the header read back -/

theorem headerBytes_cons (n : Nat) (data : List Nat) :
    headerBytes n ++ data =
      0x52 :: 0x49 :: 0x46 :: 0x46 ::
      ((44 + n - 8) % 2 ^ 32 % 256) :: ((44 + n - 8) % 2 ^ 32 / 256 % 256) ::
      ((44 + n - 8) % 2 ^ 32 / 65536 % 256) :: ((44 + n - 8) % 2 ^ 32 / 16777216 % 256) ::
      0x57 :: 0x41 :: 0x56 :: 0x45 :: 0x66 :: 0x6D :: 0x74 :: 0x20 ::
      16 :: 0 :: 0 :: 0 :: 1 :: 0 :: 1 :: 0 :: 0x80 :: 0xBB :: 0 :: 0 :: 0x80 :: 0xBB :: 0 :: 0 ::
      1 :: 0 :: 8 :: 0 :: 0x64 :: 0x61 :: 0x74 :: 0x61 ::
      (n % 256) :: (n / 256 % 256) :: (n / 65536 % 256) :: (n / 16777216 % 256) :: data := by
  simp [headerBytes, le32, le16, RIFF, WAVE, FMT, DATA]

theorem headerBytes_length (n : Nat) : (headerBytes n).length = 44 := by
  simp [headerBytes, le32, le16, RIFF, WAVE, FMT, DATA]

theorem header_headerBytes (n : Nat) (data : List Nat) (hn : n < 2 ^ 32 - 36) :
    (header (headerBytes n ++ data)).riff = RIFF ∧
      (header (headerBytes n ++ data)).overall_size = n + 36 ∧
      (header (headerBytes n ++ data)).wave = WAVE ∧
      (header (headerBytes n ++ data)).fmt_chunk_marker = FMT ∧
      (header (headerBytes n ++ data)).length_of_fmt = 16 ∧
      (header (headerBytes n ++ data)).format_type = 1 ∧
      (header (headerBytes n ++ data)).channels = 1 ∧
      (header (headerBytes n ++ data)).sample_rate = 48000 ∧
      (header (headerBytes n ++ data)).byterate = 48000 ∧
      (header (headerBytes n ++ data)).block_align = 1 ∧
      (header (headerBytes n ++ data)).bits_per_sample = 8 ∧
      (header (headerBytes n ++ data)).data_chunk_header = DATA ∧
      (header (headerBytes n ++ data)).data_size = n ∧
      (headerBytes n ++ data).drop 44 = data := by
  rw [headerBytes_cons]
  refine ⟨rfl, ?_, rfl, rfl, by simp [header, field, le], by simp [header, field, le],
    by simp [header, field, le], by simp [header, field, le], by simp [header, field, le],
    by simp [header, field, le], by simp [header, field, le], rfl, ?_, rfl⟩
  · show (44 + n - 8) % 2 ^ 32 % 256 + 256 * ((44 + n - 8) % 2 ^ 32 / 256 % 256 +
      256 * ((44 + n - 8) % 2 ^ 32 / 65536 % 256 +
        256 * ((44 + n - 8) % 2 ^ 32 / 16777216 % 256 + 256 * 0))) = n + 36
    have e : (44 + n - 8) % 2 ^ 32 = n + 36 := by
      rw [Nat.mod_eq_of_lt] <;> omega
    rw [e]
    omega
  · show n % 256 + 256 * (n / 256 % 256 + 256 * (n / 65536 % 256 +
      256 * (n / 16777216 % 256 + 256 * 0))) = n
    omega

/-- C20: for every sample count `n < 2^29` and whatever bytes follow, the 44
bytes that `writeWAV` writes as header for `n` samples read back as one
channel, 48000 Hz, 8 bits, data size `n` and overall size `n + 36`; the header
test of `readWAV` accepts them, and `readWAV` derives one byte per sample, one
byte per channel and `n` samples, and runs its sample loop with these values
and the tick function of 48000 Hz on the bytes behind the header. -/
theorem header_round_trip {φ : Type} (h : Hooks φ) (ticks : Nat → Nat → Nat) (fuel n : Nat)
    (hn : n < 2 ^ 29) (data : List Nat) (s : Sim φ) :
    (headerBytes n).length = 44 ∧
      (header (headerBytes n ++ data)).channels = 1 ∧
      (header (headerBytes n ++ data)).sample_rate = 48000 ∧
      (header (headerBytes n ++ data)).bits_per_sample = 8 ∧
      (header (headerBytes n ++ data)).data_size = n ∧
      (header (headerBytes n ++ data)).overall_size = n + 36 ∧
      ¬ rejects (headerBytes n ++ data) ∧
      sample_size (header (headerBytes n ++ data)) = 1 ∧
      bytes_per_channel (header (headerBytes n ++ data)) = 1 ∧
      num_samples (header (headerBytes n ++ data)) = n ∧
      readWAV h ticks fuel (some (headerBytes n ++ data)) s =
        wavLoop h (ticks 48000) fuel 1 1 n 1 data s := by
  have hn2 : n < 2 ^ 32 - 36 := by
    have : (2 : Nat) ^ 29 < 2 ^ 32 - 36 := by norm_num
    omega
  obtain ⟨a1, a2, a3, a4, a5, a6, a7, a8, a9, a10, a11, a12, a13, a14⟩ :=
    header_headerBytes n data hn2
  have hrej : ¬ rejects (headerBytes n ++ data) := by
    unfold rejects
    rw [a1, a4, a3, a12, a6, List.length_append, headerBytes_length]
    simp
  have hss : sample_size (header (headerBytes n ++ data)) = 1 := by
    unfold sample_size
    rw [a7, a11]
  have hbc : bytes_per_channel (header (headerBytes n ++ data)) = 1 := by
    unfold bytes_per_channel
    rw [hss, a7]
  have hns : num_samples (header (headerBytes n ++ data)) = n := by
    unfold num_samples
    rw [a7, a11, a13]
    have : (2 : Nat) ^ 29 * 8 = 2 ^ 32 := by norm_num
    have e : 8 * n % 2 ^ 32 = 8 * n := Nat.mod_eq_of_lt (by omega)
    rw [e]
    omega
  refine ⟨headerBytes_length n, a7, a8, a11, a13, a2, hrej, hss, hbc, hns, ?_⟩
  unfold readWAV
  dsimp only
  rw [if_neg hrej, if_neg (by rw [a7, a11]; norm_num), if_neg (by rw [hbc, hss, a7]; simp),
    hbc, hss, hns, a8, a14]

/-- Witness of `header_round_trip`: the header for two samples followed by the
two sample bytes. -/
theorem header_round_trip_witness :
    ¬ rejects (headerBytes 2 ++ [200, 50]) ∧
      num_samples (header (headerBytes 2 ++ [200, 50])) = 2 ∧
      readWAV idle (fun _ i => i) 4 (some (headerBytes 2 ++ [200, 50])) sim0 =
        wavLoop idle (fun i => i) 4 1 1 2 1 [200, 50] sim0 :=
  ⟨(header_round_trip idle (fun _ i => i) 4 2 (by decide) [200, 50] sim0).2.2.2.2.2.2.1,
    (header_round_trip idle (fun _ i => i) 4 2 (by decide) [200, 50] sim0).2.2.2.2.2.2.2.2.2.1,
    (header_round_trip idle (fun _ i => i) 4 2 (by decide) [200, 50] sim0).2.2.2.2.2.2.2.2.2.2⟩

/-! ### WAV writer: the smoothing filter -/

theorem tdiv3_bounds (y : Int) (lo : -360 ≤ y) (hi : y ≤ 360) :
    -120 ≤ y.tdiv 3 ∧ y.tdiv 3 ≤ 120 := by
  by_cases hy : 0 ≤ y
  · rw [Int.tdiv_eq_ediv hy (by decide)]
    omega
  · have e : y.tdiv 3 = -((-y) / 3) := by
      have a : (-(-y)).tdiv 3 = -((-y).tdiv 3) := Int.neg_tdiv (-y) 3
      rw [neg_neg] at a
      rw [a, Int.tdiv_eq_ediv (by omega) (by decide)]
    rw [e]
    omega

theorem toChar_id (x : Int) (lo : -128 ≤ x) (hi : x ≤ 127) : toChar x = x := by
  unfold toChar
  omega

theorem nextSample_bounds (x : Int) (l : Bool) (lo : -120 ≤ x) (hi : x ≤ 120) :
    nextSample x l = (x * 2 + (if l then 120 else -120)).tdiv 3 ∧
      -120 ≤ nextSample x l ∧ nextSample x l ≤ 120 := by
  have b : -120 ≤ (x * 2 + (if l then 120 else -120)).tdiv 3 ∧
      (x * 2 + (if l then 120 else -120)).tdiv 3 ≤ 120 := by
    apply tdiv3_bounds
    · cases l <;> simp <;> omega
    · cases l <;> simp <;> omega
  have e : nextSample x l = (x * 2 + (if l then 120 else -120)).tdiv 3 := by
    unfold nextSample
    exact toChar_id _ (by omega) (by omega)
  rw [e]
  exact ⟨rfl, b⟩

theorem pcm_bounds (x : Int) (lo : -120 ≤ x) (hi : x ≤ 120) :
    (pcm x : Int) = x + 128 ∧ 8 ≤ pcm x ∧ pcm x ≤ 248 := by
  unfold pcm
  omega

theorem foldl_nextSample_bounds (levels : List Bool) :
    ∀ x : Int, -120 ≤ x → x ≤ 120 →
      -120 ≤ levels.foldl nextSample x ∧ levels.foldl nextSample x ≤ 120 := by
  induction levels with
  | nil => intro x lo hi; exact ⟨lo, hi⟩
  | cons l ls ih =>
    intro x lo hi
    exact ih (nextSample x l) (nextSample_bounds x l lo hi).2.1 (nextSample_bounds x l lo hi).2.2

theorem feed_bounded {φ : Type} (h : Hooks φ) (w : WavOut) (s : Sim φ) (hb : Bounded w) :
    Bounded (feed h w s).1 := by
  unfold feed
  split_ifs
  · cases hf : w.f with
    | nil => exact hb
    | cons b rest => exact hb
  · exact hb

theorem feedLoop_bounded {φ : Type} (h : Hooks φ) (fuel : Nat) :
    ∀ (w : WavOut) (s : Sim φ) (r : WavOut × Sim φ), Bounded w →
      feedLoop h fuel w s = Except.ok r → Bounded r.1 := by
  induction fuel with
  | zero =>
    intro w s r hb hr
    unfold feedLoop at hr
    split_ifs at hr
    cases hr
    exact hb
  | succ k ih =>
    intro w s r hb hr
    unfold feedLoop at hr
    split_ifs at hr
    · exact ih _ _ r (feed_bounded h w s hb) hr
    · cases hr
      exact hb

theorem watch_bounded {φ : Type} (w : WavOut) (s : Sim φ) (hb : Bounded w) :
    Bounded (watch w s).1 := by
  unfold watch
  split_ifs <;> exact hb

theorem emit_bounded {φ : Type} (ticks : Nat → Nat → Nat) (w : WavOut) (s : Sim φ)
    (hb : Bounded w) : Bounded (emit ticks w s) := by
  obtain ⟨lo, hi, hw⟩ := hb
  have n := nextSample_bounds w.sample (getTimer2OutputA s) lo hi
  refine ⟨n.2.1, n.2.2, ?_⟩
  intro b hm
  have hm2 : b ∈ w.written ++ [pcm (nextSample w.sample (getTimer2OutputA s))] := hm
  rw [List.mem_append, List.mem_singleton] at hm2
  rcases hm2 with c | c
  · exact hw b c
  · rw [c]
    exact (pcm_bounds _ n.2.1 n.2.2).2

theorem writeLoop_bounded {φ : Type} (h : Hooks φ) (ticks : Nat → Nat → Nat) (fuel k : Nat) :
    ∀ (w : WavOut) (s : Sim φ) (r : WavOut × Sim φ), Bounded w →
      writeLoop h ticks fuel k w s = Except.ok r → Bounded r.1 := by
  induction k with
  | zero =>
    intro w s r hb hr
    unfold writeLoop at hr
    split_ifs at hr
    cases hr
    exact hb
  | succ k ih =>
    intro w s r hb hr
    unfold writeLoop at hr
    split_ifs at hr
    · cases hf : feedLoop h fuel w s with
      | error e => rw [hf] at hr; cases hr
      | ok q =>
        rw [hf] at hr
        exact ih _ _ r (emit_bounded ticks _ _ (watch_bounded q.1 q.2
          (feedLoop_bounded h fuel w s q hb hf))) hr
    · cases hr
      exact hb

/-- C19: from `sample = 0` and for every sequence of output levels the filter
of `writeWAV` stays within `-120 .. 120`; the next update from there does not
wrap the `char` (it is the truncated quotient itself), and the byte
`sample + 128` is the number `sample + 128`, within `8 .. 248`. Accordingly every
run of `writeWAV` that returns leaves in the output file the header followed by
sample bytes that all lie in `8 .. 248`. -/
theorem smoothing_filter_bounded {φ : Type} (h : Hooks φ) (ticks : Nat → Nat → Nat)
    (fuel : Nat) (levels : List Bool) (f o : List Nat) (s : Sim φ) (r : Bool × Sim φ) :
    (-120 ≤ levels.foldl nextSample 0 ∧ levels.foldl nextSample 0 ≤ 120 ∧
      (∀ l : Bool, nextSample (levels.foldl nextSample 0) l =
        (levels.foldl nextSample 0 * 2 + (if l then 120 else -120)).tdiv 3) ∧
      (pcm (levels.foldl nextSample 0) : Int) = levels.foldl nextSample 0 + 128 ∧
      8 ≤ pcm (levels.foldl nextSample 0) ∧ pcm (levels.foldl nextSample 0) ≤ 248) ∧
      (s.outfile = some o → writeWAV h ticks fuel (some f) s = Except.ok r →
        ∃ n samples,
          r.2.outfile = some (headerBytes n ++ samples ++ o.drop (44 + samples.length)) ∧
            ∀ b ∈ samples, 8 ≤ b ∧ b ≤ 248) := by
  have b := foldl_nextSample_bounds levels 0 (by decide) (by decide)
  have p := pcm_bounds _ b.1 b.2
  refine ⟨⟨b.1, b.2, fun l => (nextSample_bounds _ l b.1 b.2).1, p.1, p.2.1, p.2.2⟩, ?_⟩
  intro ho hr
  unfold writeWAV at hr
  dsimp only at hr
  rw [ho] at hr
  dsimp only at hr
  cases hl : writeLoop h ticks fuel fuel
      { f := f, sample := 0, n := 0, nextsample := 0,
        endtime := (leaderlen + 1000) % 2 ^ 32, prevOutput := false, prevClock := 0,
        written := [] } s with
  | error e => rw [hl] at hr; cases hr
  | ok q =>
    rw [hl] at hr
    have hb : Bounded q.1 :=
      writeLoop_bounded h ticks fuel fuel _ s q
        ⟨show (-120 : Int) ≤ 0 by decide, show (0 : Int) ≤ 120 by decide,
          fun b hm => absurd hm (List.not_mem_nil b)⟩ hl
    cases hr
    exact ⟨q.1.n, q.1.written, rfl, hb.2.2⟩

/-- Witness of `smoothing_filter_bounded`: two low levels take the filter to
`-40` and `-66`; the run of `writeWAV` on an empty TAP file from `simOut`, with a
sample due at every tick, returns after two samples, the bytes 88 and 62. -/
theorem smoothing_filter_bounded_witness :
    [false, false].foldl nextSample 0 = -66 ∧ -120 ≤ [false, false].foldl nextSample 0 ∧
      ∃ r, writeWAV idle (fun _ i => 3001199 + i) 2 (some []) simOut = Except.ok r ∧
        r.2.outfile = some (headerBytes 2 ++ [88, 62]) ∧
        ∃ n samples,
          r.2.outfile = some (headerBytes n ++ samples ++ ([] : List Nat).drop (44 + samples.length)) ∧
            ∀ b ∈ samples, 8 ≤ b ∧ b ≤ 248 :=
  ⟨by decide,
    (smoothing_filter_bounded idle (fun _ i => 3001199 + i) 2 [false, false] [] [] simOut
      (true, simOut)).1.1,
    _, rfl, rfl,
    (smoothing_filter_bounded idle (fun _ i => 3001199 + i) 2 [false, false] [] [] simOut _).2
      rfl rfl⟩

/-! ### CSV reader -/

theorem pace_callISR {φ : Type} (v : Vect) (f : Mcu φ → Mcu φ)
    (hk : ∀ m, (f m).clock = m.clock) (s : Sim φ) : pace (callISR v f s) = pace s := by
  show ((f s.mcu).clock, s.keep_going) = (s.mcu.clock, s.keep_going)
  rw [hk]

theorem pace_timer0 {φ : Type} (h : Hooks φ) (hk : KeepsClock h) (s : Sim φ) :
    pace (timer0 h s) = pace s := by
  have rA : ∀ x : Sim φ, pace (timer0DispatchA h x) = pace x := by
    intro x
    unfold timer0DispatchA
    split_ifs
    · exact pace_callISR Vect.TIMER0_COMPA h.TIMER0_COMPA_vect hk.t0a x
    · rfl
  have rB : ∀ x : Sim φ, pace (timer0DispatchB h x) = pace x := by
    intro x
    unfold timer0DispatchB
    split_ifs
    · exact pace_callISR Vect.TIMER0_COMPB h.TIMER0_COMPB_vect hk.t0b x
    · rfl
  have rM : ∀ x : Sim φ, pace (timer0MatchB (timer0MatchA (timer0Inc (timer0Reset x)))) =
      pace x := by
    intro x
    unfold timer0MatchB timer0MatchA
    split_ifs <;> rfl
  unfold timer0
  split_ifs
  · unfold timer0Count
    exact (rB _).trans ((rA _).trans (rM s))
  · rfl

theorem pace_timer1 {φ : Type} (h : Hooks φ) (hk : KeepsClock h) (s : Sim φ) :
    pace (timer1 h s) = pace s := by
  have rA : ∀ x : Sim φ, pace (timer1DispatchA h x) = pace x := by
    intro x
    unfold timer1DispatchA
    split_ifs
    · exact pace_callISR Vect.TIMER1_COMPA h.TIMER1_COMPA_vect hk.t1a x
    · rfl
  have rB : ∀ x : Sim φ, pace (timer1DispatchB h x) = pace x := by
    intro x
    unfold timer1DispatchB
    split_ifs
    · exact pace_callISR Vect.TIMER1_COMPB h.TIMER1_COMPB_vect hk.t1b x
    · rfl
  have rM : ∀ x : Sim φ, pace (timer1MatchB (timer1MatchA (timer1Inc (timer1Reset x)))) =
      pace x := by
    intro x
    unfold timer1MatchB timer1MatchA
    split_ifs <;> rfl
  unfold timer1
  split_ifs
  · unfold timer1Count
    exact (rB _).trans ((rA _).trans (rM s))
  · rfl

theorem pace_timer2 {φ : Type} (h : Hooks φ) (hk : KeepsClock h) (s : Sim φ) :
    pace (timer2 h s).2 = pace s := by
  have rA : ∀ x : Sim φ, pace (timer2DispatchA h x) = pace x := by
    intro x
    unfold timer2DispatchA
    split_ifs
    · exact pace_callISR Vect.TIMER2_COMPA h.TIMER2_COMPA_vect hk.t2a x
    · rfl
  have rB : ∀ x : Sim φ, pace (timer2DispatchB h x) = pace x := by
    intro x
    unfold timer2DispatchB
    split_ifs
    · exact pace_callISR Vect.TIMER2_COMPB h.TIMER2_COMPB_vect hk.t2b x
    · rfl
  have rC : ∀ x : Sim φ, pace (timer2Clear x) = pace x := by
    intro x
    unfold timer2Clear
    split_ifs <;> rfl
  have rM : ∀ x : Sim φ, pace (timer2MatchB (timer2MatchA (timer2Inc (timer2Reset x)))).2 =
      pace x := by
    intro x
    unfold timer2MatchB timer2MatchA
    split_ifs <;> rfl
  unfold timer2
  split_ifs
  · unfold timer2Count
    exact (rB _).trans ((rA _).trans ((rC _).trans (rM s)))
  · rfl

theorem pace_advanceClock {φ : Type} (h : Hooks φ) (hk : KeepsClock h) (s : Sim φ) :
    pace (advanceClock h s) = ((s.mcu.clock + 1) % 2 ^ 32, s.keep_going) := by
  have e1 : pace (advanceTimers h s).2 = ((s.mcu.clock + 1) % 2 ^ 32, s.keep_going) := by
    unfold advanceTimers
    rw [pace_timer2 h hk, pace_timer1 h hk, pace_timer0 h hk]
    rfl
  have e2 : pace (beforeOutput h s).2 = pace (advanceTimers h s).2 := by
    show ((h.loop (advanceTimers h s).2.mcu).clock, (advanceTimers h s).2.keep_going) = _
    rw [hk.loop]
    rfl
  have e3 : ∀ (b : Bool) (x : Sim φ), pace (timer2Output b x) = pace x := by
    intro b x
    unfold timer2Output
    split_ifs <;> rfl
  unfold advanceClock
  rw [e3, e2, e1]

theorem pace_steps {φ : Type} (h : Hooks φ) (hk : KeepsClock h) (k : Nat) (s : Sim φ)
    (hb : s.mcu.clock + k < 2 ^ 32) : pace (steps h k s) = (s.mcu.clock + k, s.keep_going) := by
  induction k with
  | zero => rfl
  | succ k ih =>
    have i := ih (by omega)
    have c : (steps h k s).mcu.clock = s.mcu.clock + k := congrArg Prod.fst i
    have g : (steps h k s).keep_going = s.keep_going := congrArg Prod.snd i
    show pace (advanceClock h (steps h k s)) = _
    rw [pace_advanceClock h hk, c, g, Nat.mod_eq_of_lt (by omega)]
    rfl

theorem steps_succ_left {φ : Type} (h : Hooks φ) (k : Nat) (s : Sim φ) :
    steps h (k + 1) s = steps h k (advanceClock h s) := by
  induction k with
  | zero => rfl
  | succ k ih =>
    show advanceClock h (steps h (k + 1) s) = advanceClock h (steps h k (advanceClock h s))
    rw [ih]

theorem runClock_steps {φ : Type} (h : Hooks φ) (hk : KeepsClock h) (target fuel : Nat)
    (s : Sim φ) (hle : s.mcu.clock ≤ target) (ht : target < 2 ^ 32)
    (hf : target - s.mcu.clock ≤ fuel) :
    runClock h target fuel s = Except.ok (steps h (target - s.mcu.clock) s) := by
  induction fuel generalizing s with
  | zero =>
    have e : target - s.mcu.clock = 0 := by omega
    unfold runClock
    rw [if_neg (by omega), e]
    rfl
  | succ fuel ih =>
    unfold runClock
    by_cases hc : s.mcu.clock < target
    · rw [if_pos hc]
      have e : (advanceClock h s).mcu.clock = (s.mcu.clock + 1) % 2 ^ 32 :=
        congrArg Prod.fst (pace_advanceClock h hk s)
      rw [Nat.mod_eq_of_lt (by omega)] at e
      rw [ih (advanceClock h s) (by omega) (by omega), e]
      have e2 : target - s.mcu.clock = (target - (s.mcu.clock + 1)) + 1 := by omega
      rw [e2, steps_succ_left]
    · rw [if_neg hc]
      have e : target - s.mcu.clock = 0 := by omega
      rw [e]
      rfl

theorem pace_readBus {φ : Type} (h : Hooks φ) (hk : KeepsClock h) (reg : Nat) (s : Sim φ) :
    pace (readBus h reg s).2 = pace s := by
  show ((h.PCINT0_vect _).clock, s.keep_going) = _
  rw [hk.pc0]
  rfl

theorem pace_gotByte {φ : Type} (status data : Nat) (s : Sim φ) :
    pace (gotByte status data s).2 = pace s := by
  unfold gotByte
  split_ifs <;> rfl

theorem pace_getData {φ : Type} (h : Hooks φ) (hk : KeepsClock h) (s : Sim φ) :
    pace (getData h s).2 = pace s := by
  unfold getData
  split_ifs
  · exact (show pace (report Event.framingError (readBus h 0 s).2) = pace (readBus h 0 s).2
      from rfl).trans (pace_readBus h hk 0 s)
  · exact (show pace (report Event.parityError (readBus h 0 s).2) = pace (readBus h 0 s).2
      from rfl).trans (pace_readBus h hk 0 s)
  · rw [pace_gotByte, pace_readBus h hk, pace_readBus h hk]
  · exact pace_readBus h hk 0 s

theorem pace_setTimer1Capture {φ : Type} (h : Hooks φ) (hk : KeepsClock h) (data : Bool)
    (s : Sim φ) : pace (setTimer1Capture h data s) = pace s := by
  have d : ∀ x : Sim φ, pace (captureDispatch h data x) = pace x := by
    intro x
    unfold captureDispatch
    split_ifs
    · exact pace_callISR _ _ hk.t1c x
    · exact pace_callISR _ _ hk.t1c x
    · rfl
  unfold setTimer1Capture
  split_ifs
  · exact (show pace (captureRemember data _) = pace (captureDispatch h data (captureLatch s))
      from rfl).trans (d _)
  · rfl

theorem keepsClock_edges : KeepsClock edges :=
  ⟨fun _ => rfl, fun _ => rfl, fun _ => rfl, fun _ => rfl, fun _ => rfl, fun _ => rfl,
    fun _ => rfl, fun _ => rfl, fun _ => rfl⟩

theorem tickOf_target (t0 t : Int) (h0 : t0 ≤ t) (hb : t - t0 < 2 ^ 31) :
    (((t - t0).tdiv 10) % 2 ^ 32).toNat = tickOf t0 t ∧ tickOf t0 t < 2 ^ 32 := by
  unfold tickOf
  rw [Int.tdiv_eq_ediv (by omega) (by decide)]
  omega

theorem tickOf_mono (t0 a b : Int) (h0 : t0 ≤ a) (hab : a ≤ b) : tickOf t0 a ≤ tickOf t0 b := by
  unfold tickOf
  rw [Int.tdiv_eq_ediv (by omega) (by decide), Int.tdiv_eq_ediv (by omega) (by decide)]
  omega

theorem csvLoop_feedAt {φ : Type} (h : Hooks φ) (hk : KeepsClock h) (fuel : Nat) (t0 : Int)
    (h0 : t0 ≠ 99999999) :
    ∀ (records : List (Int × Int)) (p : Int × Int) (s : Sim φ),
      List.Chain (fun a b : Int × Int => a.1 ≤ b.1) p records → t0 ≤ p.1 →
      s.mcu.clock = tickOf t0 p.1 → s.keep_going = true →
      (∀ r ∈ records, r.1 - t0 < 2 ^ 31) → (∀ r ∈ records, tickOf t0 r.1 ≤ fuel) →
      csvLoop h fuel t0 records s = Except.ok (true, feedAt h t0 records s) ∧
        ∀ pre r post, records = pre ++ r :: post →
          (getData h (steps h (tickOf t0 r.1 - (feedAt h t0 pre s).mcu.clock)
            (feedAt h t0 pre s))).2.mcu.clock = tickOf t0 r.1 := by
  intro records
  induction records with
  | nil =>
    intro p s _ _ _ _ _ _
    refine ⟨rfl, ?_⟩
    intro pre r post e
    cases pre <;> cases e
  | cons r rest ih =>
    intro p s hch hp hc hg hb hf
    have hpr : p.1 ≤ r.1 := (List.chain_cons.mp hch).1
    have hch2 : List.Chain (fun a b : Int × Int => a.1 ≤ b.1) r rest := (List.chain_cons.mp hch).2
    have hr0 : t0 ≤ r.1 := le_trans hp hpr
    have hrb : r.1 - t0 < 2 ^ 31 := hb r (List.mem_cons_self r rest)
    obtain ⟨tg, tl⟩ := tickOf_target t0 r.1 hr0 hrb
    have hle : s.mcu.clock ≤ tickOf t0 r.1 := by
      rw [hc]
      exact tickOf_mono t0 p.1 r.1 hp hpr
    have hfu : tickOf t0 r.1 - s.mcu.clock ≤ fuel := by
      have := hf r (List.mem_cons_self r rest)
      omega
    have hrun := runClock_steps h hk (tickOf t0 r.1) fuel s hle tl hfu
    have p1 : pace (steps h (tickOf t0 r.1 - s.mcu.clock) s) = (tickOf t0 r.1, true) := by
      rw [pace_steps h hk _ s (by omega), hg]
      have : s.mcu.clock + (tickOf t0 r.1 - s.mcu.clock) = tickOf t0 r.1 := by omega
      rw [this]
    have p2 : pace (getData h (steps h (tickOf t0 r.1 - s.mcu.clock) s)).2 =
        (tickOf t0 r.1, true) := (pace_getData h hk _).trans p1
    have p3 : pace (setTimer1Capture h (decide (r.2 ≠ 0))
        (getData h (steps h (tickOf t0 r.1 - s.mcu.clock) s)).2) = (tickOf t0 r.1, true) :=
      (pace_setTimer1Capture h hk _ _).trans p2
    have kg : (getData h (steps h (tickOf t0 r.1 - s.mcu.clock) s)).2.keep_going = true :=
      congrArg Prod.snd p2
    obtain ⟨i1, i2⟩ := ih r
      (setTimer1Capture h (decide (r.2 ≠ 0))
        (getData h (steps h (tickOf t0 r.1 - s.mcu.clock) s)).2)
      hch2 hr0 (congrArg Prod.fst p3) (congrArg Prod.snd p3)
      (fun x hx => hb x (List.mem_cons_of_mem r hx))
      (fun x hx => hf x (List.mem_cons_of_mem r hx))
    constructor
    · unfold csvLoop
      rw [if_neg h0, if_neg (by omega), tg, hrun]
      dsimp only
      rw [if_neg (by rw [kg]; simp), i1]
      rfl
    · intro pre x post e
      cases pre with
      | nil =>
        have ex : r = x := (List.cons.inj e).1
        subst ex
        exact congrArg Prod.fst p2
      | cons y pre2 =>
        have ey : r = y := (List.cons.inj e).1
        have et : rest = pre2 ++ x :: post := (List.cons.inj e).2
        subst ey
        exact i2 pre2 x post et

theorem csvLoop_first {φ : Type} (h : Hooks φ) (fuel : Nat) (t0 v0 : Int)
    (rest : List (Int × Int)) (s : Sim φ) (h0 : t0 ≠ 99999999) :
    csvLoop h fuel 99999999 ((t0, v0) :: rest) s = csvLoop h fuel t0 ((t0, v0) :: rest) s := by
  have e1 : (if (99999999 : Int) = 99999999 then t0 else 99999999) = t0 := if_pos rfl
  have e2 : (if t0 = 99999999 then t0 else t0) = t0 := if_neg h0
  conv_lhs => unfold csvLoop
  conv_rhs => unfold csvLoop
  dsimp only
  rw [e1, e2]

/-! ### WAV reader: binary64 rounding -/

theorem ONE_eq : ONE = 2 ^ 1074 := Nat.one_shiftLeft 1074

theorem spacing_eq (t : Nat) : spacing t = 2 ^ expo 2100 t := by
  unfold spacing
  rw [Nat.one_shiftLeft]

theorem spacing_pos (t : Nat) : 0 < spacing t := by
  rw [spacing_eq]
  exact Nat.pos_pow_of_pos _ (by decide)

theorem expo_spec (f : Nat) : ∀ t : Nat, t < 2 ^ (53 + f) →
    t < 2 ^ 53 * 2 ^ expo f t ∧ (expo f t = 0 ∨ 2 ^ 52 * 2 ^ expo f t ≤ t) := by
  induction f with
  | zero =>
    intro t ht
    have e : expo 0 t = 0 := rfl
    rw [e]
    exact ⟨by simpa using ht, Or.inl rfl⟩
  | succ f ih =>
    intro t ht
    unfold expo
    by_cases h53 : t < 2 ^ 53
    · rw [if_pos h53]
      exact ⟨by simpa using h53, Or.inl rfl⟩
    · rw [if_neg h53]
      have ht2 : t / 2 < 2 ^ (53 + f) := by
        have : (2 : Nat) ^ (53 + (f + 1)) = 2 * 2 ^ (53 + f) := by
          rw [← Nat.add_assoc, Nat.pow_succ]
          ring
        omega
      obtain ⟨i1, i2⟩ := ih (t / 2) ht2
      have p1 : (2 : Nat) ^ (expo f (t / 2) + 1) = 2 * 2 ^ expo f (t / 2) := by
        rw [Nat.pow_succ]
        ring
      rw [p1]
      refine ⟨by omega, Or.inr ?_⟩
      rcases i2 with z | z
      · rw [z]
        have : (2 : Nat) ^ 53 = 2 ^ 52 * (2 * 2 ^ 0) := by norm_num
        omega
      · omega

theorem expo_mono (f : Nat) : ∀ a b : Nat, a ≤ b → expo f a ≤ expo f b := by
  induction f with
  | zero => intro a b _; exact Nat.le_refl _
  | succ f ih =>
    intro a b hab
    unfold expo
    by_cases ha : a < 2 ^ 53
    · rw [if_pos ha]
      exact Nat.zero_le _
    · have hb : ¬ b < 2 ^ 53 := by omega
      rw [if_neg ha, if_neg hb]
      exact Nat.succ_le_succ (ih _ _ (Nat.div_le_div_right hab))

theorem spacing_spec (t : Nat) (ht : t < 2 ^ 2153) :
    t < 2 ^ 53 * spacing t ∧ (spacing t = 1 ∨ 2 ^ 52 * spacing t ≤ t) := by
  rw [spacing_eq]
  obtain ⟨a, b⟩ := expo_spec 2100 t ht
  refine ⟨a, ?_⟩
  rcases b with z | z
  · left
    rw [z]
    rfl
  · exact Or.inr z

theorem spacing_mono (a b : Nat) (hab : a ≤ b) :
    spacing a ≤ spacing b ∧ (spacing a < spacing b → 2 * spacing a ≤ spacing b) := by
  rw [spacing_eq, spacing_eq]
  have h := expo_mono 2100 a b hab
  constructor
  · exact Nat.pow_le_pow_right (by decide) h
  · intro hlt
    have hne : expo 2100 a ≠ expo 2100 b := fun e => by rw [e] at hlt; exact Nat.lt_irrefl _ hlt
    have h1 : expo 2100 a + 1 ≤ expo 2100 b := by omega
    have h2 : (2 : Nat) ^ (expo 2100 a + 1) ≤ 2 ^ expo 2100 b :=
      Nat.pow_le_pow_right (by decide) h1
    rw [Nat.pow_succ] at h2
    omega

theorem spacing_unique (t k : Nat) (hk : k ≤ 2100) (lo : 2 ^ 52 * 2 ^ k ≤ t)
    (hi : t < 2 ^ 53 * 2 ^ k) : spacing t = 2 ^ k := by
  have ht : t < 2 ^ 2153 := by
    have h1 : (2 : Nat) ^ 53 * 2 ^ k ≤ 2 ^ 53 * 2 ^ 2100 :=
      Nat.mul_le_mul_left _ (Nat.pow_le_pow_right (by decide) hk)
    have h2 : (2 : Nat) ^ 53 * 2 ^ 2100 = 2 ^ 2153 := by rw [← Nat.pow_add]
    omega
  rw [spacing_eq]
  obtain ⟨a, b⟩ := expo_spec 2100 t ht
  generalize expo 2100 t = e at a b
  rcases Nat.lt_trichotomy e k with c | c | c
  · exfalso
    have h1 : (2 : Nat) ^ (e + 1) ≤ 2 ^ k := Nat.pow_le_pow_right (by decide) c
    rw [Nat.pow_succ] at h1
    have h2 : (2 : Nat) ^ 53 = 2 ^ 52 * 2 := by norm_num
    have h3 : 2 ^ 53 * 2 ^ e ≤ 2 ^ 52 * 2 ^ k := by
      rw [h2, Nat.mul_assoc]
      exact Nat.mul_le_mul_left _ (by omega)
    omega
  · rw [c]
  · exfalso
    have h1 : (2 : Nat) ^ (k + 1) ≤ 2 ^ e := Nat.pow_le_pow_right (by decide) c
    rw [Nat.pow_succ] at h1
    have h2 : (2 : Nat) ^ 53 = 2 ^ 52 * 2 := by norm_num
    have h3 : 2 ^ 53 * 2 ^ k ≤ 2 ^ 52 * 2 ^ e := by
      rw [h2, Nat.mul_assoc]
      exact Nat.mul_le_mul_left _ (by omega)
    rcases b with z | z
    · omega
    · omega

theorem rne_bounds (p q : Nat) (hq : 0 < q) :
    below p q ≤ rne p q ∧ rne p q ≤ below p q + spacing (p / q) ∧
      below p q * q ≤ p ∧ p < (below p q + spacing (p / q)) * q := by
  have hg := spacing_pos (p / q)
  refine ⟨?_, ?_, ?_, ?_⟩
  · unfold rne
    split_ifs <;> omega
  · unfold rne
    split_ifs <;> omega
  · unfold below
    rw [Nat.mul_assoc, Nat.mul_comm (spacing (p / q)) q]
    exact Nat.div_mul_le_self p _
  · unfold below
    have h := Nat.lt_div_mul_add (a := p) (b := q * spacing (p / q)) (Nat.mul_pos hq hg)
    calc p < p / (q * spacing (p / q)) * (q * spacing (p / q)) + q * spacing (p / q) := h
      _ = (p / (q * spacing (p / q)) * spacing (p / q) + spacing (p / q)) * q := by ring

theorem rne_scale (p q k : Nat) (hk : 0 < k) : rne (p * k) (q * k) = rne p q := by
  have e1 : p * k / (q * k) = p / q := Nat.mul_div_mul_right p q hk
  have e2 : p * k / (q * k * spacing (p / q)) = p / (q * spacing (p / q)) := by
    rw [Nat.mul_right_comm q k, Nat.mul_div_mul_right _ _ hk]
  have e3 : below (p * k) (q * k) = below p q := by
    unfold below
    rw [e1, e2]
  have e4 : p * k - below p q * (q * k) = (p - below p q * q) * k := by
    rw [Nat.sub_mul, Nat.mul_assoc]
  unfold rne
  rw [e3, e1, e2, e4]
  have c1 : 2 * ((p - below p q * q) * k) < spacing (p / q) * (q * k) ↔
      2 * (p - below p q * q) < spacing (p / q) * q := by
    rw [← Nat.mul_assoc, ← Nat.mul_assoc]
    exact Nat.mul_lt_mul_right hk
  have c2 : spacing (p / q) * (q * k) < 2 * ((p - below p q * q) * k) ↔
      spacing (p / q) * q < 2 * (p - below p q * q) := by
    rw [← Nat.mul_assoc, ← Nat.mul_assoc]
    exact Nat.mul_lt_mul_right hk
  simp only [c1, c2]

theorem rne_one (a : Nat) :
    rne a 1 =
      if 2 * (a % spacing a) < spacing a then a / spacing a * spacing a
      else if spacing a < 2 * (a % spacing a) then a / spacing a * spacing a + spacing a
      else if a / spacing a % 2 = 0 then a / spacing a * spacing a
      else a / spacing a * spacing a + spacing a := by
  have e : a - a / spacing a * spacing a = a % spacing a := by
    have := Nat.div_add_mod a (spacing a)
    rw [Nat.mul_comm] at this
    omega
  unfold rne below
  simp only [Nat.div_one, Nat.one_mul, Nat.mul_one, e]

theorem rne_one_mono (a b : Nat) (hab : a ≤ b) (hb : b < 2 ^ 2153) : rne a 1 ≤ rne b 1 := by
  have ha : a < 2 ^ 2153 := Nat.lt_of_le_of_lt hab hb
  obtain ⟨sa1, sa2⟩ := spacing_spec a ha
  obtain ⟨sb1, sb2⟩ := spacing_spec b hb
  obtain ⟨m1, m2⟩ := spacing_mono a b hab
  have ga := spacing_pos a
  have gb := spacing_pos b
  have da := Nat.div_add_mod a (spacing a)
  have db := Nat.div_add_mod b (spacing b)
  have ra := Nat.mod_lt a ga
  have rb := Nat.mod_lt b gb
  rw [rne_one a, rne_one b]
  by_cases hg : spacing a = spacing b
  · rw [← hg] at db rb ⊢
    generalize spacing a = g at *
    have hm : a / g ≤ b / g := Nat.div_le_div_right hab
    rcases Nat.lt_or_ge (a / g) (b / g) with hlt | hge
    · have h1 : (a / g + 1) * g ≤ b / g * g := Nat.mul_le_mul_right g hlt
      rw [Nat.add_mul, Nat.one_mul] at h1
      split_ifs <;> omega
    · have heq : a / g = b / g := Nat.le_antisymm hm hge
      rw [← heq] at db ⊢
      generalize a / g = m at *
      have hr : a % g ≤ b % g := by
        have : g * m + a % g ≤ g * m + b % g := by omega
        omega
      split_ifs <;> omega
  · have hlt : spacing a < spacing b := Nat.lt_of_le_of_ne m1 hg
    have h2 := m2 hlt
    have hb1 : spacing b ≠ 1 := by omega
    have hb2 : 2 ^ 52 * spacing b ≤ b := by
      rcases sb2 with z | z
      · exact absurd z hb1
      · exact z
    -- the mantissa of `a` is below 2^53, that of `b` at least 2^52
    have hma : a / spacing a < 2 ^ 53 := by
      rw [Nat.div_lt_iff_lt_mul ga]
      exact sa1
    have hmb : 2 ^ 52 ≤ b / spacing b := by
      rw [Nat.le_div_iff_mul_le gb]
      exact hb2
    have top : a / spacing a * spacing a + spacing a ≤ 2 ^ 53 * spacing a := by
      have : (a / spacing a + 1) * spacing a ≤ 2 ^ 53 * spacing a :=
        Nat.mul_le_mul_right _ hma
      rw [Nat.add_mul, Nat.one_mul] at this
      exact this
    have bot : 2 ^ 52 * spacing b ≤ b / spacing b * spacing b := Nat.mul_le_mul_right _ hmb
    have mid : 2 ^ 53 * spacing a ≤ 2 ^ 52 * spacing b := by
      have e : (2 : Nat) ^ 53 = 2 ^ 52 * 2 := by norm_num
      rw [e, Nat.mul_assoc]
      exact Nat.mul_le_mul_left _ h2
    generalize a / spacing a * spacing a = la at *
    generalize b / spacing b * spacing b = lb at *
    split_ifs <;> omega

/-! ### WAV reader: the sample loop -/

theorem pollsSucceed_first {φ : Type} (h : Hooks φ) (tick : Nat → Nat) (bpc size : Nat) :
    ∀ (k more i : Nat) (bytes : List Nat) (s : Sim φ),
      pollsSucceed h tick bpc size (k + more) i bytes s → pollsSucceed h tick bpc size k i bytes s := by
  intro k
  induction k with
  | zero => intro _ _ _ _ _; trivial
  | succ k ih =>
    intro more i bytes s hp
    have e : k + 1 + more = (k + more) + 1 := by omega
    rw [e] at hp
    exact ⟨hp.1, ih more _ _ _ hp.2⟩

theorem wavLoop_run {φ : Type} (h : Hooks φ) (hk : KeepsClock h) (tick : Nat → Nat)
    (fuel bpc size : Nat) (hsz : 0 < size) :
    ∀ (k i : Nat) (bytes : List Nat) (s : Sim φ),
      k * size ≤ bytes.length → (1 ≤ k → s.mcu.clock ≤ tick i) →
      (∀ a b, a ≤ b → b < i + k → tick a ≤ tick b) →
      (∀ j, j < i + k → tick j < 2 ^ 32 ∧ tick j ≤ fuel) →
      (s.keep_going = true ∨ pollsSucceed h tick bpc size k i bytes s) →
      ∃ s2, wavLoop h tick fuel bpc size k i bytes s = Except.ok (true, s2) ∧
        (1 ≤ k → s2.mcu.clock = tick (i + k - 1)) ∧
        ∀ more, wavLoop h tick fuel bpc size (k + more) i bytes s =
          wavLoop h tick fuel bpc size more (i + k) (bytes.drop (k * size)) s2 := by
  intro k
  induction k with
  | zero =>
    intro i bytes s _ _ _ _ _
    refine ⟨s, rfl, fun x => absurd x (by decide), ?_⟩
    intro more
    rw [Nat.zero_add, Nat.zero_mul, List.drop_zero, Nat.add_zero]
  | succ k ih =>
    intro i bytes s hlen hc0 hm hb hgo
    have hc : s.mcu.clock ≤ tick i := hc0 (by omega)
    have hlen1 : size ≤ bytes.length := by
      have : (k + 1) * size = k * size + size := by ring
      omega
    have hcond : ¬ (size = 0 ∨ bytes.length < size) := by omega
    obtain ⟨b1, b2⟩ := hb i (by omega)
    have p0 : pace (setTimer1Capture h (sampleHigh bpc (bytes.take size)) s) = pace s :=
      pace_setTimer1Capture h hk _ s
    have c0 : (setTimer1Capture h (sampleHigh bpc (bytes.take size)) s).mcu.clock = s.mcu.clock :=
      congrArg Prod.fst p0
    have g0 : (setTimer1Capture h (sampleHigh bpc (bytes.take size)) s).keep_going =
        s.keep_going := congrArg Prod.snd p0
    have hrun : runClock h (tick i) fuel
        (setTimer1Capture h (sampleHigh bpc (bytes.take size)) s) =
        Except.ok (beforePoll h tick bpc size i bytes s) :=
      runClock_steps h hk (tick i) fuel _ (by rw [c0]; exact hc) b1 (by rw [c0]; omega)
    have p1 : pace (beforePoll h tick bpc size i bytes s) = (tick i, s.keep_going) := by
      unfold beforePoll
      rw [pace_steps h hk _ _ (by rw [c0]; omega), c0, g0]
      have : s.mcu.clock + (tick i - s.mcu.clock) = tick i := by omega
      rw [this]
    have p2 : pace (getData h (beforePoll h tick bpc size i bytes s)).2 =
        (tick i, s.keep_going) := (pace_getData h hk _).trans p1
    have c2 : (getData h (beforePoll h tick bpc size i bytes s)).2.mcu.clock = tick i :=
      congrArg Prod.fst p2
    have g2 : (getData h (beforePoll h tick bpc size i bytes s)).2.keep_going = s.keep_going :=
      congrArg Prod.snd p2
    have hno : ¬ ((getData h (beforePoll h tick bpc size i bytes s)).1 = false ∧
        (getData h (beforePoll h tick bpc size i bytes s)).2.keep_going = false) := by
      rintro ⟨x1, x2⟩
      rcases hgo with g | g
      · rw [g2, g] at x2
        cases x2
      · have := g.1
        rw [x1] at this
        cases this
    have hgo2 : (getData h (beforePoll h tick bpc size i bytes s)).2.keep_going = true ∨
        pollsSucceed h tick bpc size k (i + 1) (bytes.drop size)
          (getData h (beforePoll h tick bpc size i bytes s)).2 := by
      rcases hgo with g | g
      · exact Or.inl (g2.trans g)
      · exact Or.inr g.2
    have hlen2 : k * size ≤ (bytes.drop size).length := by
      rw [List.length_drop]
      have : (k + 1) * size = k * size + size := by ring
      omega
    obtain ⟨s2, r1, r2, r4⟩ := ih (i + 1) (bytes.drop size)
      (getData h (beforePoll h tick bpc size i bytes s)).2 hlen2
      (fun hk1 => by rw [c2]; exact hm _ _ (Nat.le_succ i) (by omega))
      (fun a b hab hb2 => hm a b hab (by omega))
      (fun j hj => hb j (by omega)) hgo2
    have step : ∀ m, wavLoop h tick fuel bpc size (m + 1) i bytes s =
        wavLoop h tick fuel bpc size m (i + 1) (bytes.drop size)
          (getData h (beforePoll h tick bpc size i bytes s)).2 := by
      intro m
      conv_lhs => unfold wavLoop
      rw [if_neg hcond, hrun]
      dsimp only
      rw [if_neg hno]
    refine ⟨s2, ?_, ?_, ?_⟩
    · rw [step k, r1]
    · intro _
      rcases Nat.eq_zero_or_pos k with z | z
      · subst z
        have e : wavLoop h tick fuel bpc size 0 (i + 1) (bytes.drop size)
            (getData h (beforePoll h tick bpc size i bytes s)).2 =
            Except.ok (true, (getData h (beforePoll h tick bpc size i bytes s)).2) := rfl
        rw [e] at r1
        have e2 : (getData h (beforePoll h tick bpc size i bytes s)).2 = s2 := by
          injection r1 with x
          exact (Prod.mk.inj x).2
        have e3 : i + (0 + 1) - 1 = i := by omega
        rw [← e2, c2, e3]
      · have := r2 z
        rw [this]
        congr 1
        omega
    · intro more
      have e1 : k + 1 + more = (k + more) + 1 := by omega
      have e2 : i + (k + 1) = i + 1 + k := by omega
      have e3 : (k + 1) * size = size + k * size := by ring
      rw [e1, step (k + more), r4 more, e2, e3, List.drop_drop]

/-! ### WAV reader: the tick of a sample -/

theorem pow_lt_top (k : Nat) (hk : k ≤ 2153) : (2 : Nat) ^ k ≤ 2 ^ 2153 :=
  Nat.pow_le_pow_right (by decide) hk

theorem rne_one_le (a : Nat) (ha : a < 2 ^ 2153) : rne a 1 ≤ 2 * a + 1 := by
  obtain ⟨_, b2, b3, _⟩ := rne_bounds a 1 Nat.one_pos
  rw [Nat.div_one] at b2
  rw [Nat.mul_one] at b3
  obtain ⟨_, s2⟩ := spacing_spec a ha
  have hp : (1 : Nat) ≤ 2 ^ 52 := Nat.one_le_two_pow
  rcases s2 with z | z
  · omega
  · have : spacing a ≤ 2 ^ 52 * spacing a := Nat.le_mul_of_pos_left _ (by omega)
    omega

theorem clockfreq_eq : clockfreq = 1000000 := by decide

theorem ticksPerSample_scaled (R : Nat) :
    clockTicksPerSample R = rne (clockfreq * ONE) R := by
  unfold clockTicksPerSample divDouble toDouble
  have hO : 0 < ONE := by rw [ONE_eq]; exact Nat.pos_pow_of_pos _ (by decide)
  exact rne_scale (clockfreq * ONE) R ONE hO

theorem sampleTick_scaled (R i : Nat) :
    sampleTick R i = rne (rne (i * clockTicksPerSample R) 1 + ONE / 2) 1 / ONE := by
  have hO : 0 < ONE := by rw [ONE_eq]; exact Nat.pos_pow_of_pos _ (by decide)
  have e : rne (i * ONE * clockTicksPerSample R) ONE = rne (i * clockTicksPerSample R) 1 := by
    have := rne_scale (i * clockTicksPerSample R) 1 ONE hO
    rw [Nat.one_mul] at this
    rw [← this, Nat.mul_right_comm i ONE]
  unfold sampleTick toInt addDouble mulDouble toDouble
  rw [e]

theorem spacing_clockfreq : spacing (clockfreq * ONE) = 2 ^ 1041 := by
  apply spacing_unique _ _ (by decide)
  · have e : (2 : Nat) ^ 52 * 2 ^ 1041 = 2 ^ 19 * ONE := by
      rw [ONE_eq, ← Nat.pow_add, ← Nat.pow_add]
    rw [e, clockfreq_eq]
    exact Nat.mul_le_mul_right _ (by decide)
  · have e : (2 : Nat) ^ 53 * 2 ^ 1041 = 2 ^ 20 * ONE := by
      rw [ONE_eq, ← Nat.pow_add, ← Nat.pow_add]
    have hO : 0 < ONE := by rw [ONE_eq]; exact Nat.pos_pow_of_pos _ (by decide)
    rw [e, clockfreq_eq]
    exact Nat.mul_lt_mul_of_pos_right (by decide) hO

theorem ticksPerSample_le (R : Nat) : clockTicksPerSample R ≤ 2 ^ 20 * ONE := by
  have hO : 0 < ONE := by rw [ONE_eq]; exact Nat.pos_pow_of_pos _ (by decide)
  rw [ticksPerSample_scaled]
  have big : clockfreq * ONE + 2 ^ 1041 ≤ 2 ^ 20 * ONE := by
    have e : ONE = 2 ^ 33 * 2 ^ 1041 := by rw [ONE_eq, ← Nat.pow_add]
    have hp : 0 < (2 : Nat) ^ 1041 := Nat.pos_pow_of_pos _ (by decide)
    rw [e, clockfreq_eq]
    generalize (2 : Nat) ^ 1041 = u at hp
    norm_num
    omega
  rcases Nat.eq_zero_or_pos R with z | z
  · subst z
    have e1 : rne (clockfreq * ONE) 0 ≤ spacing 0 := by
      unfold rne below
      simp
      split_ifs <;> omega
    have e2 : spacing 0 = 1 := rfl
    have : 1 ≤ 2 ^ 20 * ONE := Nat.mul_pos (by decide) hO
    omega
  · obtain ⟨_, b2, b3, _⟩ := rne_bounds (clockfreq * ONE) R z
    have l1 : below (clockfreq * ONE) R ≤ clockfreq * ONE :=
      Nat.le_trans (Nat.le_mul_of_pos_right _ z) b3
    have l2 : spacing (clockfreq * ONE / R) ≤ 2 ^ 1041 := by
      rw [← spacing_clockfreq]
      exact (spacing_mono _ _ (Nat.div_le_self _ _)).1
    omega

theorem sampleTick_mono (R a b : Nat) (hab : a ≤ b) (hb : b < 2 ^ 53) :
    sampleTick R a ≤ sampleTick R b := by
  rw [sampleTick_scaled, sampleTick_scaled]
  apply Nat.div_le_div_right
  have hC := ticksPerSample_le R
  have hM : b * clockTicksPerSample R < 2 ^ 1200 := by
    have h1 : b * clockTicksPerSample R ≤ 2 ^ 53 * (2 ^ 20 * ONE) :=
      Nat.mul_le_mul (Nat.le_of_lt hb) hC
    have h2 : (2 : Nat) ^ 53 * (2 ^ 20 * ONE) = 2 ^ 1147 := by
      rw [ONE_eq, ← Nat.pow_add, ← Nat.pow_add]
    have h3 : (2 : Nat) ^ 1147 < 2 ^ 1200 := Nat.pow_lt_pow_right (by decide) (by decide)
    omega
  have t1 : (2 : Nat) ^ 1200 ≤ 2 ^ 2153 := pow_lt_top _ (by decide)
  have hP : rne (b * clockTicksPerSample R) 1 ≤ 2 * (b * clockTicksPerSample R) + 1 :=
    rne_one_le _ (by omega)
  have hH : ONE / 2 ≤ 2 ^ 1200 := by
    have : ONE ≤ 2 ^ 1200 := by rw [ONE_eq]; exact Nat.pow_le_pow_right (by decide) (by decide)
    omega
  have t2 : 4 * (2 : Nat) ^ 1200 ≤ 2 ^ 2153 := by
    have : (4 : Nat) * 2 ^ 1200 = 2 ^ 1202 := by
      have : (4 : Nat) = 2 ^ 2 := rfl
      rw [this, ← Nat.pow_add]
    rw [this]
    exact pow_lt_top _ (by decide)
  have m1 : rne (a * clockTicksPerSample R) 1 ≤ rne (b * clockTicksPerSample R) 1 :=
    rne_one_mono _ _ (Nat.mul_le_mul_right _ hab) (by omega)
  exact rne_one_mono _ _ (by omega) (by omega)

theorem spacing_le (t : Nat) (h1 : 2 ^ 52 ≤ t) (h2 : t < 2 ^ 2153) : 2 ^ 52 * spacing t ≤ t := by
  rcases (spacing_spec t h2).2 with z | z
  · rw [z, Nat.mul_one]
    exact h1
  · exact z

/-- The core of the error analysis, on the products by `R`: all quantities are
natural numbers, `x` the exact product `i * clockfreq` and `H` one half, both in
units of `2^-1074`. -/
theorem tick_window (x e1 MR g2R PR RH DH kRH g3R QR : Nat)
    (a1 : 2 ^ 52 * e1 ≤ x) (a2 : MR ≤ x + e1) (a3 : x ≤ MR + e1)
    (b1 : 2 ^ 52 * g2R ≤ MR) (b2 : PR ≤ MR + g2R) (b3 : MR ≤ PR + g2R)
    (c1 : 2 ^ 52 * g3R ≤ PR + RH) (c2 : QR ≤ PR + RH + g3R) (c3 : PR + RH ≤ QR + g3R)
    (lo : 2 * kRH + DH ≤ x + RH) (hi : x + RH + DH ≤ 2 * kRH + 2 * RH)
    (err : 8 * (x + 2 * RH) ≤ 2 ^ 52 * (2 * DH)) (hpos : 0 < RH) :
    2 * kRH ≤ QR ∧ QR < 2 * kRH + 2 * RH := by
  norm_num at a1 b1 c1 err
  constructor <;> omega

/-- The error analysis with the unit `U = 2 * H` abstract. -/
theorem tick_window_units (U H A R i k D C g1 g2 P g3 Q : Nat) (hU : U = 2 * H) (hH : 0 < H)
    (hR : 0 < R)
    (fC1 : C * R ≤ A * U + g1 * R) (fC2 : A * U ≤ C * R + g1 * R)
    (fg1 : 2 ^ 52 * (g1 * R) ≤ A * U)
    (fP1 : P ≤ i * C + g2) (fP2 : i * C ≤ P + g2) (fg2 : 2 ^ 52 * g2 ≤ i * C)
    (fQ1 : Q ≤ P + H + g3) (fQ2 : P + H ≤ Q + g3) (fg3 : 2 ^ 52 * g3 ≤ P + H)
    (lo : 2 * k * R + D ≤ 2 * i * A + R) (hi : 2 * i * A + R + D ≤ 2 * (k + 1) * R)
    (err : 8 * (i * A + R) ≤ 2 ^ 52 * D) :
    k * U ≤ Q ∧ Q < (k + 1) * U := by
  subst hU
  have a1 : 2 ^ 52 * (i * (g1 * R)) ≤ i * (A * (2 * H)) := by
    have := Nat.mul_le_mul_left i fg1
    calc 2 ^ 52 * (i * (g1 * R)) = i * (2 ^ 52 * (g1 * R)) := by ring
      _ ≤ i * (A * (2 * H)) := this
  have a2 : i * (C * R) ≤ i * (A * (2 * H)) + i * (g1 * R) := by
    have := Nat.mul_le_mul_left i fC1
    rw [Nat.mul_add] at this
    exact this
  have a3 : i * (A * (2 * H)) ≤ i * (C * R) + i * (g1 * R) := by
    have := Nat.mul_le_mul_left i fC2
    rw [Nat.mul_add] at this
    exact this
  have b1 : 2 ^ 52 * (g2 * R) ≤ i * (C * R) := by
    have := Nat.mul_le_mul_right R fg2
    calc 2 ^ 52 * (g2 * R) = 2 ^ 52 * g2 * R := by ring
      _ ≤ i * C * R := this
      _ = i * (C * R) := by ring
  have b2 : P * R ≤ i * (C * R) + g2 * R := by
    have := Nat.mul_le_mul_right R fP1
    calc P * R ≤ (i * C + g2) * R := this
      _ = i * (C * R) + g2 * R := by ring
  have b3 : i * (C * R) ≤ P * R + g2 * R := by
    have := Nat.mul_le_mul_right R fP2
    calc i * (C * R) = i * C * R := by ring
      _ ≤ (P + g2) * R := this
      _ = P * R + g2 * R := by ring
  have c1 : 2 ^ 52 * (g3 * R) ≤ P * R + H * R := by
    have := Nat.mul_le_mul_right R fg3
    calc 2 ^ 52 * (g3 * R) = 2 ^ 52 * g3 * R := by ring
      _ ≤ (P + H) * R := this
      _ = P * R + H * R := by ring
  have c2 : Q * R ≤ P * R + H * R + g3 * R := by
    have := Nat.mul_le_mul_right R fQ1
    calc Q * R ≤ (P + H + g3) * R := this
      _ = P * R + H * R + g3 * R := by ring
  have c3 : P * R + H * R ≤ Q * R + g3 * R := by
    have := Nat.mul_le_mul_right R fQ2
    calc P * R + H * R = (P + H) * R := by ring
      _ ≤ (Q + g3) * R := this
      _ = Q * R + g3 * R := by ring
  have l1 : 2 * (k * (H * R)) + D * H ≤ i * (A * (2 * H)) + H * R := by
    have := Nat.mul_le_mul_right H lo
    calc 2 * (k * (H * R)) + D * H = (2 * k * R + D) * H := by ring
      _ ≤ (2 * i * A + R) * H := this
      _ = i * (A * (2 * H)) + H * R := by ring
  have l2 : i * (A * (2 * H)) + H * R + D * H ≤ 2 * (k * (H * R)) + 2 * (H * R) := by
    have := Nat.mul_le_mul_right H hi
    calc i * (A * (2 * H)) + H * R + D * H = (2 * i * A + R + D) * H := by ring
      _ ≤ 2 * (k + 1) * R * H := this
      _ = 2 * (k * (H * R)) + 2 * (H * R) := by ring
  have l3 : 8 * (i * (A * (2 * H)) + 2 * (H * R)) ≤ 2 ^ 52 * (2 * (D * H)) := by
    have := Nat.mul_le_mul_right (2 * H) err
    calc 8 * (i * (A * (2 * H)) + 2 * (H * R)) = 8 * (i * A + R) * (2 * H) := by ring
      _ ≤ 2 ^ 52 * D * (2 * H) := this
      _ = 2 ^ 52 * (2 * (D * H)) := by ring
  have hpos : 0 < H * R := Nat.mul_pos hH hR
  obtain ⟨w1, w2⟩ := tick_window (i * (A * (2 * H))) (i * (g1 * R)) (i * (C * R)) (g2 * R)
    (P * R) (H * R) (D * H) (k * (H * R)) (g3 * R) (Q * R) a1 a2 a3 b1 b2 b3 c1 c2 c3 l1 l2 l3 hpos
  constructor
  · apply Nat.le_of_mul_le_mul_right _ hR
    calc k * (2 * H) * R = 2 * (k * (H * R)) := by ring
      _ ≤ Q * R := w1
  · apply Nat.lt_of_mul_lt_mul_right (a := R)
    calc Q * R < 2 * (k * (H * R)) + 2 * (H * R) := w2
      _ = (k + 1) * (2 * H) * R := by ring

theorem ONE_pos : 0 < ONE := by
  rw [ONE_eq]
  exact Nat.pos_pow_of_pos _ (by decide)

theorem ONE_half : ONE = 2 * (ONE / 2) ∧ 2 ^ 52 ≤ ONE / 2 ∧ ONE / 2 < 2 ^ 1074 := by
  have e : ONE = 2 * 2 ^ 1073 := by
    rw [ONE_eq, ← Nat.pow_succ']
  have e2 : ONE / 2 = 2 ^ 1073 := by
    rw [e]
    exact Nat.mul_div_cancel_left _ (by decide)
  rw [e2]
  exact ⟨e, Nat.pow_le_pow_right (by decide) (by decide),
    Nat.pow_lt_pow_right (by decide) (by decide)⟩

/-- The tick of sample `i` is `k` whenever `i * clockfreq / R + 1/2` lies at least
`D/(2R)` inside the interval from `k` to `k + 1` and the rounding errors, of
relative size `2^-52`, are below a quarter of that margin. -/
theorem sampleTick_exact (R i k D : Nat) (hR : 1 ≤ R) (hR2 : R < 2 ^ 32) (hi : 1 ≤ i)
    (lo : 2 * k * R + D ≤ 2 * i * clockfreq + R)
    (hi2 : 2 * i * clockfreq + R + D ≤ 2 * (k + 1) * R)
    (err : 8 * (i * clockfreq + R) ≤ 2 ^ 52 * D) : sampleTick R i = k := by
  have hO := ONE_pos
  obtain ⟨hU, hH1, hH2⟩ := ONE_half
  have hA : 1 ≤ clockfreq := by decide
  have o84 : 2 ^ 84 ≤ ONE := by
    rw [ONE_eq]
    exact Nat.pow_le_pow_right (by decide) (by decide)
  have top1 : 2 ^ 1200 ≤ (2 : Nat) ^ 2153 := pow_lt_top _ (by decide)
  -- the quotient
  have hC := ticksPerSample_scaled R
  obtain ⟨r1, r2, r3, r4⟩ := rne_bounds (clockfreq * ONE) R hR
  rw [← hC] at r1 r2
  have AO1 : ONE ≤ clockfreq * ONE := Nat.le_mul_of_pos_left _ hA
  have AO2 : clockfreq * ONE ≤ 2 ^ 20 * ONE := Nat.mul_le_mul_right _ (by decide)
  have AO3 : (2 : Nat) ^ 20 * ONE < 2 ^ 1200 := by
    rw [ONE_eq, ← Nat.pow_add]
    exact Nat.pow_lt_pow_right (by decide) (by decide)
  have hX1 : 2 ^ 52 ≤ clockfreq * ONE / R := by
    rw [Nat.le_div_iff_mul_le hR]
    have : 2 ^ 52 * R ≤ 2 ^ 52 * 2 ^ 32 := Nat.mul_le_mul_left _ (Nat.le_of_lt hR2)
    have e : (2 : Nat) ^ 52 * 2 ^ 32 = 2 ^ 84 := by rw [← Nat.pow_add]
    omega
  have hX2 : clockfreq * ONE / R < 2 ^ 2153 := by
    have := Nat.div_le_self (clockfreq * ONE) R
    omega
  have fg1 : 2 ^ 52 * (spacing (clockfreq * ONE / R) * R) ≤ clockfreq * ONE := by
    have h1 := Nat.mul_le_mul_right R (spacing_le _ hX1 hX2)
    have h2 := Nat.div_mul_le_self (clockfreq * ONE) R
    rw [Nat.mul_assoc] at h1
    omega
  have fC1 : clockTicksPerSample R * R ≤
      clockfreq * ONE + spacing (clockfreq * ONE / R) * R := by
    have := Nat.mul_le_mul_right R r2
    rw [Nat.add_mul] at this
    omega
  have fC2 : clockfreq * ONE ≤
      clockTicksPerSample R * R + spacing (clockfreq * ONE / R) * R := by
    have := Nat.mul_le_mul_right R (Nat.add_le_add_right r1 (spacing (clockfreq * ONE / R)))
    rw [Nat.add_mul, Nat.add_mul] at this
    rw [Nat.add_mul] at r4
    omega
  -- the product
  have hCl : 2 ^ 52 ≤ clockTicksPerSample R := by
    apply Nat.le_of_mul_le_mul_right _ hR
    have : 2 ^ 53 * R ≤ 2 ^ 53 * 2 ^ 32 := Nat.mul_le_mul_left _ (Nat.le_of_lt hR2)
    have e : (2 : Nat) ^ 53 * 2 ^ 32 = 2 ^ 85 := by rw [← Nat.pow_add]
    have e2 : (2 : Nat) ^ 85 = 2 * 2 ^ 84 := by rw [← Nat.pow_succ']
    norm_num at fg1 this e e2 o84 ⊢
    omega
  have hCu := ticksPerSample_le R
  have hD : D ≤ R := by
    have e1 : 2 * (k + 1) * R = 2 * k * R + 2 * R := by ring
    omega
  have hiu : i ≤ 2 ^ 84 := by
    have h1 : i ≤ i * clockfreq := Nat.le_mul_of_pos_right _ hA
    have h2 : 2 ^ 52 * D ≤ 2 ^ 52 * 2 ^ 32 := Nat.mul_le_mul_left _ (by omega)
    have e : (2 : Nat) ^ 52 * 2 ^ 32 = 2 ^ 84 := by rw [← Nat.pow_add]
    omega
  have hM1 : 2 ^ 52 ≤ i * clockTicksPerSample R :=
    Nat.le_trans hCl (Nat.le_mul_of_pos_left _ hi)
  have hM2 : i * clockTicksPerSample R < 2 ^ 1200 := by
    have h1 : i * clockTicksPerSample R ≤ 2 ^ 84 * (2 ^ 20 * ONE) := Nat.mul_le_mul hiu hCu
    have e : (2 : Nat) ^ 84 * (2 ^ 20 * ONE) = 2 ^ 1178 := by
      rw [ONE_eq, ← Nat.pow_add, ← Nat.pow_add]
    have h3 : (2 : Nat) ^ 1178 < 2 ^ 1200 := Nat.pow_lt_pow_right (by decide) (by decide)
    omega
  obtain ⟨p1, p2, p3, p4⟩ := rne_bounds (i * clockTicksPerSample R) 1 Nat.one_pos
  rw [Nat.div_one] at p2 p4
  rw [Nat.mul_one] at p3 p4
  have fg2 := spacing_le _ hM1 (by omega)
  -- the sum
  have hP := rne_one_le (i * clockTicksPerSample R) (by omega)
  have t2 : 4 * (2 : Nat) ^ 1200 ≤ 2 ^ 2153 := by
    have : (4 : Nat) * 2 ^ 1200 = 2 ^ 1202 := by
      have : (4 : Nat) = 2 ^ 2 := rfl
      rw [this, ← Nat.pow_add]
    rw [this]
    exact pow_lt_top _ (by decide)
  have hH3 : ONE / 2 < 2 ^ 1200 := by
    have : (2 : Nat) ^ 1074 < 2 ^ 1200 := Nat.pow_lt_pow_right (by decide) (by decide)
    omega
  obtain ⟨q1, q2, q3, q4⟩ :=
    rne_bounds (rne (i * clockTicksPerSample R) 1 + ONE / 2) 1 Nat.one_pos
  rw [Nat.div_one] at q2 q4
  rw [Nat.mul_one] at q3 q4
  have fg3 := spacing_le (rne (i * clockTicksPerSample R) 1 + ONE / 2) (by omega) (by omega)
  obtain ⟨w1, w2⟩ := tick_window_units ONE (ONE / 2) clockfreq R i k D
    (clockTicksPerSample R) (spacing (clockfreq * ONE / R))
    (spacing (i * clockTicksPerSample R)) (rne (i * clockTicksPerSample R) 1)
    (spacing (rne (i * clockTicksPerSample R) 1 + ONE / 2))
    (rne (rne (i * clockTicksPerSample R) 1 + ONE / 2) 1)
    hU (by omega) hR fC1 fC2 fg1 (by omega) (by omega) fg2 (by omega) (by omega) fg3
    lo hi2 err
  rw [sampleTick_scaled]
  exact Nat.div_eq_of_lt_le w1 w2

theorem keepsClock_idle : KeepsClock idle :=
  ⟨fun _ => rfl, fun _ => rfl, fun _ => rfl, fun _ => rfl, fun _ => rfl, fun _ => rfl,
    fun _ => rfl, fun _ => rfl, fun _ => rfl⟩

theorem wavBytes_cons (R : Nat) (data : List Nat) :
    wavBytes R data =
      0x52 :: 0x49 :: 0x46 :: 0x46 ::
      ((36 + data.length) % 2 ^ 32 % 256) :: ((36 + data.length) % 2 ^ 32 / 256 % 256) ::
      ((36 + data.length) % 2 ^ 32 / 65536 % 256) ::
      ((36 + data.length) % 2 ^ 32 / 16777216 % 256) ::
      0x57 :: 0x41 :: 0x56 :: 0x45 :: 0x66 :: 0x6D :: 0x74 :: 0x20 ::
      16 :: 0 :: 0 :: 0 :: 1 :: 0 :: 1 :: 0 ::
      (R % 256) :: (R / 256 % 256) :: (R / 65536 % 256) :: (R / 16777216 % 256) ::
      (R % 256) :: (R / 256 % 256) :: (R / 65536 % 256) :: (R / 16777216 % 256) ::
      1 :: 0 :: 8 :: 0 :: 0x64 :: 0x61 :: 0x74 :: 0x61 ::
      (data.length % 256) :: (data.length / 256 % 256) :: (data.length / 65536 % 256) ::
      (data.length / 16777216 % 256) :: data := by
  simp [wavBytes, le32, le16, RIFF, WAVE, FMT, DATA]

theorem header_wavBytes (R : Nat) (data : List Nat) (hR : R < 2 ^ 32)
    (hd : data.length < 2 ^ 29) :
    ¬ rejects (wavBytes R data) ∧
      (header (wavBytes R data)).channels = 1 ∧
      (header (wavBytes R data)).bits_per_sample = 8 ∧
      (header (wavBytes R data)).sample_rate = R ∧
      sample_size (header (wavBytes R data)) = 1 ∧
      bytes_per_channel (header (wavBytes R data)) = 1 ∧
      num_samples (header (wavBytes R data)) = data.length ∧
      (wavBytes R data).drop 44 = data := by
  have a1 : (header (wavBytes R data)).riff = RIFF := by rw [wavBytes_cons]; rfl
  have a3 : (header (wavBytes R data)).wave = WAVE := by rw [wavBytes_cons]; rfl
  have a4 : (header (wavBytes R data)).fmt_chunk_marker = FMT := by rw [wavBytes_cons]; rfl
  have a12 : (header (wavBytes R data)).data_chunk_header = DATA := by rw [wavBytes_cons]; rfl
  have a6 : (header (wavBytes R data)).format_type = 1 := by
    rw [wavBytes_cons]; simp [header, field, le]
  have a7 : (header (wavBytes R data)).channels = 1 := by
    rw [wavBytes_cons]; simp [header, field, le]
  have a11 : (header (wavBytes R data)).bits_per_sample = 8 := by
    rw [wavBytes_cons]; simp [header, field, le]
  have a8 : (header (wavBytes R data)).sample_rate = R := by
    rw [wavBytes_cons]
    show R % 256 + 256 * (R / 256 % 256 + 256 * (R / 65536 % 256 +
      256 * (R / 16777216 % 256 + 256 * 0))) = R
    omega
  have a13 : (header (wavBytes R data)).data_size = data.length := by
    rw [wavBytes_cons]
    show data.length % 256 + 256 * (data.length / 256 % 256 + 256 * (data.length / 65536 % 256 +
      256 * (data.length / 16777216 % 256 + 256 * 0))) = data.length
    omega
  have a14 : (wavBytes R data).drop 44 = data := by rw [wavBytes_cons]; rfl
  have alen : (wavBytes R data).length = 44 + data.length := by
    rw [wavBytes_cons]
    simp
    omega
  have hrej : ¬ rejects (wavBytes R data) := by
    unfold rejects
    rw [a1, a4, a3, a12, a6, alen]
    simp
  have hss : sample_size (header (wavBytes R data)) = 1 := by
    unfold sample_size
    rw [a7, a11]
  have hbc : bytes_per_channel (header (wavBytes R data)) = 1 := by
    unfold bytes_per_channel
    rw [hss, a7]
  have hns : num_samples (header (wavBytes R data)) = data.length := by
    unfold num_samples
    rw [a7, a11, a13]
    have : (2 : Nat) ^ 29 * 8 = 2 ^ 32 := by norm_num
    have e : 8 * data.length % 2 ^ 32 = 8 * data.length := Nat.mod_eq_of_lt (by omega)
    rw [e]
    omega
  exact ⟨hrej, a7, a11, a8, hss, hbc, hns, a14⟩

theorem num_samples_lt (hd : WAV_HEADER) : num_samples hd < 2 ^ 32 := by
  unfold num_samples
  exact Nat.lt_of_le_of_lt (Nat.div_le_self _ _) (Nat.mod_lt _ (by decide))

theorem sampleTick_second (R : Nat) (hR : 1 ≤ R) (hR2 : R < 2 ^ 32) :
    sampleTick R R = clockfreq := by
  apply sampleTick_exact R R clockfreq R hR hR2 hR
  · rw [clockfreq_eq]
    have : 2 * 1000000 * R = 2 * R * 1000000 := by ring
    omega
  · rw [clockfreq_eq]
    have : 2 * (1000000 + 1) * R = 2 * R * 1000000 + 2 * R := by ring
    omega
  · rw [clockfreq_eq]
    norm_num
    omega

theorem sampleTick_round (R i : Nat) (hR : 1 ≤ R) (hR2 : R < 2 ^ 32) (hi : 1 ≤ i)
    (hs : i * clockfreq + R ≤ 2 ^ 49) (ht : (2 * i * clockfreq + R) % (2 * R) ≠ 0) :
    sampleTick R i = (2 * i * clockfreq + R) / (2 * R) := by
  have d := Nat.div_add_mod (2 * i * clockfreq + R) (2 * R)
  have m := Nat.mod_lt (2 * i * clockfreq + R) (show 0 < 2 * R by omega)
  apply sampleTick_exact R i _ 1 hR hR2 hi
  · have e : 2 * ((2 * i * clockfreq + R) / (2 * R)) * R =
        2 * R * ((2 * i * clockfreq + R) / (2 * R)) := by ring
    omega
  · have e : 2 * ((2 * i * clockfreq + R) / (2 * R) + 1) * R =
        2 * R * ((2 * i * clockfreq + R) / (2 * R)) + 2 * R := by ring
    omega
  · norm_num
    norm_num at hs
    omega

theorem readWAV_clock {φ : Type} (h : Hooks φ) (hk : KeepsClock h) (fuel n : Nat)
    (f : List Nat) (s : Sim φ) (hc : s.mcu.clock = 0) (hrej : ¬ rejects f)
    (hdiv : (header f).channels * (header f).bits_per_sample ≠ 0 ∧
      (header f).channels * (header f).bits_per_sample < 2 ^ 31)
    (hgeo : bytes_per_channel (header f) * (header f).channels = sample_size (header f))
    (hsz : 0 < sample_size (header f))
    (hn : n ≤ num_samples (header f))
    (hlen : n * sample_size (header f) ≤ (f.drop 44).length)
    (hfit : sampleTick (header f).sample_rate n < 2 ^ 31)
    (hfuel : sampleTick (header f).sample_rate n ≤ fuel)
    (hgo : s.keep_going = true ∨
      pollsSucceed h (sampleTick (header f).sample_rate) (bytes_per_channel (header f))
        (sample_size (header f)) n 1 (f.drop 44) s) :
    ∀ i, 1 ≤ i → i ≤ n →
      ∃ s2,
        wavLoop h (sampleTick (header f).sample_rate) fuel (bytes_per_channel (header f))
            (sample_size (header f)) i 1 (f.drop 44) s = Except.ok (true, s2) ∧
          s2.mcu.clock = sampleTick (header f).sample_rate i ∧
          readWAV h sampleTick fuel (some f) s =
            wavLoop h (sampleTick (header f).sample_rate) fuel (bytes_per_channel (header f))
              (sample_size (header f)) (num_samples (header f) - i) (1 + i)
              ((f.drop 44).drop (i * sample_size (header f))) s2 := by
  intro i hi1 hin
  have hN := num_samples_lt (header f)
  have h53 : (2 : Nat) ^ 32 < 2 ^ 53 := by decide
  have hmono : ∀ a b, a ≤ b → b < 1 + i →
      sampleTick (header f).sample_rate a ≤ sampleTick (header f).sample_rate b :=
    fun a b hab hb => sampleTick_mono _ a b hab (by omega)
  have hbound : ∀ j, j < 1 + i →
      sampleTick (header f).sample_rate j < 2 ^ 32 ∧
        sampleTick (header f).sample_rate j ≤ fuel := by
    intro j hj
    have := sampleTick_mono (header f).sample_rate j n (by omega) (by omega)
    have : (2 : Nat) ^ 31 < 2 ^ 32 := by decide
    constructor <;> omega
  have hgo2 : s.keep_going = true ∨
      pollsSucceed h (sampleTick (header f).sample_rate) (bytes_per_channel (header f))
        (sample_size (header f)) i 1 (f.drop 44) s := by
    rcases hgo with g | g
    · exact Or.inl g
    · right
      have e : n = i + (n - i) := by omega
      rw [e] at g
      exact pollsSucceed_first h _ _ _ i (n - i) 1 _ s g
  have hlen2 : i * sample_size (header f) ≤ (f.drop 44).length :=
    Nat.le_trans (Nat.mul_le_mul_right _ hin) hlen
  obtain ⟨s2, r1, r2, r3⟩ := wavLoop_run h hk (sampleTick (header f).sample_rate) fuel
    (bytes_per_channel (header f)) (sample_size (header f)) hsz i 1 (f.drop 44) s hlen2
    (fun _ => by rw [hc]; exact Nat.zero_le _) hmono hbound hgo2
  refine ⟨s2, r1, ?_, ?_⟩
  · rw [r2 hi1]
    congr 1
    omega
  · have e : readWAV h sampleTick fuel (some f) s =
        wavLoop h (sampleTick (header f).sample_rate) fuel (bytes_per_channel (header f))
          (sample_size (header f)) (num_samples (header f)) 1 (f.drop 44) s := by
      unfold readWAV
      dsimp only
      rw [if_neg hrej, if_neg (by omega), if_neg (by rw [hgeo]; simp)]
    have e2 : num_samples (header f) = i + (num_samples (header f) - i) := by omega
    rw [e]
    conv_lhs => rw [e2]
    exact r3 _

theorem wavBytes_ready (R : Nat) (data : List Nat) (hR : R < 2 ^ 32)
    (hd : data.length < 2 ^ 29) :
    ((header (wavBytes R data)).channels * (header (wavBytes R data)).bits_per_sample ≠ 0 ∧
        (header (wavBytes R data)).channels * (header (wavBytes R data)).bits_per_sample
          < 2 ^ 31) ∧
      bytes_per_channel (header (wavBytes R data)) * (header (wavBytes R data)).channels =
        sample_size (header (wavBytes R data)) ∧
      0 < sample_size (header (wavBytes R data)) ∧
      data.length ≤ num_samples (header (wavBytes R data)) ∧
      data.length * sample_size (header (wavBytes R data)) ≤
        ((wavBytes R data).drop 44).length := by
  obtain ⟨_, a7, a11, _, hss, hbc, hns, a14⟩ := header_wavBytes R data hR hd
  rw [a7, a11, hss, hbc, hns, a14]
  norm_num

/-! ### CSV reader: the records -/

set_option maxRecDepth 100000

theorem csv_scenario :
    noted (readCSV edges unchanged 500 (some [(0, 0), (100, 1), (5000, 0)])
      (simEdges (bit ICES1))) = some (true, [(10, true), (500, false)], 2) := by
  decide

/-- C11 (amended): `readCSV` from clock 0, with firmware that does not write
the clock, `keep_going` set, a first record time `t0` other than 99999999,
non-decreasing record times less than `2^31` above `t0` and fuel for the last
tick, returns `true`, and every record `(t, v)` is applied as
`setTimer1Capture(v != 0)`, after the poll, on a state whose clock is
`(t - t0)/10`. For the records `(0,0)`, `(100,1)`, `(5000,0)`, rising edges
selected, the noise canceler disabled and a capture handler that notes the tick
and edge and selects the opposite edge, the handler is called exactly twice: at
tick 10 for a rising edge and at tick 500 for a falling edge. -/
theorem csv_feed_at_scaled_time {φ : Type} (h : Hooks φ) (hk : KeepsClock h)
    (store : Nat → φ → φ) (fuel : Nat) (t0 v0 : Int) (rest : List (Int × Int)) (s : Sim φ)
    (hc : s.mcu.clock = 0) (hg : s.keep_going = true) (h0 : t0 ≠ 99999999)
    (hs : List.Chain (fun a b : Int × Int => a.1 ≤ b.1) (t0, v0) rest)
    (hb : ∀ r ∈ rest, r.1 - t0 < 2 ^ 31) (hf : ∀ r ∈ rest, tickOf t0 r.1 ≤ fuel) :
    (readCSV h store fuel (some ((t0, v0) :: rest)) s =
        Except.ok (true, feedAt h t0 ((t0, v0) :: rest)
          (setMinGoodPulses store s)) ∧
      ∀ pre r post, (t0, v0) :: rest = pre ++ r :: post →
        (getData h (steps h
          (tickOf t0 r.1 -
            (feedAt h t0 pre (setMinGoodPulses store s)).mcu.clock)
          (feedAt h t0 pre (setMinGoodPulses store s)))).2.mcu.clock
          = tickOf t0 r.1) ∧
      noted (readCSV edges unchanged 500 (some [(0, 0), (100, 1), (5000, 0)])
        (simEdges (bit ICES1))) = some (true, [(10, true), (500, false)], 2) := by
  have z : tickOf t0 t0 = 0 := by
    unfold tickOf
    simp
  have l := csvLoop_feedAt h hk fuel t0 h0 ((t0, v0) :: rest) (t0, v0)
    (setMinGoodPulses store s)
    (List.chain_cons.mpr ⟨le_refl _, hs⟩) (le_refl _) (hc.trans z.symm) hg
    (by
      intro r hr
      rcases List.mem_cons.mp hr with e | e
      · rw [e]
        show t0 - t0 < 2 ^ 31
        simp
      · exact hb r e)
    (by
      intro r hr
      rcases List.mem_cons.mp hr with e | e
      · rw [e]
        show tickOf t0 t0 ≤ fuel
        rw [z]
        exact Nat.zero_le _
      · exact hf r e)
  refine ⟨⟨?_, l.2⟩, csv_scenario⟩
  show csvLoop h fuel 99999999 ((t0, v0) :: rest) _ = _
  rw [csvLoop_first h fuel t0 v0 rest _ h0]
  exact l.1

/-- Witness of `csv_feed_at_scaled_time`: the three records of the scenario
with the firmware `edges`; the run returns, and the record `(100,1)` is applied
at tick 10. -/
theorem csv_feed_at_scaled_time_witness :
    readCSV edges unchanged 500 (some [(0, 0), (100, 1), (5000, 0)]) (simEdges (bit ICES1)) =
        Except.ok (true, feedAt edges 0 [(0, 0), (100, 1), (5000, 0)]
          (setMinGoodPulses unchanged (simEdges (bit ICES1)))) ∧
      tickOf 0 ((100, 1) : Int × Int).1 = 10 ∧
      (getData edges (steps edges
        (tickOf 0 ((100, 1) : Int × Int).1 -
          (feedAt edges 0 [(0, 0)]
            (setMinGoodPulses unchanged (simEdges (bit ICES1)))).mcu.clock)
        (feedAt edges 0 [(0, 0)]
          (setMinGoodPulses unchanged (simEdges (bit ICES1)))))).2.mcu.clock =
        tickOf 0 ((100, 1) : Int × Int).1 :=
  ⟨(csv_feed_at_scaled_time edges keepsClock_edges unchanged 500 0 0
      [(100, 1), (5000, 0)] (simEdges (bit ICES1)) rfl rfl (by decide)
      (List.Chain.cons (by decide) (List.Chain.cons (by decide) List.Chain.nil)) (by decide)
      (by decide)).1.1,
    by decide,
    (csv_feed_at_scaled_time edges keepsClock_edges unchanged 500 0 0
      [(100, 1), (5000, 0)] (simEdges (bit ICES1)) rfl rfl (by decide)
      (List.Chain.cons (by decide) (List.Chain.cons (by decide) List.Chain.nil)) (by decide)
      (by decide)).1.2 [(0, 0)] (100, 1) [(5000, 0)] rfl⟩

/-- C11 as stated fails with the noise canceler enabled: same records, rising
edges selected and `ICNC1` set. The high level fed at tick 10 comes 10 ticks
after the clock value 0 that `timer1captPrevClock` starts with, fewer than 20, so
it is not accepted; the low level fed at tick 500 then is no transition. The
capture handler is never called. -/
theorem csv_noise_canceler_counterexample :
    noted (readCSV edges unchanged 500 (some [(0, 0), (100, 1), (5000, 0)])
      (simEdges (bit ICES1 ||| bit ICNC1))) = some (true, [], 0) := by
  decide

/-! ### WAV reader: the clock after each sample -/

theorem sampleTick_ties :
    sampleTick 48000 3 = 63 ∧ 2 * (3 * clockfreq) = 48000 * (2 * 62 + 1) ∧
      sampleTick 48000 195 = 4062 ∧ 2 * (195 * clockfreq) = 48000 * (2 * 4062 + 1) := by
  decide

/-- C10 (amended): in `readWAV` from clock 0, with hooks that do not write the
clock and every poll succeeding (or `keep_going` set), on a file of sample rate
`R ≥ 1` that holds the first `n` samples and whose tick of sample `n` fits an
`int` and the fuel: after the `i`-th sample, `1 ≤ i ≤ n`, has been consumed the
clock equals `sampleTick R i`, the value of `int(i*clockTicksPerSample+0.5)` in
binary64 arithmetic, and the run goes on from there. That value is the nearest
integer to `i * clockfreq / R` whenever this quotient is not exactly halfway
between two integers and `i * clockfreq + R ≤ 2^49`; at an exact tie the rounding
of the `double` arithmetic decides: at 48000 Hz sample 3 (62.5) gives 63 and
sample 195 (4062.5) gives 4062. A file of exactly `R` samples at rate `R` ends
with the clock equal to `clockfreq`. -/
theorem wav_clock_targets {φ : Type} (h : Hooks φ) (hk : KeepsClock h) (fuel n : Nat)
    (f : List Nat) (s : Sim φ) (hc : s.mcu.clock = 0) (hrej : ¬ rejects f)
    (hdiv : (header f).channels * (header f).bits_per_sample ≠ 0 ∧
      (header f).channels * (header f).bits_per_sample < 2 ^ 31)
    (hgeo : bytes_per_channel (header f) * (header f).channels = sample_size (header f))
    (hsz : 0 < sample_size (header f))
    (hR : 1 ≤ (header f).sample_rate)
    (hn : n ≤ num_samples (header f))
    (hlen : n * sample_size (header f) ≤ (f.drop 44).length)
    (hfit : sampleTick (header f).sample_rate n < 2 ^ 31)
    (hfuel : sampleTick (header f).sample_rate n ≤ fuel)
    (hgo : s.keep_going = true ∨
      pollsSucceed h (sampleTick (header f).sample_rate) (bytes_per_channel (header f))
        (sample_size (header f)) n 1 (f.drop 44) s) :
    (∀ i, 1 ≤ i → i ≤ n →
      ∃ s2,
        wavLoop h (sampleTick (header f).sample_rate) fuel (bytes_per_channel (header f))
            (sample_size (header f)) i 1 (f.drop 44) s = Except.ok (true, s2) ∧
          s2.mcu.clock = sampleTick (header f).sample_rate i ∧
          readWAV h sampleTick fuel (some f) s =
            wavLoop h (sampleTick (header f).sample_rate) fuel (bytes_per_channel (header f))
              (sample_size (header f)) (num_samples (header f) - i) (1 + i)
              ((f.drop 44).drop (i * sample_size (header f))) s2) ∧
      (∀ i, 1 ≤ i → (header f).sample_rate < 2 ^ 32 →
        i * clockfreq + (header f).sample_rate ≤ 2 ^ 49 →
        (2 * i * clockfreq + (header f).sample_rate) % (2 * (header f).sample_rate) ≠ 0 →
        sampleTick (header f).sample_rate i =
          (2 * i * clockfreq + (header f).sample_rate) / (2 * (header f).sample_rate)) ∧
      (n = (header f).sample_rate → num_samples (header f) = (header f).sample_rate →
        ∃ s2, readWAV h sampleTick fuel (some f) s = Except.ok (true, s2) ∧
          s2.mcu.clock = clockfreq) ∧
      sampleTick 48000 3 = 63 ∧ 2 * (3 * clockfreq) = 48000 * (2 * 62 + 1) ∧
      sampleTick 48000 195 = 4062 ∧ 2 * (195 * clockfreq) = 48000 * (2 * 4062 + 1) := by
  have run := readWAV_clock h hk fuel n f s hc hrej hdiv hgeo hsz hn hlen hfit hfuel hgo
  refine ⟨run, ?_, ?_, sampleTick_ties⟩
  · intro i hi hR2 hs ht
    exact sampleTick_round _ i hR hR2 hi hs ht
  · intro e1 e2
    have hN := num_samples_lt (header f)
    obtain ⟨s2, _, r2, r3⟩ := run n (by omega) (Nat.le_refl n)
    refine ⟨s2, ?_, ?_⟩
    · rw [r3]
      have e3 : num_samples (header f) - n = 0 := by omega
      rw [e3]
      rfl
    · rw [r2, e1]
      exact sampleTick_second _ hR (by omega)

/-- Witness of `wav_clock_targets`: 44100 samples of 8 bits at 44100 Hz, idle
firmware, `keep_going` set; the run returns with the clock at `clockfreq`. -/
theorem wav_clock_targets_witness :
    ∃ s2, readWAV idle sampleTick 1000000
        (some (wavBytes 44100 (List.replicate 44100 200))) simKeep = Except.ok (true, s2) ∧
      s2.mcu.clock = clockfreq :=
  have hw := header_wavBytes 44100 (List.replicate 44100 200) (by decide)
    (by rw [List.length_replicate]; decide)
  have hy := wavBytes_ready 44100 (List.replicate 44100 200) (by decide)
    (by rw [List.length_replicate]; decide)
  have hl : (List.replicate 44100 200).length = 44100 := List.length_replicate _ _
  (wav_clock_targets idle keepsClock_idle 1000000 44100
    (wavBytes 44100 (List.replicate 44100 200)) simKeep rfl hw.1 hy.1 hy.2.1 hy.2.2.1
    (by rw [hw.2.2.2.1]; decide)
    (by rw [hw.2.2.2.2.2.2.1, hl])
    (by have y := hy.2.2.2.2; rw [hl] at y; exact y)
    (by rw [hw.2.2.2.1, sampleTick_second 44100 (by decide) (by decide)]; decide)
    (by rw [hw.2.2.2.1, sampleTick_second 44100 (by decide) (by decide)]; decide)
    (Or.inl rfl)).2.2.1 hw.2.2.2.1.symm (by rw [hw.2.2.2.2.2.2.1, hl, hw.2.2.2.1])

/-- C10 as stated fails at exact ties: an 8-bit mono file of 195 samples at
48000 Hz, idle firmware, `keep_going` set. After the third sample the clock is
63 where `3 * clockfreq / 48000 = 62.5`, and at the end, after sample 195, it is
4062 where `195 * clockfreq / 48000 = 4062.5`. Rounding ties upward gives 63 and
4063, rounding ties to even gives 62 and 4062: neither is what the code
does. -/
theorem wav_clock_tie_counterexample :
    2 * (3 * clockfreq) = 48000 * (2 * 62 + 1) ∧
      2 * (195 * clockfreq) = 48000 * (2 * 4062 + 1) ∧
      (∃ s2, wavLoop idle (sampleTick 48000) 5000 1 1 3 1 (List.replicate 195 200) simKeep =
          Except.ok (true, s2) ∧ s2.mcu.clock = 63) ∧
      ∃ s2, readWAV idle sampleTick 5000 (some (wavBytes 48000 (List.replicate 195 200)))
          simKeep = Except.ok (true, s2) ∧ s2.mcu.clock = 4062 := by
  obtain ⟨hrej, a7, a11, hsr, hss, hbc, hns, a14⟩ :=
    header_wavBytes 48000 (List.replicate 195 200) (by decide)
      (by rw [List.length_replicate]; decide)
  obtain ⟨y1, y2, y3, y4, y5⟩ :=
    wavBytes_ready 48000 (List.replicate 195 200) (by decide)
      (by rw [List.length_replicate]; decide)
  have hl : (List.replicate 195 200).length = 195 := List.length_replicate _ _
  obtain ⟨t1, t2, t3, t4⟩ := sampleTick_ties
  have run := readWAV_clock idle keepsClock_idle 5000 195
    (wavBytes 48000 (List.replicate 195 200)) simKeep rfl hrej y1 y2 y3
    (by rw [hns, hl])
    (by rw [hl] at y5; exact y5)
    (by rw [hsr, t3]; decide)
    (by rw [hsr, t3]; decide)
    (Or.inl rfl)
  refine ⟨t2, t4, ?_, ?_⟩
  · obtain ⟨s2, r1, r2, _⟩ := run 3 (by decide) (by decide)
    rw [hsr, hbc, hss, a14] at r1
    rw [hsr, t1] at r2
    exact ⟨s2, r1, r2⟩
  · obtain ⟨s2, _, r2, r3⟩ := run 195 (by decide) (by decide)
    rw [hsr, t3] at r2
    rw [hns, hl] at r3
    exact ⟨s2, r3, r2⟩

end ACR
